import Mathlib

/-!
# Occlusion engine (`MapManager`) and propagation models

Shallow embedding of `src/world/shadowing/MapManager.cc`, of the three shadowing models
`ShadowPropagationLossModel.cc`, `PenetrationPropagationLossModel.cc` and
`DiffractionPropagationLossModel.cc`, and of
`src/linklayer/radio/propagation/TwoRayInterferenceModel.cc`.

Conventions of the embedding:

* `float` and `double` values are exact rationals (`ℚ`): rounding is not
  modelled, every arithmetic operation is the exact one.
* `std::numeric_limits<double>::epsilon()` is `2⁻⁵²`.
* `abs` is the absolute value of its `double` argument.
* `unsigned int` identifiers are natural numbers; the cast `(int) ID` is two's
  complement on 32 bits.
* The cache `allBuildings` is passed explicitly as a list, in insertion order.
* The scenario database is the result of the queries that `getBuildingsInArea` sends
  (`Database`); the numbers in the query text and the parsing of the result are exact. The
  building query is sent as text in which the midpoint coordinates follow a minus sign: with
  a negative coordinate the text holds `--`, an SQL comment, and the query fails
  (`getBuildingsInArea.rQ`).
* The propagation models are translated over an ordered field `α` that stands for `double`
  and over the library functions they call (`Libm`); `Libm.real` is the library in exact
  real arithmetic. Division by zero and NaN are not modelled: the theorems assume non-zero
  divisors where the code divides by an input.
-/

namespace MapManager

/-- Planar coordinate, the `Coord` of the simulation kernel (only `x` and `y` are used). -/
structure Coord where
  x : ℚ
  y : ℚ
  deriving DecidableEq

/-- Structure of a corner. -/
structure Corner where
  id : Nat
  posX : ℚ
  posY : ℚ
  deriving DecidableEq

/-- Structure of a wall. -/
structure Wall where
  from_corner : Corner
  to_corner : Corner
  deriving DecidableEq

/-- Structure of a building. -/
structure Building where
  ID : Nat
  minX : ℚ
  minY : ℚ
  maxX : ℚ
  maxY : ℚ
  walls : List Wall
  deriving DecidableEq

/-- The value of `std::numeric_limits<double>::epsilon()`. -/
def epsilon : ℚ := 1 / 2 ^ 52

/-- The conversion `(int) u` of an `unsigned int`. -/
def castInt (u : Nat) : Int :=
  if u % 2 ^ 32 < 2 ^ 31 then ((u % 2 ^ 32 : Nat) : Int) else ((u % 2 ^ 32 : Nat) : Int) - 2 ^ 32

/-- Local `det` of `getIntersection`: `|P2-P1  P3-P4|`. -/
def det (P1x P1y P2x P2y P3x P3y P4x P4y : ℚ) : ℚ :=
  (P2x - P1x) * (P3y - P4y) - (P2y - P1y) * (P3x - P4x)

/-- Local `detA` of `getIntersection`: `|P3-P1  P3-P4|`. -/
def detA (P1x P1y _P2x _P2y P3x P3y P4x P4y : ℚ) : ℚ :=
  (P3x - P1x) * (P3y - P4y) - (P3y - P1y) * (P3x - P4x)

/-- Local `detB` of `getIntersection`: `|P2-P1  P3-P1|`. -/
def detB (P1x P1y P2x P2y P3x P3y _P4x _P4y : ℚ) : ℚ :=
  (P2x - P1x) * (P3y - P1y) - (P2y - P1y) * (P3x - P1x)

/-- Local `a` of `getIntersection`: the Cramer coefficient along the first segment. -/
def coefA (P1x P1y P2x P2y P3x P3y P4x P4y : ℚ) : ℚ :=
  detA P1x P1y P2x P2y P3x P3y P4x P4y / det P1x P1y P2x P2y P3x P3y P4x P4y

/-- Local `b` of `getIntersection`: the Cramer coefficient along the second segment. -/
def coefB (P1x P1y P2x P2y P3x P3y P4x P4y : ℚ) : ℚ :=
  detB P1x P1y P2x P2y P3x P3y P4x P4y / det P1x P1y P2x P2y P3x P3y P4x P4y

/-- Local flag `intersect` of `getIntersection`, as it stands when the
final `if (intersect)` is reached. -/
def intersect (P1x P1y P2x P2y P3x P3y P4x P4y : ℚ) : Bool :=
  if |det P1x P1y P2x P2y P3x P3y P4x P4y| < epsilon then
    false
  else
    if coefA P1x P1y P2x P2y P3x P3y P4x P4y ≥ 0 ∧ coefA P1x P1y P2x P2y P3x P3y P4x P4y ≤ 1
        ∧ coefB P1x P1y P2x P2y P3x P3y P4x P4y ≥ 0 ∧ coefB P1x P1y P2x P2y P3x P3y P4x P4y ≤ 1 then
      true
    else
      false

/-- Returns the intersection point between two vector line segments.
The first line is determined by P1 and P2, the second one by P3 and P4. -/
def getIntersection (P1x P1y P2x P2y P3x P3y P4x P4y : ℚ) : Coord :=
  if intersect P1x P1y P2x P2y P3x P3y P4x P4y = true then
    ⟨P1x + coefA P1x P1y P2x P2y P3x P3y P4x P4y * (P2x - P1x),
     P1y + coefA P1x P1y P2x P2y P3x P3y P4x P4y * (P2y - P1y)⟩
  else
    ⟨0, 0⟩

/-- The point `(x, y)` lies in the min-max-area of the building. -/
def Building.inArea (b : Building) (x y : ℚ) : Prop :=
  b.minX ≤ x ∧ x ≤ b.maxX ∧ b.minY ≤ y ∧ y ≤ b.maxY

instance (b : Building) (x y : ℚ) : Decidable (b.inArea x y) := by
  unfold Building.inArea
  infer_instance

/-- The point `(x, y)` lies on one of the four edges of the min-max-area of the building. -/
def Building.onOutline (b : Building) (x y : ℚ) : Prop :=
  b.inArea x y ∧ (x = b.minX ∨ x = b.maxX ∨ y = b.minY ∨ y = b.maxY)

instance (b : Building) (x y : ℚ) : Decidable (b.onOutline x y) := by
  unfold Building.onOutline
  infer_instance

/-- The test `v.x != 0 || v.y != 0` by which the callers of `getIntersection` recognise an
intersection in the returned value. -/
def reported (v : Coord) : Prop := v.x ≠ 0 ∨ v.y ≠ 0

instance (v : Coord) : Decidable (reported v) := by
  unfold reported
  infer_instance

/-- Inner loop of `getIntersectionBetween` over the walls of one building;
`intersections` is the vector collected so far. -/
def getIntersectionBetween.wallLoop (tx_x tx_y rx_x rx_y : ℚ) :
    List Wall → List Coord → List Coord
  | [], intersections => intersections
  | itWalls :: rest, intersections =>
    let v := getIntersection tx_x tx_y rx_x rx_y itWalls.from_corner.posX itWalls.from_corner.posY
      itWalls.to_corner.posX itWalls.to_corner.posY
    if v.x ≠ 0 ∨ v.y ≠ 0 then
      getIntersectionBetween.wallLoop tx_x tx_y rx_x rx_y rest (intersections ++ [v])
    else
      getIntersectionBetween.wallLoop tx_x tx_y rx_x rx_y rest intersections

/-- Outer loop of `getIntersectionBetween` over the cache. -/
def getIntersectionBetween.buildingLoop (tx_x tx_y rx_x rx_y : ℚ) (bId : Int) :
    List Building → List Coord → List Coord
  | [], intersections => intersections
  | itBuildings :: rest, intersections =>
    if bId = castInt itBuildings.ID then
      getIntersectionBetween.buildingLoop tx_x tx_y rx_x rx_y bId rest
        (getIntersectionBetween.wallLoop tx_x tx_y rx_x rx_y itBuildings.walls intersections)
    else
      getIntersectionBetween.buildingLoop tx_x tx_y rx_x rx_y bId rest intersections

/-- Returns the positions of the intersections of the building which is between sender and
receiver: iterates through all walls of the building and checks if it intersects with the line
segment drawn between the sender and receiver position. -/
def getIntersectionBetween (allBuildings : List Building) (tx_x tx_y rx_x rx_y : ℚ) (bId : Int) :
    List Coord :=
  getIntersectionBetween.buildingLoop tx_x tx_y rx_x rx_y bId allBuildings []

/-- Loop of `getDiffractionCorners` over the other walls of the building for one potential
corner; the Boolean is `dcFound`, the result is its value when the loop is left (by `break` or
at the end of the walls). -/
def getDiffractionCorners.otherWalls (tx_x tx_y rx_x rx_y : ℚ) (potentialCorner : Corner) :
    List Wall → Bool → Bool
  | [], dcFound => dcFound
  | itWalls :: rest, dcFound =>
    if potentialCorner.id ≠ itWalls.from_corner.id ∧ potentialCorner.id ≠ itWalls.to_corner.id then
      let intersection := getIntersection tx_x tx_y potentialCorner.posX potentialCorner.posY
        itWalls.from_corner.posX itWalls.from_corner.posY itWalls.to_corner.posX itWalls.to_corner.posY
      if intersection.x ≠ 0 ∨ intersection.y ≠ 0 then
        false
      else
        let intersection := getIntersection rx_x rx_y potentialCorner.posX potentialCorner.posY
          itWalls.from_corner.posX itWalls.from_corner.posY itWalls.to_corner.posX itWalls.to_corner.posY
        if intersection.x ≠ 0 ∧ intersection.y ≠ 0 then
          false
        else
          getDiffractionCorners.otherWalls tx_x tx_y rx_x rx_y potentialCorner rest true
    else
      getDiffractionCorners.otherWalls tx_x tx_y rx_x rx_y potentialCorner rest dcFound

/-- Loop of `getDiffractionCorners` over the corners (from-corners of the walls) of one
building; `walls` is the whole wall vector of the building, `diffCorners` the result so far. -/
def getDiffractionCorners.cornerLoop (tx_x tx_y rx_x rx_y : ℚ) (walls : List Wall) :
    List Wall → List Coord → List Coord
  | [], diffCorners => diffCorners
  | itCornerWalls :: rest, diffCorners =>
    let potentialCorner := itCornerWalls.from_corner
    let dcFound := getDiffractionCorners.otherWalls tx_x tx_y rx_x rx_y potentialCorner walls false
    if dcFound = true then
      getDiffractionCorners.cornerLoop tx_x tx_y rx_x rx_y walls rest
        (diffCorners ++ [⟨potentialCorner.posX, potentialCorner.posY⟩])
    else
      getDiffractionCorners.cornerLoop tx_x tx_y rx_x rx_y walls rest diffCorners

/-- Outer loop of `getDiffractionCorners` over the cache. -/
def getDiffractionCorners.buildingLoop (tx_x tx_y rx_x rx_y : ℚ) (bId : Int) :
    List Building → List Coord → List Coord
  | [], diffCorners => diffCorners
  | itBuildings :: rest, diffCorners =>
    if bId = castInt itBuildings.ID then
      getDiffractionCorners.buildingLoop tx_x tx_y rx_x rx_y bId rest
        (getDiffractionCorners.cornerLoop tx_x tx_y rx_x rx_y itBuildings.walls itBuildings.walls
          diffCorners)
    else
      getDiffractionCorners.buildingLoop tx_x tx_y rx_x rx_y bId rest diffCorners

/-- Get diffraction corners by checking if there is no obstruction between the line of sight of
first node (sender) and the corner of the building and no obstruction between this corner and
the line of sight of the second node (receiver). -/
def getDiffractionCorners (allBuildings : List Building) (tx_x tx_y rx_x rx_y : ℚ) (bId : Int) :
    List Coord :=
  getDiffractionCorners.buildingLoop tx_x tx_y rx_x rx_y bId allBuildings []

/-- Check if the abstracted area of a building is between two nodes (e.g. sender and
receiver): the line of sight is tested against the four edges of the min-max-area, and the
first hit leaves the loop over the cache. -/
def isAreaBetween (allBuildings : List Building) (tx_x tx_y rx_x rx_y : ℚ) (bId : Int) : Bool :=
  match allBuildings with
  | [] => false
  | itBuildings :: rest =>
    if bId = castInt itBuildings.ID then
      let v := getIntersection tx_x tx_y rx_x rx_y
        itBuildings.maxX itBuildings.maxY itBuildings.maxX itBuildings.minY
      if v.x ≠ 0 ∨ v.y ≠ 0 then
        true
      else
        let v := getIntersection tx_x tx_y rx_x rx_y
          itBuildings.maxX itBuildings.maxY itBuildings.minX itBuildings.maxY
        if v.x ≠ 0 ∨ v.y ≠ 0 then
          true
        else
          let v := getIntersection tx_x tx_y rx_x rx_y
            itBuildings.minX itBuildings.minY itBuildings.minX itBuildings.maxY
          if v.x ≠ 0 ∨ v.y ≠ 0 then
            true
          else
            let v := getIntersection tx_x tx_y rx_x rx_y
              itBuildings.minX itBuildings.minY itBuildings.maxX itBuildings.minY
            if v.x ≠ 0 ∨ v.y ≠ 0 then
              true
            else
              isAreaBetween rest tx_x tx_y rx_x rx_y bId
    else
      isAreaBetween rest tx_x tx_y rx_x rx_y bId

/-- Inner loop of `isBuildingBetween` over the walls of one building; the Boolean is `iBB`,
the result is its value when the loop is left (by `break` or at the end of the walls). -/
def isBuildingBetween.wallLoop (tx_x tx_y rx_x rx_y : ℚ) : List Wall → Bool → Bool
  | [], iBB => iBB
  | itWalls :: rest, iBB =>
    let v := getIntersection tx_x tx_y rx_x rx_y itWalls.from_corner.posX itWalls.from_corner.posY
      itWalls.to_corner.posX itWalls.to_corner.posY
    if v.x ≠ 0 ∨ v.y ≠ 0 then
      true
    else
      isBuildingBetween.wallLoop tx_x tx_y rx_x rx_y rest iBB

/-- Outer loop of `isBuildingBetween` over the cache (the `break` only leaves the wall loop). -/
def isBuildingBetween.buildingLoop (tx_x tx_y rx_x rx_y : ℚ) (bId : Int) :
    List Building → Bool → Bool
  | [], iBB => iBB
  | itBuildings :: rest, iBB =>
    if bId = castInt itBuildings.ID then
      isBuildingBetween.buildingLoop tx_x tx_y rx_x rx_y bId rest
        (isBuildingBetween.wallLoop tx_x tx_y rx_x rx_y itBuildings.walls iBB)
    else
      isBuildingBetween.buildingLoop tx_x tx_y rx_x rx_y bId rest iBB

/-- Check if a building is between two nodes (e.g. sender and receiver). More detailed check
than `isAreaBetween`: the line of sight is tested against the individual walls. -/
def isBuildingBetween (allBuildings : List Building) (tx_x tx_y rx_x rx_y : ℚ) (bId : Int) :
    Bool :=
  isBuildingBetween.buildingLoop tx_x tx_y rx_x rx_y bId allBuildings false

/-- The conversion of an `int` to `unsigned int`, as the constructors `Corner(unsigned int, ...)`
and `Building(unsigned int, ...)` apply it to the identifiers read with `atoi`. -/
def castUnsigned (z : Int) : Nat := (z % 2 ^ 32).toNat

/-- Modelled from the spec: `Coord.h` is not among the sources. `Coord::distance` is the
Euclidean distance of two planar points ("half the sender–receiver distance", coordinates "in
a single consistent planar unit"); this is its square, which is rational. -/
def Coord.sqrdist (a b : Coord) : ℚ := (a.x - b.x) ^ 2 + (a.y - b.y) ^ 2

/-- Row of the building query: `id, min_x, min_y, max_x, max_y` of the table `Building`, the
identifier read with `atoi`, the coordinates with `atof`. -/
structure BuildingRow where
  id : Int
  min_x : ℚ
  min_y : ℚ
  max_x : ℚ
  max_y : ℚ
  deriving DecidableEq

/-- Row of a corner query: `Wall.sequence_number, Corner.id, Corner.x, Corner.y`. -/
structure CornerRow where
  sequence_number : Int
  id : Int
  x : ℚ
  y : ℚ
  deriving DecidableEq

/-- The scenario database as far as `getBuildingsInArea` reads it through `getResultSQL`: the
rows of the table `Building` in the order in which a query returns them, and for every
building identifier the result of the from-corner query and of the to-corner query (both
ordered by `Wall.sequence_number`). A failed query has no rows. -/
structure Database where
  buildingTable : List BuildingRow
  fromCornerQuery : Int → List CornerRow
  toCornerQuery : Int → List CornerRow

/-- Loop of `isBuildingAlloc` over the cache; the Boolean is `iAB`. -/
def isBuildingAlloc.loop (bId : Int) : List Building → Bool → Bool
  | [], iAB => iAB
  | itBuildings :: rest, iAB =>
    if bId = castInt itBuildings.ID then
      isBuildingAlloc.loop bId rest true
    else
      isBuildingAlloc.loop bId rest iAB

/-- Determines if a building and its detailed information is already in the cache, otherwise
it has to be queried from the scenario-database. -/
def isBuildingAlloc (allBuildings : List Building) (bId : Int) : Bool :=
  isBuildingAlloc.loop bId allBuildings false

/-- The `WHERE` clause of the building query of `getBuildingsInArea`: one of the four corners
of the min-max-area, translated by the offsets, lies in the circle with centre `(px, py)` and
squared radius `sqrRadius`. -/
def getBuildingsInArea.buildingQuery (offsetX offsetY px py sqrRadius : ℚ) (row : BuildingRow) :
    Bool :=
  decide (sqrRadius ≥ (offsetX + row.min_x - px) * (offsetX + row.min_x - px)
      + (offsetY + row.min_y - py) * (offsetY + row.min_y - py))
  || decide (sqrRadius ≥ (offsetX + row.min_x - px) * (offsetX + row.min_x - px)
      + (offsetY + row.max_y - py) * (offsetY + row.max_y - py))
  || decide (sqrRadius ≥ (offsetX + row.max_x - px) * (offsetX + row.max_x - px)
      + (offsetY + row.min_y - py) * (offsetY + row.min_y - py))
  || decide (sqrRadius ≥ (offsetX + row.max_x - px) * (offsetX + row.max_x - px)
      + (offsetY + row.max_y - py) * (offsetY + row.max_y - py))

/-- Loop of `getBuildingsInArea` over `wallCnt`: the rows of the from-corner result and of the
to-corner result are read in step; `walls` is the vector built so far. -/
def getBuildingsInArea.wallLoop (offsetX offsetY : ℚ) :
    List CornerRow → List CornerRow → List Wall → List Wall
  | fc :: rQfc, tc :: rQtc, walls =>
    if fc.sequence_number = tc.sequence_number then
      getBuildingsInArea.wallLoop offsetX offsetY rQfc rQtc
        (walls ++ [⟨⟨castUnsigned fc.id, fc.x + offsetX, fc.y + offsetY⟩,
          ⟨castUnsigned tc.id, tc.x + offsetX, tc.y + offsetY⟩⟩])
    else
      getBuildingsInArea.wallLoop offsetX offsetY rQfc rQtc walls
  | _, _, walls => walls

/-- Loop of `getBuildingsInArea` over the rows of the building query; the state is the return
list `areaBuildings` and the cache `allBuildings`. (`numWalls` is the row count of the
from-corner result.) -/
def getBuildingsInArea.buildingLoop (offsetX offsetY : ℚ) (db : Database) :
    List BuildingRow → List Int → List Building → List Int × List Building
  | [], areaBuildings, allBuildings => (areaBuildings, allBuildings)
  | row :: rQ, areaBuildings, allBuildings =>
    let bId := row.id
    getBuildingsInArea.buildingLoop offsetX offsetY db rQ (areaBuildings ++ [bId])
      (if isBuildingAlloc allBuildings bId = false then
        let rQfc := db.fromCornerQuery bId
        let rQtc := db.toCornerQuery bId
        if rQfc.length = rQtc.length then
          if rQfc.length > 0 then
            allBuildings ++ [⟨castUnsigned bId, row.min_x + offsetX, row.min_y + offsetY,
              row.max_x + offsetX, row.max_y + offsetY,
              getBuildingsInArea.wallLoop offsetX offsetY rQfc rQtc []⟩]
          else
            allBuildings
        else
          allBuildings
      else
        allBuildings)

/-- Local `rQ` of `getBuildingsInArea`: the result of the building query. The query is sent
as text, and `px` and `py` are written right after a minus sign (`"+min_x-" << px`,
`"+min_y-" << py`). A negative `px` or `py` is printed with its own sign, so the text holds
`--`, which starts an SQL comment: the statement is incomplete, `sqlite3_get_table` fails, and
`getResultSQL` returns the default `resultQuery` with no rows. Otherwise the rows are those of
the table `Building` that satisfy the `WHERE` clause. -/
def getBuildingsInArea.rQ (offsetX offsetY : ℚ) (db : Database) (px py sqrRadius : ℚ) :
    List BuildingRow :=
  if px < 0 ∨ py < 0 then
    []
  else
    db.buildingTable.filter (getBuildingsInArea.buildingQuery offsetX offsetY px py sqrRadius)

/-- Core method of the mapManager to get the buildings in the area between the sender and the
receiver node; a building that is not cached is read from the database and cached. The result
is the returned identifier list and the cache after the call. (`txrxDist * txrxDist` is the
squared distance.) -/
def getBuildingsInArea (offsetX offsetY : ℚ) (db : Database) (allBuildings : List Building)
    (txPos rxPos : Coord) : List Int × List Building :=
  let px := txPos.x + (rxPos.x - txPos.x) / 2
  let py := txPos.y + (rxPos.y - txPos.y) / 2
  let sqrRadius := Coord.sqrdist txPos rxPos / 4
  let rQ := getBuildingsInArea.rQ offsetX offsetY db px py sqrRadius
  getBuildingsInArea.buildingLoop offsetX offsetY db rQ [] allBuildings

/-- Example database: the building `1` with min-max-area `[0,1] × [0,1]` and the one wall
`(0,0)-(1,1)` between the corners `10` and `11`, and the building `2` with min-max-area
`[1,2] × [1,2]` and no wall. -/
def exampleDatabase : Database :=
  ⟨[⟨1, 0, 0, 1, 1⟩, ⟨2, 1, 1, 2, 2⟩],
    fun bId => if bId = 1 then [⟨1, 10, 0, 0⟩] else [],
    fun bId => if bId = 1 then [⟨1, 11, 1, 1⟩] else []⟩

/-- Example building: the diamond `(3,1) → (5,3) → (3,5) → (1,3) → (3,1)` with identifier 7
and min-max-area `[1,5] × [1,5]`. -/
def diamondBuilding : Building :=
  ⟨7, 1, 1, 5, 5, [⟨⟨1, 3, 1⟩, ⟨2, 5, 3⟩⟩, ⟨⟨2, 5, 3⟩, ⟨3, 3, 5⟩⟩, ⟨⟨3, 3, 5⟩, ⟨4, 1, 3⟩⟩,
    ⟨⟨4, 1, 3⟩, ⟨1, 3, 1⟩⟩]⟩

/-- Example database: the diamond building `7` of `diamondBuilding` as the rows of the three
queries. -/
def diamondDatabase : Database :=
  ⟨[⟨7, 1, 1, 5, 5⟩],
    fun bId => if bId = 7 then [⟨1, 1, 3, 1⟩, ⟨2, 2, 5, 3⟩, ⟨3, 3, 3, 5⟩, ⟨4, 4, 1, 3⟩] else [],
    fun bId => if bId = 7 then [⟨1, 2, 5, 3⟩, ⟨2, 3, 3, 5⟩, ⟨3, 4, 1, 3⟩, ⟨4, 1, 3, 1⟩] else []⟩

/-- Example building: the arch `(1,0) → (1,3) → (9,3) → (9,0) → (8,0) → (8,2) → (2,2) → (2,0)
→ (1,0)` with identifier 5 and min-max-area `[1,9] × [0,3]`. -/
def archBuilding : Building :=
  ⟨5, 1, 0, 9, 3, [⟨⟨1, 1, 0⟩, ⟨2, 1, 3⟩⟩, ⟨⟨2, 1, 3⟩, ⟨3, 9, 3⟩⟩, ⟨⟨3, 9, 3⟩, ⟨4, 9, 0⟩⟩,
    ⟨⟨4, 9, 0⟩, ⟨5, 8, 0⟩⟩, ⟨⟨5, 8, 0⟩, ⟨6, 8, 2⟩⟩, ⟨⟨6, 8, 2⟩, ⟨7, 2, 2⟩⟩,
    ⟨⟨7, 2, 2⟩, ⟨8, 2, 0⟩⟩, ⟨⟨8, 2, 0⟩, ⟨1, 1, 0⟩⟩]⟩

/-- Example database: the arch building `5` of `archBuilding` as the rows of the three
queries. -/
def archDatabase : Database :=
  ⟨[⟨5, 1, 0, 9, 3⟩],
    fun bId => if bId = 5 then [⟨1, 1, 1, 0⟩, ⟨2, 2, 1, 3⟩, ⟨3, 3, 9, 3⟩, ⟨4, 4, 9, 0⟩,
      ⟨5, 5, 8, 0⟩, ⟨6, 6, 8, 2⟩, ⟨7, 7, 2, 2⟩, ⟨8, 8, 2, 0⟩] else [],
    fun bId => if bId = 5 then [⟨1, 2, 1, 3⟩, ⟨2, 3, 9, 3⟩, ⟨3, 4, 9, 0⟩, ⟨4, 5, 8, 0⟩,
      ⟨5, 6, 8, 2⟩, ⟨6, 7, 2, 2⟩, ⟨7, 8, 2, 0⟩, ⟨8, 1, 1, 0⟩] else []⟩

/-- The cache after a sequence of calls of `getBuildingsInArea`, one call for every pair of a
sender and a receiver position of the list, each call starting from the cache the call before
has left. -/
def getBuildingsInArea.sequence (offsetX offsetY : ℚ) (db : Database) :
    List (Coord × Coord) → List Building → List Building
  | [], allBuildings => allBuildings
  | (txPos, rxPos) :: rest, allBuildings =>
    getBuildingsInArea.sequence offsetX offsetY db rest
      (getBuildingsInArea offsetX offsetY db allBuildings txPos rxPos).2

end MapManager

/-- The functions and constants of the C library and of the simulation kernel that the
propagation models call, over a carrier `α` that stands for `double`: the macros `PI` and
`M_PI`, and `sqrt`, `pow`, `log`, `exp`, `sin`, `cos`, `acos` of `math.h`. The models are
translated for every such library; arithmetic on `α` is exact. -/
structure Libm (α : Type) where
  PI : α
  M_PI : α
  sqrt : α → α
  pow : α → α → α
  log : α → α
  exp : α → α
  sin : α → α
  cos : α → α
  acos : α → α

/-- Modelled from the spec: `Coord.h` is not among the sources. `Coord::distance` is the
Euclidean distance of two planar points, the square root of `Coord.sqrdist`. -/
def MapManager.Coord.distance {α : Type} [LinearOrderedField α] (lib : Libm α)
    (a b : MapManager.Coord) : α :=
  lib.sqrt ((MapManager.Coord.sqrdist a b : ℚ) : α)

namespace ShadowPropagationLossModel

open MapManager

/-- Modelled from the spec: `ShadowPropagationLossModel.h` is not among the sources. Its
`dBm2mW` converts dBm to the linear unit ("sensitivity minus 1 dB, converted to linear"),
`pow(10.0, valueDbm / 10.0)` as in the headers of the two sibling models. -/
def dBm2mW {α : Type} [LinearOrderedField α] (lib : Libm α) (valueDbm : α) : α :=
  lib.pow 10 (valueDbm / 10)

/-- Loop of `calculateReceivedPower` over the identifiers returned by `getBuildingsInArea`;
the Boolean is `shadowed`. -/
def calculateReceivedPower.buildingLoop (allBuildings : List Building)
    (senderPos receiverPos : Coord) : List Int → Bool → Bool
  | [], shadowed => shadowed
  | itBuildings :: rest, shadowed =>
    if isAreaBetween allBuildings senderPos.x senderPos.y receiverPos.x receiverPos.y
        itBuildings = true then
      if isBuildingBetween allBuildings senderPos.x senderPos.y receiverPos.x receiverPos.y
          itBuildings = true then
        calculateReceivedPower.buildingLoop allBuildings senderPos receiverPos rest true
      else
        calculateReceivedPower.buildingLoop allBuildings senderPos receiverPos rest shadowed
    else
      calculateReceivedPower.buildingLoop allBuildings senderPos receiverPos rest shadowed

/-- Calculate the signal loss between the sender and the receiver. The map manager is the
offsets, the database and the cache `allBuildings`; the result is the received power and the
cache after the call. (The guard `buildings.empty()==false` is subsumed by the loop.) -/
def calculateReceivedPower {α : Type} [LinearOrderedField α] (lib : Libm α) (sensitivityDbm : α)
    (offsetX offsetY : ℚ) (db : Database) (allBuildings : List Building)
    (pSend carrierFrequency : α) (senderPos receiverPos : Coord) : α × List Building :=
  let speedOfLight : α := 300000000
  let waveLength := speedOfLight / carrierFrequency
  let rMax := waveLength / (4 * lib.PI) * lib.sqrt (dBm2mW lib (pSend - sensitivityDbm))
  let srDistance := Coord.distance lib senderPos receiverPos
  let outofrange : Bool := decide (rMax < srDistance)
  let mm : List Int × List Building :=
    if rMax < srDistance then
      ([], allBuildings)
    else
      getBuildingsInArea offsetX offsetY db allBuildings senderPos receiverPos
  let shadowed : Bool :=
    calculateReceivedPower.buildingLoop mm.2 senderPos receiverPos mm.1 false
  if (outofrange || shadowed) = true then
    (dBm2mW lib (sensitivityDbm - 1), mm.2)
  else
    let prec := pSend * waveLength * waveLength
      / (16 * lib.M_PI * lib.M_PI * lib.pow srDistance 2)
    (if prec > pSend then pSend else prec, mm.2)

/-- Local `shadowed` of `calculateReceivedPower` when the loop over the buildings is left, for
a link in range: the indicator that the signal is shadowed completely. -/
def calculateReceivedPower.shadowed (offsetX offsetY : ℚ) (db : Database)
    (allBuildings : List Building) (senderPos receiverPos : Coord) : Bool :=
  let mm := getBuildingsInArea offsetX offsetY db allBuildings senderPos receiverPos
  calculateReceivedPower.buildingLoop mm.2 senderPos receiverPos mm.1 false

end ShadowPropagationLossModel

namespace PenetrationPropagationLossModel

open MapManager

/-- Simple util to convert decibels to milliwatts. -/
def dBm2mW {α : Type} [LinearOrderedField α] (lib : Libm α) (valueDbm : α) : α :=
  lib.pow 10 (valueDbm / 10)

/-- Loop of `calculateReceivedPower` over the intersections of one building; the state is
`nWalls`, `dBuilding`, `first` and `firstWall`, the result `nWalls` and `dBuilding`. -/
def calculateReceivedPower.intersectionLoop {α : Type} [LinearOrderedField α] (lib : Libm α) :
    List Coord → Int → α → Coord → Bool → Int × α
  | [], nWalls, dBuilding, _, _ => (nWalls, dBuilding)
  | itwalls :: rest, nWalls, dBuilding, first, firstWall =>
    if firstWall = true then
      calculateReceivedPower.intersectionLoop lib rest (nWalls + 1) dBuilding
        ⟨itwalls.x, itwalls.y⟩ false
    else
      calculateReceivedPower.intersectionLoop lib rest (nWalls + 1)
        (dBuilding + Coord.distance lib first ⟨itwalls.x, itwalls.y⟩) first true

/-- Loop of `calculateReceivedPower` over the identifiers returned by `getBuildingsInArea`;
the state is `nWalls` and `dBuilding`. (The guard `!intersections.empty()` is subsumed by the
inner loop.) -/
def calculateReceivedPower.buildingLoop {α : Type} [LinearOrderedField α] (lib : Libm α)
    (allBuildings : List Building) (senderPos receiverPos : Coord) :
    List Int → Int → α → Int × α
  | [], nWalls, dBuilding => (nWalls, dBuilding)
  | itBuildings :: rest, nWalls, dBuilding =>
    if isAreaBetween allBuildings senderPos.x senderPos.y receiverPos.x receiverPos.y
        itBuildings = true then
      let intersections := getIntersectionBetween allBuildings senderPos.x senderPos.y
        receiverPos.x receiverPos.y itBuildings
      let r := calculateReceivedPower.intersectionLoop lib intersections nWalls dBuilding
        ⟨0, 0⟩ true
      calculateReceivedPower.buildingLoop lib allBuildings senderPos receiverPos rest r.1 r.2
    else
      calculateReceivedPower.buildingLoop lib allBuildings senderPos receiverPos rest nWalls
        dBuilding

/-- The traversed distance of one building in the words of the specification: the
intersection points are paired sequentially (1st+2nd, 3rd+4th, ...) and the distances of the
pairs are added; an unpaired last point adds nothing. -/
def pairedDistance {α : Type} [LinearOrderedField α] (lib : Libm α) : List Coord → α
  | p :: q :: rest => Coord.distance lib p q + pairedDistance lib rest
  | _ => 0

/-- Calculate the signal loss between the sender and the receiver. The result is the received
power and the cache after the call. -/
def calculateReceivedPower {α : Type} [LinearOrderedField α] (lib : Libm α)
    (sensitivityDbm signalLossFactorWall signalLossFactorBuilding : α)
    (offsetX offsetY : ℚ) (db : Database) (allBuildings : List Building)
    (pSend carrierFrequency : α) (senderPos receiverPos : Coord) : α × List Building :=
  let speedOfLight : α := 300000000
  let waveLength := speedOfLight / carrierFrequency
  let rMax := waveLength / (4 * lib.PI) * lib.sqrt (dBm2mW lib (pSend - sensitivityDbm))
  let srDistance := Coord.distance lib senderPos receiverPos
  if rMax < srDistance then
    (dBm2mW lib (sensitivityDbm - 1), allBuildings)
  else
    let mm := getBuildingsInArea offsetX offsetY db allBuildings senderPos receiverPos
    let r := calculateReceivedPower.buildingLoop lib mm.2 senderPos receiverPos mm.1 0 0
    let nWalls := r.1
    let dBuilding := r.2
    let distance := Coord.distance lib senderPos receiverPos - dBuilding
    let signalLossWalls := (nWalls : α) * signalLossFactorWall
    let signalLossBuilding := dBuilding * signalLossFactorBuilding
    let prec := pSend * waveLength * waveLength
      / (16 * lib.M_PI * lib.M_PI * lib.pow distance 2)
      / dBm2mW lib (signalLossWalls + signalLossBuilding)
    (if prec > pSend then pSend else prec, mm.2)

/-- Local `nWalls` of `calculateReceivedPower` when the loop over the buildings is left, for a
link in range: the number of walls. -/
def calculateReceivedPower.nWalls {α : Type} [LinearOrderedField α] (lib : Libm α)
    (offsetX offsetY : ℚ) (db : Database) (allBuildings : List Building)
    (senderPos receiverPos : Coord) : Int :=
  let mm := getBuildingsInArea offsetX offsetY db allBuildings senderPos receiverPos
  (calculateReceivedPower.buildingLoop lib mm.2 senderPos receiverPos mm.1 0 0).1

/-- Local `dBuilding` of `calculateReceivedPower` when the loop over the buildings is left,
for a link in range: the distance through penetrated buildings. -/
def calculateReceivedPower.dBuilding {α : Type} [LinearOrderedField α] (lib : Libm α)
    (offsetX offsetY : ℚ) (db : Database) (allBuildings : List Building)
    (senderPos receiverPos : Coord) : α :=
  let mm := getBuildingsInArea offsetX offsetY db allBuildings senderPos receiverPos
  (calculateReceivedPower.buildingLoop lib mm.2 senderPos receiverPos mm.1 0 0).2

end PenetrationPropagationLossModel

namespace DiffractionPropagationLossModel

open MapManager

/-- Simple util to convert decibels to milliwatts. -/
def dBm2mW {α : Type} [LinearOrderedField α] (lib : Libm α) (valueDbm : α) : α :=
  lib.pow 10 (valueDbm / 10)

/-- Calculate the diffraction loss in dependency of `v` according to the
Knife-Edge-Diffraction Model. -/
def diffract {α : Type} [LinearOrderedField α] (lib : Libm α) (v : α) : α :=
  if v ≤ -1 then
    0
  else if v > -1 ∧ v ≤ 0 then
    20 * lib.log (5 / 10 - 62 / 100 * v)
  else if v > 0 ∧ v ≤ 1 then
    20 * lib.log (5 / 10 * lib.exp (-(95 / 100) * v))
  else if v > 1 ∧ v ≤ 24 / 10 then
    let v_term := 38 / 100 - 1 / 10 * v
    20 * lib.log (4 / 10 - lib.sqrt (1184 / 10000 - v_term * v_term))
  else
    20 * lib.log (225 / 1000 / v)

/-- The argument of `log` in `diffract`, branch by branch; in the branch `v <= -1` no
logarithm is evaluated. -/
def diffract.logArgument {α : Type} [LinearOrderedField α] (lib : Libm α) (v : α) : Option α :=
  if v ≤ -1 then
    none
  else if v > -1 ∧ v ≤ 0 then
    some (5 / 10 - 62 / 100 * v)
  else if v > 0 ∧ v ≤ 1 then
    some (5 / 10 * lib.exp (-(95 / 100) * v))
  else if v > 1 ∧ v ≤ 24 / 10 then
    let v_term := 38 / 100 - 1 / 10 * v
    some (4 / 10 - lib.sqrt (1184 / 10000 - v_term * v_term))
  else
    some (225 / 1000 / v)

/-- The argument of `sqrt` in `diffract`; a square root is evaluated in the branch
`1 < v <= 2.4` only. -/
def diffract.sqrtArgument {α : Type} [LinearOrderedField α] (v : α) : Option α :=
  if v ≤ -1 then
    none
  else if v > -1 ∧ v ≤ 0 then
    none
  else if v > 0 ∧ v ≤ 1 then
    none
  else if v > 1 ∧ v ≤ 24 / 10 then
    let v_term := 38 / 100 - 1 / 10 * v
    some (1184 / 10000 - v_term * v_term)
  else
    none

/-- First loop of `calculateReceivedPower`: the buildings that are between, in the order of
`buildings`. -/
def calculateReceivedPower.betweenLoop (allBuildings : List Building)
    (senderPos receiverPos : Coord) : List Int → List Int → List Int
  | [], betweenBuildings => betweenBuildings
  | itBuildings :: rest, betweenBuildings =>
    if isAreaBetween allBuildings senderPos.x senderPos.y receiverPos.x receiverPos.y
        itBuildings = true then
      if isBuildingBetween allBuildings senderPos.x senderPos.y receiverPos.x receiverPos.y
          itBuildings = true then
        calculateReceivedPower.betweenLoop allBuildings senderPos receiverPos rest
          (betweenBuildings ++ [itBuildings])
      else
        calculateReceivedPower.betweenLoop allBuildings senderPos receiverPos rest
          betweenBuildings
    else
      calculateReceivedPower.betweenLoop allBuildings senderPos receiverPos rest betweenBuildings

/-- Loop over `itBb`: the line of sight of one diffraction corner `itidc` of the building
`itBuildings` against the other buildings between; the Boolean is `diffClear`. -/
def calculateReceivedPower.clearLoop (allBuildings : List Building)
    (senderPos receiverPos : Coord) (itBuildings : Int) (itidc : Coord) :
    List Int → Bool → Bool
  | [], diffClear => diffClear
  | itBb :: rest, diffClear =>
    if itBb ≠ itBuildings then
      if isBuildingBetween allBuildings senderPos.x senderPos.y itidc.x itidc.y itBb = false then
        if isBuildingBetween allBuildings itidc.x itidc.y receiverPos.x receiverPos.y itBb
            = false then
          calculateReceivedPower.clearLoop allBuildings senderPos receiverPos itBuildings itidc
            rest true
        else
          false
      else
        false
    else
      calculateReceivedPower.clearLoop allBuildings senderPos receiverPos itBuildings itidc rest
        diffClear

/-- Loop over `itidc`: the initial diffraction corners of the building `itBuildings`. -/
def calculateReceivedPower.cornerLoop (allBuildings : List Building)
    (senderPos receiverPos : Coord) (betweenBuildings : List Int) (itBuildings : Int) :
    List Coord → List Coord → List Coord
  | [], finalDiffCorners => finalDiffCorners
  | itidc :: rest, finalDiffCorners =>
    if calculateReceivedPower.clearLoop allBuildings senderPos receiverPos itBuildings itidc
        betweenBuildings true = true then
      calculateReceivedPower.cornerLoop allBuildings senderPos receiverPos betweenBuildings
        itBuildings rest (finalDiffCorners ++ [itidc])
    else
      calculateReceivedPower.cornerLoop allBuildings senderPos receiverPos betweenBuildings
        itBuildings rest finalDiffCorners

/-- Second loop of `calculateReceivedPower` over the buildings between; `betweenBuildings` is
the whole vector, the result the vector `finalDiffCorners`. -/
def calculateReceivedPower.finalLoop (allBuildings : List Building)
    (senderPos receiverPos : Coord) (betweenBuildings : List Int) :
    List Int → List Coord → List Coord
  | [], finalDiffCorners => finalDiffCorners
  | itBuildings :: rest, finalDiffCorners =>
    let initialDiffCorners := getDiffractionCorners allBuildings senderPos.x senderPos.y
      receiverPos.x receiverPos.y itBuildings
    calculateReceivedPower.finalLoop allBuildings senderPos receiverPos betweenBuildings rest
      (calculateReceivedPower.cornerLoop allBuildings senderPos receiverPos betweenBuildings
        itBuildings initialDiffCorners finalDiffCorners)

/-- Local `h` of the knife-edge procedure for the corner `itfdc`: the height of the corner
relative to the line sender-receiver, from `dsc` and the angle `alpha`. -/
def calculateReceivedPower.h {α : Type} [LinearOrderedField α] (lib : Libm α) (dsr : α)
    (senderPos receiverPos itfdc : Coord) : α :=
  let dsc := Coord.distance lib senderPos itfdc
  let alpha := lib.acos
    ((((itfdc.x - senderPos.x) * (receiverPos.x - senderPos.x)
      + (itfdc.y - senderPos.y) * (receiverPos.y - senderPos.y) : ℚ) : α) / (dsc * dsr))
  dsc * lib.sin alpha

/-- Local `ds` of the knife-edge procedure for the corner `itfdc`: the length of the edge
sender-intersection/height. -/
def calculateReceivedPower.ds {α : Type} [LinearOrderedField α] (lib : Libm α) (dsr : α)
    (senderPos receiverPos itfdc : Coord) : α :=
  let dsc := Coord.distance lib senderPos itfdc
  let h := calculateReceivedPower.h lib dsr senderPos receiverPos itfdc
  lib.sqrt (dsc * dsc - h * h)

/-- Local `v` of the knife-edge procedure for the corner `itfdc`: the V-value according to
the knife-edge equation. -/
def calculateReceivedPower.v {α : Type} [LinearOrderedField α] (lib : Libm α)
    (waveLength dsr : α) (senderPos receiverPos itfdc : Coord) : α :=
  let h := calculateReceivedPower.h lib dsr senderPos receiverPos itfdc
  let ds := calculateReceivedPower.ds lib dsr senderPos receiverPos itfdc
  let dr := dsr - ds
  h * lib.sqrt (2 * (dr + ds) / (waveLength * dr * ds))

/-- Third loop of `calculateReceivedPower` over the final diffraction corners: the knife-edge
procedure; the state is `Ld`. -/
def calculateReceivedPower.lossLoop {α : Type} [LinearOrderedField α] (lib : Libm α)
    (waveLength dsr : α) (senderPos receiverPos : Coord) : List Coord → α → α
  | [], Ld => Ld
  | itfdc :: rest, Ld =>
    let dsc := Coord.distance lib senderPos itfdc
    let alpha := lib.acos
      ((((itfdc.x - senderPos.x) * (receiverPos.x - senderPos.x)
        + (itfdc.y - senderPos.y) * (receiverPos.y - senderPos.y) : ℚ) : α) / (dsc * dsr))
    let h := dsc * lib.sin alpha
    let ds := lib.sqrt (dsc * dsc - h * h)
    let dr := dsr - ds
    let v := h * lib.sqrt (2 * (dr + ds) / (waveLength * dr * ds))
    let LdV := diffract lib v
    calculateReceivedPower.lossLoop lib waveLength dsr senderPos receiverPos rest
      (if LdV > Ld then LdV else Ld)

/-- Calculate the signal loss between the sender and the receiver. The result is the received
power and the cache after the call. -/
def calculateReceivedPower {α : Type} [LinearOrderedField α] (lib : Libm α) (sensitivityDbm : α)
    (offsetX offsetY : ℚ) (db : Database) (allBuildings : List Building)
    (pSend carrierFrequency : α) (senderPos receiverPos : Coord) : α × List Building :=
  let speedOfLight : α := 300000000
  let waveLength := speedOfLight / carrierFrequency
  let rMax := waveLength / (4 * lib.PI) * lib.sqrt (dBm2mW lib (pSend - sensitivityDbm))
  let srDistance := Coord.distance lib senderPos receiverPos
  if rMax < srDistance then
    (dBm2mW lib (sensitivityDbm - 1), allBuildings)
  else
    let mm := getBuildingsInArea offsetX offsetY db allBuildings senderPos receiverPos
    let buildings := mm.1
    let betweenBuildings :=
      calculateReceivedPower.betweenLoop mm.2 senderPos receiverPos buildings []
    if buildings ≠ [] ∧ betweenBuildings ≠ [] then
      let finalDiffCorners := calculateReceivedPower.finalLoop mm.2 senderPos receiverPos
        betweenBuildings betweenBuildings []
      if finalDiffCorners ≠ [] then
        let dsr := Coord.distance lib senderPos receiverPos
        let Ld := calculateReceivedPower.lossLoop lib waveLength dsr senderPos receiverPos
          finalDiffCorners sensitivityDbm
        let Lfs := pSend * waveLength * waveLength / (16 * lib.M_PI * lib.M_PI * lib.pow dsr 2)
        let prec := Lfs * dBm2mW lib Ld
        (if prec > pSend then pSend else prec, mm.2)
      else
        (dBm2mW lib (sensitivityDbm - 1), mm.2)
    else
      let distance := Coord.distance lib senderPos receiverPos
      let prec := pSend * waveLength * waveLength
        / (16 * lib.M_PI * lib.M_PI * lib.pow distance 2)
      (if prec > pSend then pSend else prec, mm.2)

/-- Local `betweenBuildings` of `calculateReceivedPower` for a link in range: the buildings
that are between. -/
def calculateReceivedPower.betweenBuildings (offsetX offsetY : ℚ) (db : Database)
    (allBuildings : List Building) (senderPos receiverPos : Coord) : List Int :=
  let mm := getBuildingsInArea offsetX offsetY db allBuildings senderPos receiverPos
  calculateReceivedPower.betweenLoop mm.2 senderPos receiverPos mm.1 []

/-- Local `finalDiffCorners` of `calculateReceivedPower` for a link in range: the final
diff-corners which stand all line of sight checks. -/
def calculateReceivedPower.finalDiffCorners (offsetX offsetY : ℚ) (db : Database)
    (allBuildings : List Building) (senderPos receiverPos : Coord) : List Coord :=
  let mm := getBuildingsInArea offsetX offsetY db allBuildings senderPos receiverPos
  let betweenBuildings :=
    calculateReceivedPower.betweenLoop mm.2 senderPos receiverPos mm.1 []
  calculateReceivedPower.finalLoop mm.2 senderPos receiverPos betweenBuildings
    betweenBuildings []

/-- Local `Ld` of `calculateReceivedPower` when the knife-edge loop over the final
diff-corners is left. -/
def calculateReceivedPower.Ld {α : Type} [LinearOrderedField α] (lib : Libm α)
    (sensitivityDbm : α) (offsetX offsetY : ℚ) (db : Database) (allBuildings : List Building)
    (carrierFrequency : α) (senderPos receiverPos : Coord) : α :=
  calculateReceivedPower.lossLoop lib (300000000 / carrierFrequency)
    (Coord.distance lib senderPos receiverPos) senderPos receiverPos
    (calculateReceivedPower.finalDiffCorners offsetX offsetY db allBuildings senderPos
      receiverPos) sensitivityDbm

end DiffractionPropagationLossModel

namespace TwoRayInterferenceModel

/-- The received power of the two-ray interference model for the antenna heights `ht`, `hr`
and the dielectric constant `epsilon_r`. -/
def calculateReceivedPower {α : Type} [LinearOrderedField α] (lib : Libm α)
    (ht hr epsilon_r : α) (pSend carrierFrequency distance : α) : α :=
  let speedOfLight : α := 300000000
  let waveLength := speedOfLight / carrierFrequency
  if distance = 0 then
    pSend
  else
    let d_dir := lib.sqrt (lib.pow distance 2 + lib.pow (ht - hr) 2)
    let d_ref := lib.sqrt (lib.pow distance 2 + lib.pow (ht + hr) 2)
    let sin_theta := (ht + hr) / d_ref
    let cos_theta := distance / d_ref
    let gamma := (sin_theta - lib.sqrt (epsilon_r - lib.pow cos_theta 2))
      / (sin_theta + lib.sqrt (epsilon_r - lib.pow cos_theta 2))
    let phi := 2 * lib.M_PI / waveLength * (d_dir - d_ref)
    let loss := lib.pow (4 * lib.M_PI * (distance / waveLength) * 1
      / lib.sqrt (lib.pow (1 + gamma * lib.cos phi) 2
        + lib.pow gamma 2 * lib.pow (lib.sin phi) 2)) 2
    let pRecv := pSend / loss
    pRecv

/-- Local `d_dir` of `calculateReceivedPower`: the length of the direct path. -/
def calculateReceivedPower.d_dir {α : Type} [LinearOrderedField α] (lib : Libm α)
    (ht hr distance : α) : α :=
  lib.sqrt (lib.pow distance 2 + lib.pow (ht - hr) 2)

/-- Local `d_ref` of `calculateReceivedPower`: the length of the reflected path. -/
def calculateReceivedPower.d_ref {α : Type} [LinearOrderedField α] (lib : Libm α)
    (ht hr distance : α) : α :=
  lib.sqrt (lib.pow distance 2 + lib.pow (ht + hr) 2)

/-- Local `sin_theta` of `calculateReceivedPower`. -/
def calculateReceivedPower.sin_theta {α : Type} [LinearOrderedField α] (lib : Libm α)
    (ht hr distance : α) : α :=
  (ht + hr) / calculateReceivedPower.d_ref lib ht hr distance

/-- Local `cos_theta` of `calculateReceivedPower`. -/
def calculateReceivedPower.cos_theta {α : Type} [LinearOrderedField α] (lib : Libm α)
    (ht hr distance : α) : α :=
  distance / calculateReceivedPower.d_ref lib ht hr distance

/-- Local `gamma` of `calculateReceivedPower`: the reflection coefficient. -/
def calculateReceivedPower.gamma {α : Type} [LinearOrderedField α] (lib : Libm α)
    (ht hr epsilon_r distance : α) : α :=
  let sin_theta := calculateReceivedPower.sin_theta lib ht hr distance
  let cos_theta := calculateReceivedPower.cos_theta lib ht hr distance
  (sin_theta - lib.sqrt (epsilon_r - lib.pow cos_theta 2))
    / (sin_theta + lib.sqrt (epsilon_r - lib.pow cos_theta 2))

/-- Local `phi` of `calculateReceivedPower`: the phase difference of the two paths. -/
def calculateReceivedPower.phi {α : Type} [LinearOrderedField α] (lib : Libm α)
    (ht hr carrierFrequency distance : α) : α :=
  let waveLength := 300000000 / carrierFrequency
  2 * lib.M_PI / waveLength
    * (calculateReceivedPower.d_dir lib ht hr distance
      - calculateReceivedPower.d_ref lib ht hr distance)

end TwoRayInterferenceModel

/-- The free-space received power in the words of the specification:
`pSend * waveLength^2 / (16 * pi^2 * distance^2)` with `waveLength = c / f` and `c = 3e8`,
clamped to not exceed `pSend`. -/
def freeSpacePower {α : Type} [LinearOrderedField α] (lib : Libm α)
    (pSend carrierFrequency distance : α) : α :=
  min pSend (pSend * (300000000 / carrierFrequency) ^ 2 / (16 * lib.M_PI ^ 2 * distance ^ 2))

/-- Some building of the identifier list `mm.1` passes the area test and then the wall test
on the cache `mm.2`, for the line of sight from `senderPos` to `receiverPos`. -/
def MapManager.buildingBetween (mm : List Int × List MapManager.Building)
    (senderPos receiverPos : MapManager.Coord) : Prop :=
  ∃ bId ∈ mm.1,
    MapManager.isAreaBetween mm.2 senderPos.x senderPos.y receiverPos.x receiverPos.y bId = true
    ∧ MapManager.isBuildingBetween mm.2 senderPos.x senderPos.y receiverPos.x receiverPos.y bId
      = true

instance (mm : List Int × List MapManager.Building) (senderPos receiverPos : MapManager.Coord) :
    Decidable (MapManager.buildingBetween mm senderPos receiverPos) := by
  unfold MapManager.buildingBetween
  infer_instance

/-- The library in exact real arithmetic: `PI` and `M_PI` are `π`, the functions are the real
ones (`pow` is the real power, `acos` the arc cosine on `[-1,1]`). -/
noncomputable def Libm.real : Libm ℝ where
  PI := Real.pi
  M_PI := Real.pi
  sqrt := Real.sqrt
  pow := fun x y => x ^ y
  log := Real.log
  exp := Real.exp
  sin := Real.sin
  cos := Real.cos
  acos := Real.arccos

namespace MapManager

/-! ## Basic facts about the Cramer solution -/

theorem epsilon_pos : 0 < epsilon := by
  norm_num [epsilon]

theorem det_ne_zero_of_epsilon_le {P1x P1y P2x P2y P3x P3y P4x P4y : ℚ}
    (h : epsilon ≤ |det P1x P1y P2x P2y P3x P3y P4x P4y|) :
    det P1x P1y P2x P2y P3x P3y P4x P4y ≠ 0 := by
  intro h0
  rw [h0, abs_zero] at h
  exact absurd epsilon_pos (not_lt.mpr h)

/-- Equation (1) of the source, first coordinate: the Cramer coefficients solve it. -/
theorem cramer_x {P1x P1y P2x P2y P3x P3y P4x P4y : ℚ}
    (h : det P1x P1y P2x P2y P3x P3y P4x P4y ≠ 0) :
    P1x + coefA P1x P1y P2x P2y P3x P3y P4x P4y * (P2x - P1x)
      = P3x + coefB P1x P1y P2x P2y P3x P3y P4x P4y * (P4x - P3x) := by
  unfold coefA coefB
  unfold det at h
  field_simp [det]
  simp only [det, detA, detB]
  ring

/-- Equation (1) of the source, second coordinate. -/
theorem cramer_y {P1x P1y P2x P2y P3x P3y P4x P4y : ℚ}
    (h : det P1x P1y P2x P2y P3x P3y P4x P4y ≠ 0) :
    P1y + coefA P1x P1y P2x P2y P3x P3y P4x P4y * (P2y - P1y)
      = P3y + coefB P1x P1y P2x P2y P3x P3y P4x P4y * (P4y - P3y) := by
  unfold coefA coefB
  unfold det at h
  field_simp [det]
  simp only [det, detA, detB]
  ring

/-- A solution of equation (1) of a regular system is the Cramer solution. -/
theorem coef_unique {P1x P1y P2x P2y P3x P3y P4x P4y t s : ℚ}
    (h : det P1x P1y P2x P2y P3x P3y P4x P4y ≠ 0)
    (hx : P1x + t * (P2x - P1x) = P3x + s * (P4x - P3x))
    (hy : P1y + t * (P2y - P1y) = P3y + s * (P4y - P3y)) :
    coefA P1x P1y P2x P2y P3x P3y P4x P4y = t ∧ coefB P1x P1y P2x P2y P3x P3y P4x P4y = s := by
  constructor
  · unfold coefA
    rw [div_eq_iff h]
    simp only [det, detA]
    linear_combination (P3x - P4x) * hy - (P3y - P4y) * hx
  · unfold coefB
    rw [div_eq_iff h]
    simp only [det, detB]
    linear_combination (P2y - P1y) * hx - (P2x - P1x) * hy

theorem intersect_eq_true_iff (P1x P1y P2x P2y P3x P3y P4x P4y : ℚ) :
    intersect P1x P1y P2x P2y P3x P3y P4x P4y = true ↔
      epsilon ≤ |det P1x P1y P2x P2y P3x P3y P4x P4y|
      ∧ 0 ≤ coefA P1x P1y P2x P2y P3x P3y P4x P4y ∧ coefA P1x P1y P2x P2y P3x P3y P4x P4y ≤ 1
      ∧ 0 ≤ coefB P1x P1y P2x P2y P3x P3y P4x P4y ∧ coefB P1x P1y P2x P2y P3x P3y P4x P4y ≤ 1 := by
  unfold intersect
  by_cases hd : |det P1x P1y P2x P2y P3x P3y P4x P4y| < epsilon
  · simp [hd]
  · have hd2 : epsilon ≤ |det P1x P1y P2x P2y P3x P3y P4x P4y| := not_lt.mp hd
    simp [hd, hd2]

theorem getIntersection_of_intersect {P1x P1y P2x P2y P3x P3y P4x P4y : ℚ}
    (h : intersect P1x P1y P2x P2y P3x P3y P4x P4y = true) :
    getIntersection P1x P1y P2x P2y P3x P3y P4x P4y
      = ⟨P1x + coefA P1x P1y P2x P2y P3x P3y P4x P4y * (P2x - P1x),
         P1y + coefA P1x P1y P2x P2y P3x P3y P4x P4y * (P2y - P1y)⟩ := by
  simp [getIntersection, h]

theorem getIntersection_of_not_intersect {P1x P1y P2x P2y P3x P3y P4x P4y : ℚ}
    (h : intersect P1x P1y P2x P2y P3x P3y P4x P4y = false) :
    getIntersection P1x P1y P2x P2y P3x P3y P4x P4y = ⟨0, 0⟩ := by
  simp [getIntersection, h]

/-- A point of both segments, given by parameters in `[0,1]` of a regular system, is what
`getIntersection` returns. -/
theorem getIntersection_eq_of_param {P1x P1y P2x P2y P3x P3y P4x P4y t s : ℚ}
    (hdet : epsilon ≤ |det P1x P1y P2x P2y P3x P3y P4x P4y|)
    (ht0 : 0 ≤ t) (ht1 : t ≤ 1) (hs0 : 0 ≤ s) (hs1 : s ≤ 1)
    (hx : P1x + t * (P2x - P1x) = P3x + s * (P4x - P3x))
    (hy : P1y + t * (P2y - P1y) = P3y + s * (P4y - P3y)) :
    getIntersection P1x P1y P2x P2y P3x P3y P4x P4y
      = ⟨P1x + t * (P2x - P1x), P1y + t * (P2y - P1y)⟩ := by
  obtain ⟨ha, hb⟩ := coef_unique (det_ne_zero_of_epsilon_le hdet) hx hy
  have hi : intersect P1x P1y P2x P2y P3x P3y P4x P4y = true := by
    rw [intersect_eq_true_iff, ha, hb]
    exact ⟨hdet, ht0, ht1, hs0, hs1⟩
  rw [getIntersection_of_intersect hi, ha]

theorem det_swap (P1x P1y P2x P2y P3x P3y P4x P4y : ℚ) :
    det P3x P3y P4x P4y P1x P1y P2x P2y = - det P1x P1y P2x P2y P3x P3y P4x P4y := by
  simp only [det]
  ring

theorem coefA_swap (P1x P1y P2x P2y P3x P3y P4x P4y : ℚ) :
    coefA P3x P3y P4x P4y P1x P1y P2x P2y = coefB P1x P1y P2x P2y P3x P3y P4x P4y := by
  have h : detA P3x P3y P4x P4y P1x P1y P2x P2y = - detB P1x P1y P2x P2y P3x P3y P4x P4y := by
    simp only [detA, detB]
    ring
  rw [coefA, coefB, det_swap, h, neg_div_neg_eq]

theorem coefB_swap (P1x P1y P2x P2y P3x P3y P4x P4y : ℚ) :
    coefB P3x P3y P4x P4y P1x P1y P2x P2y = coefA P1x P1y P2x P2y P3x P3y P4x P4y := by
  have h : detB P3x P3y P4x P4y P1x P1y P2x P2y = - detA P1x P1y P2x P2y P3x P3y P4x P4y := by
    simp only [detA, detB]
    ring
  rw [coefA, coefB, det_swap, h, neg_div_neg_eq]

theorem intersect_swap (P1x P1y P2x P2y P3x P3y P4x P4y : ℚ) :
    intersect P3x P3y P4x P4y P1x P1y P2x P2y = intersect P1x P1y P2x P2y P3x P3y P4x P4y := by
  rw [Bool.eq_iff_iff, intersect_eq_true_iff, intersect_eq_true_iff, det_swap, abs_neg,
    coefA_swap P1x P1y P2x P2y P3x P3y P4x P4y, coefB_swap P1x P1y P2x P2y P3x P3y P4x P4y]
  tauto


/-! ## The loops over the cache as existence statements -/

theorem reported_iff (v : Coord) : (v.x ≠ 0 ∨ v.y ≠ 0) ↔ reported v := Iff.rfl

theorem isBuildingBetween_wallLoop_iff (tx_x tx_y rx_x rx_y : ℚ) (walls : List Wall) (iBB : Bool) :
    isBuildingBetween.wallLoop tx_x tx_y rx_x rx_y walls iBB = true ↔
      iBB = true ∨ ∃ w ∈ walls,
        reported (getIntersection tx_x tx_y rx_x rx_y w.from_corner.posX w.from_corner.posY
            w.to_corner.posX w.to_corner.posY) := by
  induction walls with
  | nil => simp [isBuildingBetween.wallLoop]
  | cons w ws ih =>
    simp only [isBuildingBetween.wallLoop, List.mem_cons, exists_eq_or_imp, reported_iff]
    split_ifs with h
    · simp only [h, true_or, or_true]
    · rw [ih]
      simp only [h, false_or]

theorem isBuildingBetween_buildingLoop_iff (tx_x tx_y rx_x rx_y : ℚ) (bId : Int)
    (bs : List Building) (iBB : Bool) :
    isBuildingBetween.buildingLoop tx_x tx_y rx_x rx_y bId bs iBB = true ↔
      iBB = true ∨ ∃ b ∈ bs, bId = castInt b.ID ∧ ∃ w ∈ b.walls,
        reported (getIntersection tx_x tx_y rx_x rx_y w.from_corner.posX w.from_corner.posY
            w.to_corner.posX w.to_corner.posY) := by
  induction bs generalizing iBB with
  | nil => simp [isBuildingBetween.buildingLoop]
  | cons b bs ih =>
    simp only [isBuildingBetween.buildingLoop, List.mem_cons, exists_eq_or_imp]
    split_ifs with h
    · rw [ih, isBuildingBetween_wallLoop_iff]
      simp only [h, true_and, or_assoc]
    · rw [ih]
      simp only [h, false_and, false_or]

theorem isBuildingBetween_iff (allBuildings : List Building) (tx_x tx_y rx_x rx_y : ℚ)
    (bId : Int) :
    isBuildingBetween allBuildings tx_x tx_y rx_x rx_y bId = true ↔
      ∃ b ∈ allBuildings, bId = castInt b.ID ∧ ∃ w ∈ b.walls,
        reported (getIntersection tx_x tx_y rx_x rx_y w.from_corner.posX w.from_corner.posY
            w.to_corner.posX w.to_corner.posY) := by
  rw [isBuildingBetween, isBuildingBetween_buildingLoop_iff]
  simp only [Bool.false_eq_true, false_or]

theorem isAreaBetween_iff (allBuildings : List Building) (tx_x tx_y rx_x rx_y : ℚ) (bId : Int) :
    isAreaBetween allBuildings tx_x tx_y rx_x rx_y bId = true ↔
      ∃ b ∈ allBuildings, bId = castInt b.ID ∧
        (reported (getIntersection tx_x tx_y rx_x rx_y b.maxX b.maxY b.maxX b.minY)
        ∨ reported (getIntersection tx_x tx_y rx_x rx_y b.maxX b.maxY b.minX b.maxY)
        ∨ reported (getIntersection tx_x tx_y rx_x rx_y b.minX b.minY b.minX b.maxY)
        ∨ reported (getIntersection tx_x tx_y rx_x rx_y b.minX b.minY b.maxX b.minY)) := by
  induction allBuildings with
  | nil => simp [isAreaBetween]
  | cons b bs ih =>
    simp only [isAreaBetween, List.mem_cons, exists_eq_or_imp, reported_iff]
    split_ifs with h h1 h2 h3 h4
    · simp only [h, h1, true_or, and_self]
    · simp only [h, h2, true_or, or_true, and_self]
    · simp only [h, h3, true_or, or_true, and_self]
    · simp only [h, h4, true_or, or_true, and_self]
    · rw [ih]
      simp only [h, h1, h2, h3, h4, or_self, and_false, false_or]
    · rw [ih]
      simp only [h, false_and, false_or]

/-- A returned value that passes the callers' test comes from a set flag. -/
theorem intersect_of_reported {P1x P1y P2x P2y P3x P3y P4x P4y : ℚ}
    (h : reported (getIntersection P1x P1y P2x P2y P3x P3y P4x P4y)) :
    intersect P1x P1y P2x P2y P3x P3y P4x P4y = true := by
  by_contra hi
  rw [Bool.not_eq_true] at hi
  rw [getIntersection_of_not_intersect hi] at h
  exact h.elim (fun h0 => h0 rfl) (fun h0 => h0 rfl)


/-! ## Leaving a rectangle along a segment -/

theorem affine_hit_up {u v c : ℚ} (huc : u < c) (hcv : c ≤ v) :
    ∃ l : ℚ, 0 ≤ l ∧ l ≤ 1 ∧ u + l * (v - u) = c := by
  have hpos : 0 < v - u := by linarith
  refine ⟨(c - u) / (v - u), div_nonneg (by linarith) hpos.le, ?_, ?_⟩
  · rw [div_le_one hpos]
    linarith
  · rw [div_mul_cancel₀ _ hpos.ne']
    ring

theorem affine_hit_down {u v c : ℚ} (hcu : c < u) (hvc : v ≤ c) :
    ∃ l : ℚ, 0 ≤ l ∧ l ≤ 1 ∧ u + l * (v - u) = c := by
  obtain ⟨l, h0, h1, h⟩ := affine_hit_up (u := -u) (v := -v) (c := -c) (by linarith) (by linarith)
  exact ⟨l, h0, h1, by linarith⟩

/-- A segment from a point `(ox, oy)` left of the rectangle `[x0,x1] × [y0,y1]` to a point
`(qx, qy)` of the rectangle meets an edge of the rectangle that is not parallel to it. -/
theorem box_exit_left {ox oy qx qy x0 x1 y0 y1 : ℚ} (ho : ox < x0)
    (h1 : x0 ≤ qx) (h2 : qx ≤ x1) (h3 : y0 ≤ qy) (h4 : qy ≤ y1) :
    ∃ l : ℚ, 0 ≤ l ∧ l ≤ 1 ∧
      ((qx ≠ ox ∧ (ox + l * (qx - ox) = x0 ∨ ox + l * (qx - ox) = x1)
          ∧ y0 ≤ oy + l * (qy - oy) ∧ oy + l * (qy - oy) ≤ y1)
      ∨ (qy ≠ oy ∧ (oy + l * (qy - oy) = y0 ∨ oy + l * (qy - oy) = y1)
          ∧ x0 ≤ ox + l * (qx - ox) ∧ ox + l * (qx - ox) ≤ x1)) := by
  obtain ⟨l, hl0, hl1, hl⟩ := affine_hit_up ho h1
  by_cases hlow : y0 ≤ oy + l * (qy - oy)
  · by_cases hup : oy + l * (qy - oy) ≤ y1
    · exact ⟨l, hl0, hl1, Or.inl ⟨by linarith, Or.inl hl, hlow, hup⟩⟩
    · -- the segment passes above the upper left corner and comes down through the top edge
      obtain ⟨m, hm0, hm1, hm⟩ :=
        affine_hit_down (u := oy + l * (qy - oy)) (v := qy) (c := y1) (by linarith) h4
      have hX : ox + (l + m * (1 - l)) * (qx - ox) = x0 + m * (qx - x0) := by
        rw [← hl]; ring
      have hY : oy + (l + m * (1 - l)) * (qy - oy) = y1 := by
        rw [← hm]; ring
      refine ⟨l + m * (1 - l), by nlinarith, by nlinarith, Or.inr ⟨?_, Or.inr hY, ?_, ?_⟩⟩
      · intro h
        rw [h] at hup
        apply hup
        have : oy + l * (oy - oy) = oy := by ring
        linarith
      · rw [hX]; nlinarith
      · rw [hX]; nlinarith
  · obtain ⟨m, hm0, hm1, hm⟩ :=
      affine_hit_up (u := oy + l * (qy - oy)) (v := qy) (c := y0) (by linarith) h3
    have hX : ox + (l + m * (1 - l)) * (qx - ox) = x0 + m * (qx - x0) := by
      rw [← hl]; ring
    have hY : oy + (l + m * (1 - l)) * (qy - oy) = y0 := by
      rw [← hm]; ring
    refine ⟨l + m * (1 - l), by nlinarith, by nlinarith, Or.inr ⟨?_, Or.inl hY, ?_, ?_⟩⟩
    · intro h
      rw [h] at hlow
      apply hlow
      have : oy + l * (oy - oy) = oy := by ring
      linarith
    · rw [hX]; nlinarith
    · rw [hX]; nlinarith

/-- A segment from a point outside the rectangle `[x0,x1] × [y0,y1]` to a point of the
rectangle meets an edge of the rectangle that is not parallel to it. -/
theorem box_exit {ox oy qx qy x0 x1 y0 y1 : ℚ}
    (ho : ¬ (x0 ≤ ox ∧ ox ≤ x1 ∧ y0 ≤ oy ∧ oy ≤ y1))
    (h1 : x0 ≤ qx) (h2 : qx ≤ x1) (h3 : y0 ≤ qy) (h4 : qy ≤ y1) :
    ∃ l : ℚ, 0 ≤ l ∧ l ≤ 1 ∧
      ((qx ≠ ox ∧ (ox + l * (qx - ox) = x0 ∨ ox + l * (qx - ox) = x1)
          ∧ y0 ≤ oy + l * (qy - oy) ∧ oy + l * (qy - oy) ≤ y1)
      ∨ (qy ≠ oy ∧ (oy + l * (qy - oy) = y0 ∨ oy + l * (qy - oy) = y1)
          ∧ x0 ≤ ox + l * (qx - ox) ∧ ox + l * (qx - ox) ≤ x1)) := by
  by_cases c1 : ox < x0
  · exact box_exit_left c1 h1 h2 h3 h4
  by_cases c2 : x1 < ox
  · -- mirror the abscissae
    obtain ⟨l, hl0, hl1, h⟩ := @box_exit_left (-ox) oy (-qx) qy (-x1) (-x0) y0 y1 (by linarith) (by linarith) (by linarith) h3 h4
    refine ⟨l, hl0, hl1, ?_⟩
    rcases h with ⟨a, b | b, c, d⟩ | ⟨a, b, c, d⟩
    · exact Or.inl ⟨fun e => a (by rw [e]), Or.inr (by linarith), c, d⟩
    · exact Or.inl ⟨fun e => a (by rw [e]), Or.inl (by linarith), c, d⟩
    · exact Or.inr ⟨a, b, by linarith, by linarith⟩
  by_cases c3 : oy < y0
  · -- exchange the coordinates
    obtain ⟨l, hl0, hl1, h⟩ := @box_exit_left oy ox qy qx y0 y1 x0 x1 c3 h3 h4 h1 h2
    exact ⟨l, hl0, hl1, h.symm⟩
  · have c4 : y1 < oy := by
      by_contra c4
      exact ho ⟨not_lt.mp c1, not_lt.mp c2, not_lt.mp c3, not_lt.mp c4⟩
    obtain ⟨l, hl0, hl1, h⟩ := @box_exit_left (-oy) ox (-qy) qx (-y1) (-y0) x0 x1 (by linarith) (by linarith) (by linarith) h1 h2
    refine ⟨l, hl0, hl1, ?_⟩
    rcases h with ⟨a, b | b, c, d⟩ | ⟨a, b, c, d⟩
    · exact Or.inr ⟨fun e => a (by rw [e]), Or.inr (by linarith), c, d⟩
    · exact Or.inr ⟨fun e => a (by rw [e]), Or.inl (by linarith), c, d⟩
    · exact Or.inl ⟨a, b, by linarith, by linarith⟩


/-- The line of sight meets a vertical segment `(c, ya)-(c, yb)` in a point other than the
origin: `getIntersection` reports it. -/
theorem reported_vertical {tx_x tx_y rx_x rx_y c ya yb t : ℚ} (ht0 : 0 ≤ t) (ht1 : t ≤ 1)
    (hX : tx_x + t * (rx_x - tx_x) = c)
    (hY : (ya ≤ tx_y + t * (rx_y - tx_y) ∧ tx_y + t * (rx_y - tx_y) ≤ yb)
      ∨ (yb ≤ tx_y + t * (rx_y - tx_y) ∧ tx_y + t * (rx_y - tx_y) ≤ ya))
    (hab : ya ≠ yb) (heps : epsilon ≤ |rx_x - tx_x| * |ya - yb|)
    (hO : c ≠ 0 ∨ tx_y + t * (rx_y - tx_y) ≠ 0) :
    reported (getIntersection tx_x tx_y rx_x rx_y c ya c yb) := by
  have hd : yb - ya ≠ 0 := sub_ne_zero.mpr (Ne.symm hab)
  have hdet : epsilon ≤ |det tx_x tx_y rx_x rx_y c ya c yb| := by
    have : det tx_x tx_y rx_x rx_y c ya c yb = (rx_x - tx_x) * (ya - yb) := by
      simp only [det]; ring
    rw [this, abs_mul]
    exact heps
  have hs : tx_y + t * (rx_y - tx_y)
      = ya + ((tx_y + t * (rx_y - tx_y) - ya) / (yb - ya)) * (yb - ya) := by
    rw [div_mul_cancel₀ _ hd]; ring
  have hs0 : 0 ≤ (tx_y + t * (rx_y - tx_y) - ya) / (yb - ya) := by
    rcases hY with ⟨h1, h2⟩ | ⟨h1, h2⟩
    · exact div_nonneg (by linarith) (by linarith)
    · exact div_nonneg_of_nonpos (by linarith) (by linarith)
  have hs1 : (tx_y + t * (rx_y - tx_y) - ya) / (yb - ya) ≤ 1 := by
    rcases hY with ⟨h1, h2⟩ | ⟨h1, h2⟩
    · have hpos : 0 < yb - ya := lt_of_le_of_ne (by linarith) (Ne.symm hd)
      rw [div_le_one hpos]; linarith
    · have hneg : yb - ya < 0 := lt_of_le_of_ne (by linarith) hd
      rw [div_le_one_of_neg hneg]; linarith
  rw [getIntersection_eq_of_param hdet ht0 ht1 hs0 hs1 (by rw [hX]; ring) hs]
  rcases hO with h | h
  · exact Or.inl (by rw [hX]; exact h)
  · exact Or.inr h

/-- The line of sight meets a horizontal segment `(xa, c)-(xb, c)` in a point other than the
origin: `getIntersection` reports it. -/
theorem reported_horizontal {tx_x tx_y rx_x rx_y c xa xb t : ℚ} (ht0 : 0 ≤ t) (ht1 : t ≤ 1)
    (hY : tx_y + t * (rx_y - tx_y) = c)
    (hX : (xa ≤ tx_x + t * (rx_x - tx_x) ∧ tx_x + t * (rx_x - tx_x) ≤ xb)
      ∨ (xb ≤ tx_x + t * (rx_x - tx_x) ∧ tx_x + t * (rx_x - tx_x) ≤ xa))
    (hab : xa ≠ xb) (heps : epsilon ≤ |rx_y - tx_y| * |xa - xb|)
    (hO : tx_x + t * (rx_x - tx_x) ≠ 0 ∨ c ≠ 0) :
    reported (getIntersection tx_x tx_y rx_x rx_y xa c xb c) := by
  have hd : xb - xa ≠ 0 := sub_ne_zero.mpr (Ne.symm hab)
  have hdet : epsilon ≤ |det tx_x tx_y rx_x rx_y xa c xb c| := by
    have : det tx_x tx_y rx_x rx_y xa c xb c = - ((rx_y - tx_y) * (xa - xb)) := by
      simp only [det]; ring
    rw [this, abs_neg, abs_mul]
    exact heps
  have hs : tx_x + t * (rx_x - tx_x)
      = xa + ((tx_x + t * (rx_x - tx_x) - xa) / (xb - xa)) * (xb - xa) := by
    rw [div_mul_cancel₀ _ hd]; ring
  have hs0 : 0 ≤ (tx_x + t * (rx_x - tx_x) - xa) / (xb - xa) := by
    rcases hX with ⟨h1, h2⟩ | ⟨h1, h2⟩
    · exact div_nonneg (by linarith) (by linarith)
    · exact div_nonneg_of_nonpos (by linarith) (by linarith)
  have hs1 : (tx_x + t * (rx_x - tx_x) - xa) / (xb - xa) ≤ 1 := by
    rcases hX with ⟨h1, h2⟩ | ⟨h1, h2⟩
    · have hpos : 0 < xb - xa := lt_of_le_of_ne (by linarith) (Ne.symm hd)
      rw [div_le_one hpos]; linarith
    · have hneg : xb - xa < 0 := lt_of_le_of_ne (by linarith) hd
      rw [div_le_one_of_neg hneg]; linarith
  rw [getIntersection_eq_of_param hdet ht0 ht1 hs0 hs1 hs (by rw [hY]; ring)]
  rcases hO with h | h
  · exact Or.inl h
  · exact Or.inr (by rw [hY]; exact h)


/-- One building: a line of sight with a point in the min-max-area and a point outside of it
is reported on one of the four edges that `isAreaBetween` tests. -/
theorem area_reported_of_exit (b : Building) {tx_x tx_y rx_x rx_y a c : ℚ}
    (hbx : b.minX < b.maxX) (hby : b.minY < b.maxY) (hO : ¬ b.onOutline 0 0)
    (ha0 : 0 ≤ a) (ha1 : a ≤ 1) (hc0 : 0 ≤ c) (hc1 : c ≤ 1)
    (hin : b.inArea (tx_x + a * (rx_x - tx_x)) (tx_y + a * (rx_y - tx_y)))
    (hout : ¬ b.inArea (tx_x + c * (rx_x - tx_x)) (tx_y + c * (rx_y - tx_y)))
    (hex : rx_x ≠ tx_x → epsilon ≤ |rx_x - tx_x| * (b.maxY - b.minY))
    (hey : rx_y ≠ tx_y → epsilon ≤ |rx_y - tx_y| * (b.maxX - b.minX)) :
    reported (getIntersection tx_x tx_y rx_x rx_y b.maxX b.maxY b.maxX b.minY)
    ∨ reported (getIntersection tx_x tx_y rx_x rx_y b.maxX b.maxY b.minX b.maxY)
    ∨ reported (getIntersection tx_x tx_y rx_x rx_y b.minX b.minY b.minX b.maxY)
    ∨ reported (getIntersection tx_x tx_y rx_x rx_y b.minX b.minY b.maxX b.minY) := by
  obtain ⟨h1, h2, h3, h4⟩ := hin
  obtain ⟨l, hl0, hl1, h⟩ := box_exit hout h1 h2 h3 h4
  have ht0 : 0 ≤ c + l * (a - c) := by
    nlinarith [mul_nonneg (sub_nonneg.mpr hl1) hc0, mul_nonneg hl0 ha0]
  have ht1 : c + l * (a - c) ≤ 1 := by
    nlinarith [mul_nonneg (sub_nonneg.mpr hl1) (sub_nonneg.mpr hc1),
      mul_nonneg hl0 (sub_nonneg.mpr ha1)]
  have eX : tx_x + c * (rx_x - tx_x)
        + l * (tx_x + a * (rx_x - tx_x) - (tx_x + c * (rx_x - tx_x)))
      = tx_x + (c + l * (a - c)) * (rx_x - tx_x) := by ring
  have eY : tx_y + c * (rx_y - tx_y)
        + l * (tx_y + a * (rx_y - tx_y) - (tx_y + c * (rx_y - tx_y)))
      = tx_y + (c + l * (a - c)) * (rx_y - tx_y) := by ring
  rw [eX, eY] at h
  have absx : |b.minY - b.maxY| = b.maxY - b.minY := by
    rw [abs_sub_comm]; exact abs_of_pos (by linarith)
  have absx2 : |b.maxY - b.minY| = b.maxY - b.minY := abs_of_pos (by linarith)
  have absy : |b.minX - b.maxX| = b.maxX - b.minX := by
    rw [abs_sub_comm]; exact abs_of_pos (by linarith)
  have absy2 : |b.maxX - b.minX| = b.maxX - b.minX := abs_of_pos (by linarith)
  rcases h with ⟨hne, hX | hX, hY0, hY1⟩ | ⟨hne, hY | hY, hX0, hX1⟩
  · -- left edge
    have hd : rx_x ≠ tx_x := by
      intro e; apply hne; rw [e]; ring
    refine Or.inr (Or.inr (Or.inl (reported_vertical ht0 ht1 hX (Or.inl ⟨hY0, hY1⟩) hby.ne
      (by rw [absx]; exact hex hd) ?_)))
    by_contra hcon
    rw [not_or, not_not, not_not] at hcon
    apply hO
    refine ⟨⟨?_, ?_, ?_, ?_⟩, Or.inl hcon.1.symm⟩
    · exact hcon.1.le
    · rw [← hcon.1]; exact hbx.le
    · rw [← hcon.2]; exact hY0
    · rw [← hcon.2]; exact hY1
  · -- right edge
    have hd : rx_x ≠ tx_x := by
      intro e; apply hne; rw [e]; ring
    refine Or.inl (reported_vertical ht0 ht1 hX (Or.inr ⟨hY0, hY1⟩) hby.ne'
      (by rw [absx2]; exact hex hd) ?_)
    by_contra hcon
    rw [not_or, not_not, not_not] at hcon
    apply hO
    refine ⟨⟨?_, ?_, ?_, ?_⟩, Or.inr (Or.inl hcon.1.symm)⟩
    · rw [← hcon.1]; exact hbx.le
    · exact hcon.1.ge
    · rw [← hcon.2]; exact hY0
    · rw [← hcon.2]; exact hY1
  · -- bottom edge
    have hd : rx_y ≠ tx_y := by
      intro e; apply hne; rw [e]; ring
    refine Or.inr (Or.inr (Or.inr (reported_horizontal ht0 ht1 hY (Or.inl ⟨hX0, hX1⟩) hbx.ne
      (by rw [absy]; exact hey hd) ?_)))
    by_contra hcon
    rw [not_or, not_not, not_not] at hcon
    apply hO
    refine ⟨⟨?_, ?_, ?_, ?_⟩, Or.inr (Or.inr (Or.inl hcon.2.symm))⟩
    · rw [← hcon.1]; exact hX0
    · rw [← hcon.1]; exact hX1
    · exact hcon.2.le
    · rw [← hcon.2]; exact hby.le
  · -- top edge
    have hd : rx_y ≠ tx_y := by
      intro e; apply hne; rw [e]; ring
    refine Or.inr (Or.inl (reported_horizontal ht0 ht1 hY (Or.inr ⟨hX0, hX1⟩) hbx.ne'
      (by rw [absy2]; exact hey hd) ?_))
    by_contra hcon
    rw [not_or, not_not, not_not] at hcon
    apply hO
    refine ⟨⟨?_, ?_, ?_, ?_⟩, Or.inr (Or.inr (Or.inr hcon.2.symm))⟩
    · rw [← hcon.1]; exact hX0
    · rw [← hcon.1]; exact hX1
    · rw [← hcon.2]; exact hby.le
    · exact hcon.2.ge


theorem convex_between {lo hi u v s : ℚ} (hs0 : 0 ≤ s) (hs1 : s ≤ 1)
    (hu : lo ≤ u ∧ u ≤ hi) (hv : lo ≤ v ∧ v ≤ hi) :
    lo ≤ u + s * (v - u) ∧ u + s * (v - u) ≤ hi := by
  constructor
  · nlinarith [mul_nonneg hs0 (sub_nonneg.mpr hv.1), mul_nonneg (sub_nonneg.mpr hs1) (sub_nonneg.mpr hu.1)]
  · nlinarith [mul_nonneg hs0 (sub_nonneg.mpr hv.2), mul_nonneg (sub_nonneg.mpr hs1) (sub_nonneg.mpr hu.2)]

/-- A building that consists of a single wall never yields a diffraction corner: the wall
contains its own from-corner, so the body that sets `dcFound` is never entered. -/
theorem getDiffractionCorners_single_wall (ID : Nat) (minX minY maxX maxY : ℚ) (w : Wall)
    (tx_x tx_y rx_x rx_y : ℚ) :
    getDiffractionCorners [⟨ID, minX, minY, maxX, maxY, [w]⟩] tx_x tx_y rx_x rx_y (castInt ID)
      = [] := by
  simp [getDiffractionCorners, getDiffractionCorners.buildingLoop,
    getDiffractionCorners.cornerLoop, getDiffractionCorners.otherWalls]

/-! ## The segment-intersection primitive -/

/-- C1: when the determinant has magnitude at least machine epsilon, the flag `intersect` is
set exactly when both Cramer coefficients lie in `[0,1]`; the returned point is then
`P1 + a (P2 - P1)`, which is also `P3 + b (P4 - P3)`, a point of both segments; when a
coefficient is outside `[0,1]` the flag is cleared and the no-intersection value is returned. -/
theorem getIntersection_regular (P1x P1y P2x P2y P3x P3y P4x P4y : ℚ)
    (hdet : epsilon ≤ |det P1x P1y P2x P2y P3x P3y P4x P4y|) :
    (intersect P1x P1y P2x P2y P3x P3y P4x P4y = true ↔
      0 ≤ coefA P1x P1y P2x P2y P3x P3y P4x P4y ∧ coefA P1x P1y P2x P2y P3x P3y P4x P4y ≤ 1
      ∧ 0 ≤ coefB P1x P1y P2x P2y P3x P3y P4x P4y ∧ coefB P1x P1y P2x P2y P3x P3y P4x P4y ≤ 1)
    ∧ (0 ≤ coefA P1x P1y P2x P2y P3x P3y P4x P4y ∧ coefA P1x P1y P2x P2y P3x P3y P4x P4y ≤ 1
        ∧ 0 ≤ coefB P1x P1y P2x P2y P3x P3y P4x P4y ∧ coefB P1x P1y P2x P2y P3x P3y P4x P4y ≤ 1 →
      getIntersection P1x P1y P2x P2y P3x P3y P4x P4y
          = ⟨P1x + coefA P1x P1y P2x P2y P3x P3y P4x P4y * (P2x - P1x),
             P1y + coefA P1x P1y P2x P2y P3x P3y P4x P4y * (P2y - P1y)⟩
        ∧ getIntersection P1x P1y P2x P2y P3x P3y P4x P4y
          = ⟨P3x + coefB P1x P1y P2x P2y P3x P3y P4x P4y * (P4x - P3x),
             P3y + coefB P1x P1y P2x P2y P3x P3y P4x P4y * (P4y - P3y)⟩)
    ∧ (¬ (0 ≤ coefA P1x P1y P2x P2y P3x P3y P4x P4y ∧ coefA P1x P1y P2x P2y P3x P3y P4x P4y ≤ 1
        ∧ 0 ≤ coefB P1x P1y P2x P2y P3x P3y P4x P4y ∧ coefB P1x P1y P2x P2y P3x P3y P4x P4y ≤ 1) →
      intersect P1x P1y P2x P2y P3x P3y P4x P4y = false
        ∧ getIntersection P1x P1y P2x P2y P3x P3y P4x P4y = ⟨0, 0⟩) := by
  have hiff := intersect_eq_true_iff P1x P1y P2x P2y P3x P3y P4x P4y
  have hne := det_ne_zero_of_epsilon_le hdet
  refine ⟨⟨fun h => (hiff.mp h).2, fun h => hiff.mpr ⟨hdet, h⟩⟩, fun h => ?_, fun h => ?_⟩
  · have hi := hiff.mpr ⟨hdet, h⟩
    refine ⟨getIntersection_of_intersect hi, ?_⟩
    rw [getIntersection_of_intersect hi, cramer_x hne, cramer_y hne]
  · have hi : intersect P1x P1y P2x P2y P3x P3y P4x P4y = false := by
      rw [← Bool.not_eq_true, hiff]
      exact fun h2 => h h2.2
    exact ⟨hi, getIntersection_of_not_intersect hi⟩

/-- Witness of C1: the diagonals of the square with corners `(0,0)` and `(2,2)`. -/
theorem getIntersection_regular_witness :
    epsilon ≤ |det 0 0 2 2 0 2 2 0|
    ∧ ((intersect 0 0 2 2 0 2 2 0 = true ↔
        0 ≤ coefA 0 0 2 2 0 2 2 0 ∧ coefA 0 0 2 2 0 2 2 0 ≤ 1
        ∧ 0 ≤ coefB 0 0 2 2 0 2 2 0 ∧ coefB 0 0 2 2 0 2 2 0 ≤ 1)
      ∧ (0 ≤ coefA 0 0 2 2 0 2 2 0 ∧ coefA 0 0 2 2 0 2 2 0 ≤ 1
          ∧ 0 ≤ coefB 0 0 2 2 0 2 2 0 ∧ coefB 0 0 2 2 0 2 2 0 ≤ 1 →
        getIntersection 0 0 2 2 0 2 2 0
            = ⟨0 + coefA 0 0 2 2 0 2 2 0 * (2 - 0), 0 + coefA 0 0 2 2 0 2 2 0 * (2 - 0)⟩
          ∧ getIntersection 0 0 2 2 0 2 2 0
            = ⟨0 + coefB 0 0 2 2 0 2 2 0 * (2 - 0), 2 + coefB 0 0 2 2 0 2 2 0 * (0 - 2)⟩)
      ∧ (¬ (0 ≤ coefA 0 0 2 2 0 2 2 0 ∧ coefA 0 0 2 2 0 2 2 0 ≤ 1
          ∧ 0 ≤ coefB 0 0 2 2 0 2 2 0 ∧ coefB 0 0 2 2 0 2 2 0 ≤ 1) →
        intersect 0 0 2 2 0 2 2 0 = false ∧ getIntersection 0 0 2 2 0 2 2 0 = ⟨0, 0⟩)) :=
  ⟨by norm_num [det, epsilon],
   getIntersection_regular 0 0 2 2 0 2 2 0 (by norm_num [det, epsilon])⟩

/-- C2, evaluated where it fails: the segments `(-1,0)-(1,0)` and `(0,-1)-(0,1)` cross at the
origin (the flag `intersect` is set), the segments `(1,1)-(2,1)` and `(3,0)-(3,2)` do not
meet (the flag is cleared), and `getIntersection` returns the same value for both pairs. -/
theorem getIntersection_origin_ambiguous :
    intersect (-1) 0 1 0 0 (-1) 0 1 = true
    ∧ intersect 1 1 2 1 3 0 3 2 = false
    ∧ getIntersection (-1) 0 1 0 0 (-1) 0 1 = getIntersection 1 1 2 1 3 0 3 2 := by
  norm_num [getIntersection, intersect, coefA, coefB, det, detA, detB, epsilon]

/-- C3: segment intersection is symmetric in its two segments, verdict and point. -/
theorem getIntersection_symm (P1x P1y P2x P2y P3x P3y P4x P4y : ℚ) :
    getIntersection P1x P1y P2x P2y P3x P3y P4x P4y
      = getIntersection P3x P3y P4x P4y P1x P1y P2x P2y
    ∧ intersect P1x P1y P2x P2y P3x P3y P4x P4y = intersect P3x P3y P4x P4y P1x P1y P2x P2y := by
  have hs := intersect_swap P1x P1y P2x P2y P3x P3y P4x P4y
  refine ⟨?_, hs.symm⟩
  cases hi : intersect P1x P1y P2x P2y P3x P3y P4x P4y
  · rw [getIntersection_of_not_intersect hi, getIntersection_of_not_intersect (hs.trans hi)]
  · have hne := det_ne_zero_of_epsilon_le ((intersect_eq_true_iff _ _ _ _ _ _ _ _).mp hi).1
    rw [getIntersection_of_intersect hi, getIntersection_of_intersect (hs.trans hi),
      coefA_swap P1x P1y P2x P2y P3x P3y P4x P4y, cramer_x hne, cramer_y hne]

/-- C4 as stated fails: the collinear segments `(1,1)-(2,2)` and `(2,2)-(3,3)` share the
endpoint `(2,2)`, and `getIntersection` returns `(0,0)`. -/
theorem getIntersection_shared_endpoint_collinear :
    getIntersection 1 1 2 2 2 2 3 3 = ⟨0, 0⟩ ∧ getIntersection 1 1 2 2 2 2 3 3 ≠ ⟨2, 2⟩ := by
  norm_num [getIntersection, intersect, coefA, coefB, det, detA, detB, epsilon]

/-- C4, amended: two segments that share an endpoint `E` and whose determinant has magnitude
at least machine epsilon (they are not parallel) intersect in `E`. -/
theorem getIntersection_shared_endpoint (P1x P1y P2x P2y P3x P3y P4x P4y : ℚ) (E : Coord)
    (hdet : epsilon ≤ |det P1x P1y P2x P2y P3x P3y P4x P4y|)
    (h12 : (P1x = E.x ∧ P1y = E.y) ∨ (P2x = E.x ∧ P2y = E.y))
    (h34 : (P3x = E.x ∧ P3y = E.y) ∨ (P4x = E.x ∧ P4y = E.y)) :
    getIntersection P1x P1y P2x P2y P3x P3y P4x P4y = E := by
  obtain ⟨Ex, Ey⟩ := E
  simp only at h12 h34
  rcases h12 with ⟨h1, h2⟩ | ⟨h1, h2⟩ <;> rcases h34 with ⟨h3, h4⟩ | ⟨h3, h4⟩
  · rw [getIntersection_eq_of_param (t := 0) (s := 0) hdet le_rfl zero_le_one le_rfl zero_le_one
      (by linarith) (by linarith)]
    simp [h1, h2]
  · rw [getIntersection_eq_of_param (t := 0) (s := 1) hdet le_rfl zero_le_one zero_le_one le_rfl
      (by linarith) (by linarith)]
    simp [h1, h2]
  · rw [getIntersection_eq_of_param (t := 1) (s := 0) hdet zero_le_one le_rfl le_rfl zero_le_one
      (by linarith) (by linarith)]
    simp [h1, h2]
  · rw [getIntersection_eq_of_param (t := 1) (s := 1) hdet zero_le_one le_rfl zero_le_one le_rfl
      (by linarith) (by linarith)]
    simp [h1, h2]

/-- Witness of C4, amended: `(1,1)-(2,2)` and `(2,2)-(3,1)` meet in `(2,2)`. -/
theorem getIntersection_shared_endpoint_witness :
    epsilon ≤ |det 1 1 2 2 2 2 3 1|
    ∧ (((1 : ℚ) = (⟨2, 2⟩ : Coord).x ∧ (1 : ℚ) = (⟨2, 2⟩ : Coord).y)
        ∨ ((2 : ℚ) = (⟨2, 2⟩ : Coord).x ∧ (2 : ℚ) = (⟨2, 2⟩ : Coord).y))
    ∧ (((2 : ℚ) = (⟨2, 2⟩ : Coord).x ∧ (2 : ℚ) = (⟨2, 2⟩ : Coord).y)
        ∨ ((3 : ℚ) = (⟨2, 2⟩ : Coord).x ∧ (1 : ℚ) = (⟨2, 2⟩ : Coord).y))
    ∧ getIntersection 1 1 2 2 2 2 3 1 = ⟨2, 2⟩ :=
  ⟨by norm_num [det, epsilon], Or.inr ⟨rfl, rfl⟩, Or.inl ⟨rfl, rfl⟩,
   getIntersection_shared_endpoint 1 1 2 2 2 2 3 1 ⟨2, 2⟩ (by norm_num [det, epsilon])
     (Or.inr ⟨rfl, rfl⟩) (Or.inl ⟨rfl, rfl⟩)⟩

/-- C5: when the determinant has magnitude below machine epsilon (parallel and collinear
segments have determinant zero), the flag `intersect` is cleared and `getIntersection`
returns the no-intersection value. -/
theorem getIntersection_degenerate (P1x P1y P2x P2y P3x P3y P4x P4y : ℚ)
    (hdet : |det P1x P1y P2x P2y P3x P3y P4x P4y| < epsilon) :
    intersect P1x P1y P2x P2y P3x P3y P4x P4y = false
    ∧ getIntersection P1x P1y P2x P2y P3x P3y P4x P4y = ⟨0, 0⟩ := by
  have hi : intersect P1x P1y P2x P2y P3x P3y P4x P4y = false := by
    simp [intersect, hdet]
  exact ⟨hi, getIntersection_of_not_intersect hi⟩

/-- Witness of C5: the overlapping collinear segments `(1,1)-(3,1)` and `(2,1)-(4,1)`. -/
theorem getIntersection_degenerate_witness :
    |det 1 1 3 1 2 1 4 1| < epsilon
    ∧ intersect 1 1 3 1 2 1 4 1 = false ∧ getIntersection 1 1 3 1 2 1 4 1 = ⟨0, 0⟩ :=
  ⟨by norm_num [det, epsilon],
   getIntersection_degenerate 1 1 3 1 2 1 4 1 (by norm_num [det, epsilon])⟩

/-! ## Queries on the cache -/

/-- C6 as stated fails: the building is the diamond `(3,1) → (5,3) → (3,5) → (1,3) → (3,1)`
with min-max-area `[1,5] × [1,5]` (all wall corners lie in it), the sender is at `(3/2,3/2)`
and the receiver at `(3,3)`. The line of sight crosses the wall `(1,3)-(3,1)` in `(2,2)`, so
the wall test is true, and it stays inside the min-max-area, so the area test is false. -/
theorem isBuildingBetween_not_imp_isAreaBetween :
    (∀ w ∈ diamondBuilding.walls,
      diamondBuilding.inArea w.from_corner.posX w.from_corner.posY
      ∧ diamondBuilding.inArea w.to_corner.posX w.to_corner.posY)
    ∧ isBuildingBetween [diamondBuilding] (3 / 2) (3 / 2) 3 3 7 = true
    ∧ isAreaBetween [diamondBuilding] (3 / 2) (3 / 2) 3 3 7 = false := by
  refine ⟨?_, ?_, ?_⟩
  · norm_num [diamondBuilding, Building.inArea]
  · norm_num [diamondBuilding, isBuildingBetween, isBuildingBetween.buildingLoop,
      isBuildingBetween.wallLoop, castInt, getIntersection, intersect, coefA, coefB, det, detA,
      detB, epsilon]
  · norm_num [diamondBuilding, isAreaBetween, castInt, getIntersection, intersect, coefA, coefB,
      det, detA, detB, epsilon]

/-- C6, amended: for the buildings of the cache with the queried id, let the min-max-area
have positive width and height, not have the origin on its outline and contain all wall
corners; let the sender or the receiver lie outside of it, and let every edge determinant of
the line of sight that is not zero have magnitude at least machine epsilon. Then a positive
wall test implies a positive area test. -/
theorem isBuildingBetween_imp_isAreaBetween (allBuildings : List Building)
    (tx_x tx_y rx_x rx_y : ℚ) (bId : Int)
    (hgeom : ∀ b ∈ allBuildings, bId = castInt b.ID →
      b.minX < b.maxX ∧ b.minY < b.maxY
      ∧ ¬ b.onOutline 0 0
      ∧ (∀ w ∈ b.walls, b.inArea w.from_corner.posX w.from_corner.posY
          ∧ b.inArea w.to_corner.posX w.to_corner.posY)
      ∧ (¬ b.inArea tx_x tx_y ∨ ¬ b.inArea rx_x rx_y)
      ∧ (rx_x ≠ tx_x → epsilon ≤ |rx_x - tx_x| * (b.maxY - b.minY))
      ∧ (rx_y ≠ tx_y → epsilon ≤ |rx_y - tx_y| * (b.maxX - b.minX)))
    (h : isBuildingBetween allBuildings tx_x tx_y rx_x rx_y bId = true) :
    isAreaBetween allBuildings tx_x tx_y rx_x rx_y bId = true := by
  rw [isBuildingBetween_iff] at h
  obtain ⟨b, hb, hid, w, hw, hrep⟩ := h
  obtain ⟨hbx, hby, hO, hwalls, hout, hex, hey⟩ := hgeom b hb hid
  rw [isAreaBetween_iff]
  refine ⟨b, hb, hid, ?_⟩
  obtain ⟨hF, hG⟩ := hwalls w hw
  have hi := intersect_of_reported hrep
  obtain ⟨hdet, ha0, ha1, hb0, hb1⟩ := (intersect_eq_true_iff _ _ _ _ _ _ _ _).mp hi
  have hne := det_ne_zero_of_epsilon_le hdet
  have hin : b.inArea
      (tx_x + coefA tx_x tx_y rx_x rx_y w.from_corner.posX w.from_corner.posY
        w.to_corner.posX w.to_corner.posY * (rx_x - tx_x))
      (tx_y + coefA tx_x tx_y rx_x rx_y w.from_corner.posX w.from_corner.posY
        w.to_corner.posX w.to_corner.posY * (rx_y - tx_y)) := by
    rw [cramer_x hne, cramer_y hne]
    obtain ⟨f1, f2, f3, f4⟩ := hF
    obtain ⟨g1, g2, g3, g4⟩ := hG
    have cx := convex_between hb0 hb1 ⟨f1, f2⟩ ⟨g1, g2⟩
    have cy := convex_between hb0 hb1 ⟨f3, f4⟩ ⟨g3, g4⟩
    exact ⟨cx.1, cx.2, cy.1, cy.2⟩
  rcases hout with hT | hR
  · refine area_reported_of_exit b hbx hby hO ha0 ha1 (le_refl 0) zero_le_one hin ?_ hex hey
    have e1 : tx_x + 0 * (rx_x - tx_x) = tx_x := by ring
    have e2 : tx_y + 0 * (rx_y - tx_y) = tx_y := by ring
    rw [e1, e2]
    exact hT
  · refine area_reported_of_exit b hbx hby hO ha0 ha1 zero_le_one (le_refl 1) hin ?_ hex hey
    have e1 : tx_x + 1 * (rx_x - tx_x) = rx_x := by ring
    have e2 : tx_y + 1 * (rx_y - tx_y) = rx_y := by ring
    rw [e1, e2]
    exact hR

/-- Witness of C6, amended: the diamond building, the sender at `(0,3)` outside of the
min-max-area and the receiver at `(3,3)`. -/
theorem isBuildingBetween_imp_isAreaBetween_witness :
    (∀ b ∈ [diamondBuilding], (7 : Int) = castInt b.ID →
      b.minX < b.maxX ∧ b.minY < b.maxY
      ∧ ¬ b.onOutline 0 0
      ∧ (∀ w ∈ b.walls, b.inArea w.from_corner.posX w.from_corner.posY
          ∧ b.inArea w.to_corner.posX w.to_corner.posY)
      ∧ (¬ b.inArea 0 3 ∨ ¬ b.inArea 3 3)
      ∧ ((3 : ℚ) ≠ 0 → epsilon ≤ |(3 : ℚ) - 0| * (b.maxY - b.minY))
      ∧ ((3 : ℚ) ≠ 3 → epsilon ≤ |(3 : ℚ) - 3| * (b.maxX - b.minX)))
    ∧ isBuildingBetween [diamondBuilding] 0 3 3 3 7 = true
    ∧ isAreaBetween [diamondBuilding] 0 3 3 3 7 = true := by
  have hg : ∀ b ∈ [diamondBuilding], (7 : Int) = castInt b.ID →
      b.minX < b.maxX ∧ b.minY < b.maxY
      ∧ ¬ b.onOutline 0 0
      ∧ (∀ w ∈ b.walls, b.inArea w.from_corner.posX w.from_corner.posY
          ∧ b.inArea w.to_corner.posX w.to_corner.posY)
      ∧ (¬ b.inArea 0 3 ∨ ¬ b.inArea 3 3)
      ∧ ((3 : ℚ) ≠ 0 → epsilon ≤ |(3 : ℚ) - 0| * (b.maxY - b.minY))
      ∧ ((3 : ℚ) ≠ 3 → epsilon ≤ |(3 : ℚ) - 3| * (b.maxX - b.minX)) := by
    intro b hb _
    rw [List.mem_singleton] at hb
    subst hb
    norm_num [diamondBuilding, Building.inArea, Building.onOutline, epsilon]
  have hb : isBuildingBetween [diamondBuilding] 0 3 3 3 7 = true := by
    norm_num [diamondBuilding, isBuildingBetween, isBuildingBetween.buildingLoop,
      isBuildingBetween.wallLoop, castInt, getIntersection, intersect, coefA, coefB, det, detA,
      detB, epsilon]
  exact ⟨hg, hb, isBuildingBetween_imp_isAreaBetween [diamondBuilding] 0 3 3 3 7 hg hb⟩

/-- C7, evaluated where it fails: the building has the closed outline
`(2,2) → (2,4) → (0,3) → (0,1) → (2,2)`, the sender is at `(3,2)`, the receiver at `(-2,2)`.
The wall `(0,3)-(0,1)` does not contain the corner `(2,2)` and crosses the segment from the
receiver to that corner in `(0,2)`, yet `(2,2)` is returned as a diffraction corner. -/
theorem getDiffractionCorners_receiver_side_missed :
    getDiffractionCorners
        [⟨9, 0, 1, 2, 4, [⟨⟨1, 2, 2⟩, ⟨2, 2, 4⟩⟩, ⟨⟨2, 2, 4⟩, ⟨3, 0, 3⟩⟩,
          ⟨⟨3, 0, 3⟩, ⟨4, 0, 1⟩⟩, ⟨⟨4, 0, 1⟩, ⟨1, 2, 2⟩⟩]⟩] 3 2 (-2) 2 9
      = [⟨2, 2⟩, ⟨2, 4⟩, ⟨0, 1⟩]
    ∧ intersect (-2) 2 2 2 0 3 0 1 = true
    ∧ getIntersection (-2) 2 2 2 0 3 0 1 = ⟨0, 2⟩ := by
  norm_num [getDiffractionCorners, getDiffractionCorners.buildingLoop,
    getDiffractionCorners.cornerLoop, getDiffractionCorners.otherWalls, castInt,
    getIntersection, intersect, coefA, coefB, det, detA, detB, epsilon]

/-- C8, evaluated where it fails: for the building made of the single wall `(1,1)-(2,2)`,
sender `(3,2)` and receiver `(-2,2)`, no corner is returned. -/
theorem getDiffractionCorners_single_wall_empty :
    getDiffractionCorners [⟨9, 1, 1, 2, 2, [⟨⟨1, 1, 1⟩, ⟨2, 2, 2⟩⟩]⟩] 3 2 (-2) 2 9 = [] := by
  norm_num [getDiffractionCorners, getDiffractionCorners.buildingLoop,
    getDiffractionCorners.cornerLoop, getDiffractionCorners.otherWalls, castInt]

/-- C9, evaluated where it fails: the bounding box is `[0,2] × [-1,1]`, the sender at `(-1,0)`
and the receiver at `(1,0)`. The segment crosses the left edge `(0,-1)-(0,1)` of the box (in
the origin), and `isAreaBetween` returns false. -/
theorem isAreaBetween_misses_origin :
    isAreaBetween
        [⟨5, 0, -1, 2, 1, [⟨⟨1, 0, -1⟩, ⟨2, 2, -1⟩⟩, ⟨⟨2, 2, -1⟩, ⟨3, 2, 1⟩⟩,
          ⟨⟨3, 2, 1⟩, ⟨4, 0, 1⟩⟩, ⟨⟨4, 0, 1⟩, ⟨1, 0, -1⟩⟩]⟩] (-1) 0 1 0 5 = false
    ∧ intersect (-1) 0 1 0 0 (-1) 0 1 = true
    ∧ (-1 : ℚ) + coefA (-1) 0 1 0 0 (-1) 0 1 * (1 - (-1)) = 0
    ∧ (0 : ℚ) + coefA (-1) 0 1 0 0 (-1) 0 1 * (0 - 0) = 0 := by
  norm_num [isAreaBetween, castInt, getIntersection, intersect, coefA, coefB, det, detA, detB,
    epsilon]

/-- C10, evaluated where it fails: the building is the triangle
`(0,2) → (0,-2) → (3,0) → (0,2)`, the sender at `(-1,0)` and the receiver at `(1,0)`. The
segment crosses the wall `(0,2)-(0,-2)` (in the origin), and `isBuildingBetween` returns
false. -/
theorem isBuildingBetween_misses_origin :
    isBuildingBetween
        [⟨6, 0, -2, 3, 2, [⟨⟨1, 0, 2⟩, ⟨2, 0, -2⟩⟩, ⟨⟨2, 0, -2⟩, ⟨3, 3, 0⟩⟩,
          ⟨⟨3, 3, 0⟩, ⟨1, 0, 2⟩⟩]⟩] (-1) 0 1 0 6 = false
    ∧ intersect (-1) 0 1 0 0 2 0 (-2) = true
    ∧ (-1 : ℚ) + coefA (-1) 0 1 0 0 2 0 (-2) * (1 - (-1)) = 0
    ∧ (0 : ℚ) + coefA (-1) 0 1 0 0 2 0 (-2) * (0 - 0) = 0 := by
  norm_num [isBuildingBetween, isBuildingBetween.buildingLoop, isBuildingBetween.wallLoop,
    castInt, getIntersection, intersect, coefA, coefB, det, detA, detB, epsilon]

/-! ## The cache and the vicinity query -/

theorem castInt_castUnsigned {z : Int} (h0 : -2 ^ 31 ≤ z) (h1 : z < 2 ^ 31) :
    castInt (castUnsigned z) = z := by
  unfold castInt castUnsigned
  have hm : (0 : Int) ≤ z % 2 ^ 32 := Int.emod_nonneg _ (by norm_num)
  have hlt : z % 2 ^ 32 < 2 ^ 32 := Int.emod_lt_of_pos _ (by norm_num)
  have hmod : ((z % 2 ^ 32).toNat % 2 ^ 32 : Nat) = (z % 2 ^ 32).toNat := by
    apply Nat.mod_eq_of_lt
    omega
  rw [hmod]
  have hcast : (((z % 2 ^ 32).toNat : Nat) : Int) = z % 2 ^ 32 := Int.toNat_of_nonneg hm
  split_ifs with h
  · rw [hcast]
    omega
  · rw [hcast]
    omega

theorem isBuildingAlloc_loop_iff (bId : Int) (bs : List Building) (iAB : Bool) :
    isBuildingAlloc.loop bId bs iAB = true ↔ iAB = true ∨ ∃ b ∈ bs, bId = castInt b.ID := by
  induction bs generalizing iAB with
  | nil => simp [isBuildingAlloc.loop]
  | cons b bs ih =>
    simp only [isBuildingAlloc.loop, List.mem_cons, exists_eq_or_imp]
    split_ifs with h
    · rw [ih]
      simp only [h, true_or, or_true]
    · rw [ih]
      simp only [h, false_or]

theorem isBuildingAlloc_iff (allBuildings : List Building) (bId : Int) :
    isBuildingAlloc allBuildings bId = true ↔ ∃ b ∈ allBuildings, bId = castInt b.ID := by
  rw [isBuildingAlloc, isBuildingAlloc_loop_iff]
  simp only [Bool.false_eq_true, false_or]

/-- The return list of the loop: the identifiers of all rows, in order. -/
theorem getBuildingsInArea_buildingLoop_fst (offsetX offsetY : ℚ) (db : Database)
    (rQ : List BuildingRow) (areaBuildings : List Int) (allBuildings : List Building) :
    (getBuildingsInArea.buildingLoop offsetX offsetY db rQ areaBuildings allBuildings).1
      = areaBuildings ++ rQ.map (fun row => row.id) := by
  induction rQ generalizing areaBuildings allBuildings with
  | nil => simp [getBuildingsInArea.buildingLoop]
  | cons row rQ ih =>
    simp only [getBuildingsInArea.buildingLoop, List.map_cons]
    rw [ih]
    simp

/-- The cache after the loop: the cache before it, followed by the buildings it added. -/
theorem getBuildingsInArea_buildingLoop_snd (offsetX offsetY : ℚ) (db : Database)
    (rQ : List BuildingRow) (areaBuildings : List Int) (allBuildings : List Building) :
    ∃ added,
      (getBuildingsInArea.buildingLoop offsetX offsetY db rQ areaBuildings allBuildings).2
        = allBuildings ++ added := by
  induction rQ generalizing areaBuildings allBuildings with
  | nil => exact ⟨[], by simp [getBuildingsInArea.buildingLoop]⟩
  | cons row rQ ih =>
    simp only [getBuildingsInArea.buildingLoop]
    split_ifs with h1 h2 h3
    · obtain ⟨added, h⟩ := ih (areaBuildings ++ [row.id])
        (allBuildings ++ [⟨castUnsigned row.id, row.min_x + offsetX, row.min_y + offsetY,
          row.max_x + offsetX, row.max_y + offsetY,
          getBuildingsInArea.wallLoop offsetX offsetY (db.fromCornerQuery row.id)
            (db.toCornerQuery row.id) []⟩])
      exact ⟨_ :: added, by rw [h, List.append_assoc]; rfl⟩
    · exact ih _ _
    · exact ih _ _
    · exact ih _ _

/-- Every selected row is cached after the loop, unless its corner queries fail the
validation. -/
theorem getBuildingsInArea_buildingLoop_cached (offsetX offsetY : ℚ) (db : Database)
    (rQ : List BuildingRow) (areaBuildings : List Int) (allBuildings : List Building)
    (hint : ∀ row ∈ rQ, -2 ^ 31 ≤ row.id ∧ row.id < 2 ^ 31) :
    ∀ row ∈ rQ,
      (∃ b ∈ (getBuildingsInArea.buildingLoop offsetX offsetY db rQ areaBuildings
          allBuildings).2, row.id = castInt b.ID)
      ∨ (db.fromCornerQuery row.id).length ≠ (db.toCornerQuery row.id).length
      ∨ (db.fromCornerQuery row.id).length = 0 := by
  induction rQ generalizing areaBuildings allBuildings with
  | nil => intro row hrow; cases hrow
  | cons r rQ ih =>
    intro row hrow
    rw [List.mem_cons] at hrow
    rcases hrow with rfl | hrow
    · simp only [getBuildingsInArea.buildingLoop]
      by_cases h1 : isBuildingAlloc allBuildings row.id = false
      · by_cases h2 : (db.fromCornerQuery row.id).length = (db.toCornerQuery row.id).length
        · by_cases h3 : (db.fromCornerQuery row.id).length > 0
          · left
            rw [if_pos h1, if_pos h2, if_pos h3]
            obtain ⟨added, h⟩ := getBuildingsInArea_buildingLoop_snd offsetX offsetY db rQ
              (areaBuildings ++ [row.id])
              (allBuildings ++ [⟨castUnsigned row.id, row.min_x + offsetX,
                row.min_y + offsetY, row.max_x + offsetX, row.max_y + offsetY,
                getBuildingsInArea.wallLoop offsetX offsetY (db.fromCornerQuery row.id)
                  (db.toCornerQuery row.id) []⟩])
            rw [h]
            refine ⟨⟨castUnsigned row.id, row.min_x + offsetX, row.min_y + offsetY,
              row.max_x + offsetX, row.max_y + offsetY,
              getBuildingsInArea.wallLoop offsetX offsetY (db.fromCornerQuery row.id)
                (db.toCornerQuery row.id) []⟩, by simp, ?_⟩
            have hr := hint row (List.mem_cons_self _ _)
            exact (castInt_castUnsigned hr.1 hr.2).symm
          · right; right
            omega
        · right; left
          exact h2
      · left
        rw [if_neg h1]
        rw [Bool.not_eq_false] at h1
        obtain ⟨b, hb, hid⟩ := (isBuildingAlloc_iff _ _).mp h1
        obtain ⟨added, h⟩ := getBuildingsInArea_buildingLoop_snd offsetX offsetY db rQ
          (areaBuildings ++ [row.id]) allBuildings
        rw [h]
        exact ⟨b, List.mem_append_left _ hb, hid⟩
    · simp only [getBuildingsInArea.buildingLoop]
      exact ih _ _ (fun x hx => hint x (List.mem_cons_of_mem _ hx)) row hrow

theorem getIntersectionBetween_buildingLoop_absent (tx_x tx_y rx_x rx_y : ℚ) (bId : Int)
    (bs : List Building) (acc : List Coord) (h : ∀ b ∈ bs, bId ≠ castInt b.ID) :
    getIntersectionBetween.buildingLoop tx_x tx_y rx_x rx_y bId bs acc = acc := by
  induction bs generalizing acc with
  | nil => rfl
  | cons b bs ih =>
    simp only [getIntersectionBetween.buildingLoop]
    rw [if_neg (h b (List.mem_cons_self _ _))]
    exact ih _ (fun x hx => h x (List.mem_cons_of_mem _ hx))

theorem getDiffractionCorners_buildingLoop_absent (tx_x tx_y rx_x rx_y : ℚ) (bId : Int)
    (bs : List Building) (acc : List Coord) (h : ∀ b ∈ bs, bId ≠ castInt b.ID) :
    getDiffractionCorners.buildingLoop tx_x tx_y rx_x rx_y bId bs acc = acc := by
  induction bs generalizing acc with
  | nil => rfl
  | cons b bs ih =>
    simp only [getDiffractionCorners.buildingLoop]
    rw [if_neg (h b (List.mem_cons_self _ _))]
    exact ih _ (fun x hx => h x (List.mem_cons_of_mem _ hx))

/-- The rows of the query result are rows of the table `Building`. -/
theorem getBuildingsInArea_rQ_subset (offsetX offsetY : ℚ) (db : Database)
    (px py sqrRadius : ℚ) (row : BuildingRow)
    (h : row ∈ getBuildingsInArea.rQ offsetX offsetY db px py sqrRadius) :
    row ∈ db.buildingTable
      ∧ getBuildingsInArea.buildingQuery offsetX offsetY px py sqrRadius row = true := by
  simp only [getBuildingsInArea.rQ] at h
  split_ifs at h
  · cases h
  · exact List.mem_filter.mp h

/-- Every building in the cache after the loop was cached before it or was built from a row
that passed the validation. -/
theorem getBuildingsInArea_buildingLoop_added (offsetX offsetY : ℚ) (db : Database)
    (rQ : List BuildingRow) (areaBuildings : List Int) (allBuildings : List Building) :
    ∀ b ∈ (getBuildingsInArea.buildingLoop offsetX offsetY db rQ areaBuildings
        allBuildings).2,
      b ∈ allBuildings
      ∨ ∃ row ∈ rQ, b.ID = castUnsigned row.id
        ∧ (db.fromCornerQuery row.id).length = (db.toCornerQuery row.id).length
        ∧ (db.fromCornerQuery row.id).length > 0 := by
  induction rQ generalizing areaBuildings allBuildings with
  | nil =>
    intro b hb
    exact Or.inl hb
  | cons r rQ ih =>
    intro b hb
    simp only [getBuildingsInArea.buildingLoop] at hb
    rcases ih _ _ b hb with h | ⟨row, hrow, hrest⟩
    · split_ifs at h with h1 h2 h3
      · rcases List.mem_append.mp h with h | h
        · exact Or.inl h
        · rw [List.mem_singleton] at h
          subst h
          exact Or.inr ⟨r, List.mem_cons_self _ _, rfl, h2, h3⟩
      · exact Or.inl h
      · exact Or.inl h
      · exact Or.inl h
    · exact Or.inr ⟨row, List.mem_cons_of_mem _ hrow, hrest⟩

/-- The failed query, evaluated: the diamond database moved by `(-10,-10)` and the link from
`(-10,-8)` to `(-4,-8)`. The corner `(-9,-9)` of the min-max-area lies within the distance 3
of the midpoint `(-7,-8)`, but the text of the query holds `min_x--7.000000`; the query fails
and no identifier is returned. -/
theorem getBuildingsInArea_failed_query :
    getBuildingsInArea.buildingQuery (-10) (-10) (-7) (-8) 9 ⟨7, 1, 1, 5, 5⟩ = true
    ∧ getBuildingsInArea (-10) (-10) diamondDatabase [] ⟨-10, -8⟩ ⟨-4, -8⟩ = ([], []) := by
  norm_num [diamondDatabase, getBuildingsInArea, getBuildingsInArea.rQ,
    getBuildingsInArea.buildingLoop, getBuildingsInArea.buildingQuery, Coord.sqrdist]

/-- C11, evaluated where it fails: the building is the rectangle
`(0,-1) → (2,-1) → (2,1) → (0,1) → (0,-1)`, the sender at `(-1,0)` and the receiver at `(3,0)`.
The segment crosses the wall `(2,-1)-(2,1)` in `(2,0)` and the wall `(0,1)-(0,-1)` in the
origin; only `(2,0)` is returned. -/
theorem getIntersectionBetween_misses_origin :
    getIntersectionBetween
        [⟨5, 0, -1, 2, 1, [⟨⟨1, 0, -1⟩, ⟨2, 2, -1⟩⟩, ⟨⟨2, 2, -1⟩, ⟨3, 2, 1⟩⟩,
          ⟨⟨3, 2, 1⟩, ⟨4, 0, 1⟩⟩, ⟨⟨4, 0, 1⟩, ⟨1, 0, -1⟩⟩]⟩] (-1) 0 3 0 5 = [⟨2, 0⟩]
    ∧ intersect (-1) 0 3 0 2 (-1) 2 1 = true
    ∧ intersect (-1) 0 3 0 0 1 0 (-1) = true
    ∧ (-1 : ℚ) + coefA (-1) 0 3 0 0 1 0 (-1) * (3 - (-1)) = 0
    ∧ (0 : ℚ) + coefA (-1) 0 3 0 0 1 0 (-1) * (0 - 0) = 0 := by
  norm_num [getIntersectionBetween, getIntersectionBetween.buildingLoop,
    getIntersectionBetween.wallLoop, castInt, getIntersection, intersect, coefA, coefB, det,
    detA, detB, epsilon]

/-- C12, evaluated where it fails: the building row `1` with min-max-area `[0,1] × [0,1]`, a
from-corner result with the one row of sequence number 1 and a to-corner result with the one
row of sequence number 2. The counts are equal and positive, the pair is skipped for its
unequal sequence numbers, and the building is cached without any wall. -/
theorem getBuildingsInArea_caches_zero_walls :
    getBuildingsInArea 0 0
        ⟨[⟨1, 0, 0, 1, 1⟩], fun _ => [⟨1, 10, 0, 0⟩], fun _ => [⟨2, 11, 1, 1⟩]⟩ []
        ⟨0, 0⟩ ⟨2, 2⟩
      = ([1], [⟨1, 0, 0, 1, 1, []⟩]) := by
  norm_num [getBuildingsInArea, getBuildingsInArea.buildingLoop, getBuildingsInArea.wallLoop,
    getBuildingsInArea.rQ,
    getBuildingsInArea.buildingQuery, Coord.sqrdist, isBuildingAlloc, isBuildingAlloc.loop,
    castUnsigned]

/-- C13 as stated fails: the building row `1` has no wall (both corner queries are empty), so
its fetch fails the validation and nothing is cached, and its identifier is returned. -/
theorem getBuildingsInArea_returns_uncached :
    getBuildingsInArea 0 0 ⟨[⟨1, 0, 0, 1, 1⟩], fun _ => [], fun _ => []⟩ [] ⟨0, 0⟩ ⟨2, 2⟩
      = ([1], []) := by
  norm_num [getBuildingsInArea, getBuildingsInArea.buildingLoop,
    getBuildingsInArea.rQ,
    getBuildingsInArea.buildingQuery, Coord.sqrdist, isBuildingAlloc, isBuildingAlloc.loop]

/-- C13, amended: the identifiers being `int` values, `getBuildingsInArea` returns the
identifier of every row of the result of the building query, in order, whether or not the
building can be loaded; every returned identifier is in the cache when the function returns,
unless its fetch failed the validation (unequal counts of from- and to-corners, or no wall);
and for an identifier whose fetch fails the validation nothing is cached: if no cached
building had it before the call, none has it when the function returns. -/
theorem getBuildingsInArea_returned (offsetX offsetY : ℚ) (db : Database)
    (allBuildings : List Building) (txPos rxPos : Coord)
    (hint : ∀ row ∈ db.buildingTable, -2 ^ 31 ≤ row.id ∧ row.id < 2 ^ 31) :
    (getBuildingsInArea offsetX offsetY db allBuildings txPos rxPos).1
      = (getBuildingsInArea.rQ offsetX offsetY db
          (txPos.x + (rxPos.x - txPos.x) / 2) (txPos.y + (rxPos.y - txPos.y) / 2)
          (Coord.sqrdist txPos rxPos / 4)).map (fun row => row.id)
    ∧ (∀ bId ∈ (getBuildingsInArea offsetX offsetY db allBuildings txPos rxPos).1,
      (∃ b ∈ (getBuildingsInArea offsetX offsetY db allBuildings txPos rxPos).2,
          bId = castInt b.ID)
      ∨ (db.fromCornerQuery bId).length ≠ (db.toCornerQuery bId).length
      ∨ (db.fromCornerQuery bId).length = 0)
    ∧ ∀ bId : Int,
        ((db.fromCornerQuery bId).length ≠ (db.toCornerQuery bId).length
          ∨ (db.fromCornerQuery bId).length = 0) →
        (∀ b ∈ allBuildings, bId ≠ castInt b.ID) →
        ∀ b ∈ (getBuildingsInArea offsetX offsetY db allBuildings txPos rxPos).2,
          bId ≠ castInt b.ID := by
  have hsub : ∀ row ∈ getBuildingsInArea.rQ offsetX offsetY db
      (txPos.x + (rxPos.x - txPos.x) / 2) (txPos.y + (rxPos.y - txPos.y) / 2)
      (Coord.sqrdist txPos rxPos / 4), -2 ^ 31 ≤ row.id ∧ row.id < 2 ^ 31 := fun r hr =>
    hint r (getBuildingsInArea_rQ_subset _ _ _ _ _ _ r hr).1
  have h1 : (getBuildingsInArea offsetX offsetY db allBuildings txPos rxPos).1
      = (getBuildingsInArea.rQ offsetX offsetY db
          (txPos.x + (rxPos.x - txPos.x) / 2) (txPos.y + (rxPos.y - txPos.y) / 2)
          (Coord.sqrdist txPos rxPos / 4)).map (fun row => row.id) := by
    simp only [getBuildingsInArea, getBuildingsInArea_buildingLoop_fst, List.nil_append]
  refine ⟨h1, ?_, ?_⟩
  · intro bId hb
    rw [h1, List.mem_map] at hb
    obtain ⟨row, hrow, rfl⟩ := hb
    exact getBuildingsInArea_buildingLoop_cached offsetX offsetY db _ [] allBuildings hsub
      row hrow
  · intro bId hfail hbefore b hb hid
    rcases getBuildingsInArea_buildingLoop_added offsetX offsetY db _ [] allBuildings b hb
      with h | ⟨row, hrow, hID, hlen, hpos⟩
    · exact hbefore b h hid
    · have hr := hsub row hrow
      have hrow_id : bId = row.id := by
        rw [hid, hID, castInt_castUnsigned hr.1 hr.2]
      rw [hrow_id] at hfail
      rcases hfail with hne | hzero
      · exact hne hlen
      · omega

/-- Witness of C13, amended: in the example database the row `1` is loaded and the row `2`,
which has no walls, is returned without being cached. -/
theorem getBuildingsInArea_returned_witness :
    (∀ row ∈ exampleDatabase.buildingTable, -2 ^ 31 ≤ row.id ∧ row.id < 2 ^ 31)
    ∧ getBuildingsInArea 0 0 exampleDatabase [] ⟨0, 0⟩ ⟨2, 2⟩
      = ([1, 2], [⟨1, 0, 0, 1, 1, [⟨⟨10, 0, 0⟩, ⟨11, 1, 1⟩⟩]⟩])
    ∧ (exampleDatabase.fromCornerQuery 2).length = 0
    ∧ ((getBuildingsInArea 0 0 exampleDatabase [] ⟨0, 0⟩ ⟨2, 2⟩).1
        = (getBuildingsInArea.rQ 0 0 exampleDatabase
            ((⟨0, 0⟩ : Coord).x + ((⟨2, 2⟩ : Coord).x - (⟨0, 0⟩ : Coord).x) / 2)
            ((⟨0, 0⟩ : Coord).y + ((⟨2, 2⟩ : Coord).y - (⟨0, 0⟩ : Coord).y) / 2)
            (Coord.sqrdist ⟨0, 0⟩ ⟨2, 2⟩ / 4)).map (fun row => row.id)
      ∧ (∀ bId ∈ (getBuildingsInArea 0 0 exampleDatabase [] ⟨0, 0⟩ ⟨2, 2⟩).1,
        (∃ b ∈ (getBuildingsInArea 0 0 exampleDatabase [] ⟨0, 0⟩ ⟨2, 2⟩).2,
            bId = castInt b.ID)
        ∨ (exampleDatabase.fromCornerQuery bId).length
            ≠ (exampleDatabase.toCornerQuery bId).length
        ∨ (exampleDatabase.fromCornerQuery bId).length = 0)
      ∧ ∀ bId : Int,
          ((exampleDatabase.fromCornerQuery bId).length
              ≠ (exampleDatabase.toCornerQuery bId).length
            ∨ (exampleDatabase.fromCornerQuery bId).length = 0) →
          (∀ b ∈ ([] : List Building), bId ≠ castInt b.ID) →
          ∀ b ∈ (getBuildingsInArea 0 0 exampleDatabase [] ⟨0, 0⟩ ⟨2, 2⟩).2,
            bId ≠ castInt b.ID) := by
  have hint : ∀ row ∈ exampleDatabase.buildingTable, -2 ^ 31 ≤ row.id ∧ row.id < 2 ^ 31 := by
    norm_num [exampleDatabase]
  refine ⟨hint, ?_, by norm_num [exampleDatabase],
    getBuildingsInArea_returned 0 0 exampleDatabase [] ⟨0, 0⟩ ⟨2, 2⟩ hint⟩
  norm_num [exampleDatabase, getBuildingsInArea, getBuildingsInArea.buildingLoop,
    getBuildingsInArea.wallLoop, getBuildingsInArea.rQ, getBuildingsInArea.buildingQuery,
    Coord.sqrdist, isBuildingAlloc, isBuildingAlloc.loop, castUnsigned, castInt]
  decide

/-- C14: a building identifier that no cached building has is transparent for every sender
and receiver: the area test and the wall test are false, and no intersection and no
diffraction corner is returned. -/
theorem absent_building_transparent (allBuildings : List Building)
    (tx_x tx_y rx_x rx_y : ℚ) (bId : Int) (h : ∀ b ∈ allBuildings, bId ≠ castInt b.ID) :
    isAreaBetween allBuildings tx_x tx_y rx_x rx_y bId = false
    ∧ isBuildingBetween allBuildings tx_x tx_y rx_x rx_y bId = false
    ∧ getIntersectionBetween allBuildings tx_x tx_y rx_x rx_y bId = []
    ∧ getDiffractionCorners allBuildings tx_x tx_y rx_x rx_y bId = [] := by
  refine ⟨?_, ?_, ?_, ?_⟩
  · rw [← Bool.not_eq_true, isAreaBetween_iff]
    rintro ⟨b, hb, hid, _⟩
    exact h b hb hid
  · rw [← Bool.not_eq_true, isBuildingBetween_iff]
    rintro ⟨b, hb, hid, _⟩
    exact h b hb hid
  · exact getIntersectionBetween_buildingLoop_absent tx_x tx_y rx_x rx_y bId allBuildings [] h
  · exact getDiffractionCorners_buildingLoop_absent tx_x tx_y rx_x rx_y bId allBuildings [] h

/-- Witness of C14: the cache holds the diamond building `7`, the query is for building `8`
on a line of sight through the diamond. -/
theorem absent_building_transparent_witness :
    (∀ b ∈ [diamondBuilding], (8 : Int) ≠ castInt b.ID)
    ∧ isAreaBetween [diamondBuilding] 0 3 6 3 8 = false
    ∧ isBuildingBetween [diamondBuilding] 0 3 6 3 8 = false
    ∧ getIntersectionBetween [diamondBuilding] 0 3 6 3 8 = []
    ∧ getDiffractionCorners [diamondBuilding] 0 3 6 3 8 = [] := by
  have h : ∀ b ∈ [diamondBuilding], (8 : Int) ≠ castInt b.ID := by
    norm_num [diamondBuilding, castInt]
  exact ⟨h, absent_building_transparent [diamondBuilding] 0 3 6 3 8 h⟩

/-- C15: the cache is append-only. For every cache, database and query, the cache after
`getBuildingsInArea` is the cache before it followed by the added buildings, so every building
cached before is still cached, unchanged, whatever the database now holds for its
identifier. -/
theorem getBuildingsInArea_append_only (offsetX offsetY : ℚ) (db : Database)
    (allBuildings : List Building) (txPos rxPos : Coord) :
    (∃ added, (getBuildingsInArea offsetX offsetY db allBuildings txPos rxPos).2
        = allBuildings ++ added)
    ∧ ∀ b ∈ allBuildings,
        b ∈ (getBuildingsInArea offsetX offsetY db allBuildings txPos rxPos).2 := by
  obtain ⟨added, h⟩ := getBuildingsInArea_buildingLoop_snd offsetX offsetY db
    (getBuildingsInArea.rQ offsetX offsetY db
      (txPos.x + (rxPos.x - txPos.x) / 2) (txPos.y + (rxPos.y - txPos.y) / 2)
      (Coord.sqrdist txPos rxPos / 4)) [] allBuildings
  have h2 : (getBuildingsInArea offsetX offsetY db allBuildings txPos rxPos).2
      = allBuildings ++ added := h
  refine ⟨⟨added, h2⟩, fun b hb => ?_⟩
  rw [h2]
  exact List.mem_append_left _ hb

end MapManager

/-! ## The propagation models -/

namespace ShadowPropagationLossModel

open MapManager

theorem buildingLoop_iff (allBuildings : List Building) (senderPos receiverPos : Coord)
    (buildings : List Int) (shadowed : Bool) :
    calculateReceivedPower.buildingLoop allBuildings senderPos receiverPos buildings shadowed
        = true ↔
      shadowed = true ∨ ∃ bId ∈ buildings,
        isAreaBetween allBuildings senderPos.x senderPos.y receiverPos.x receiverPos.y bId = true
        ∧ isBuildingBetween allBuildings senderPos.x senderPos.y receiverPos.x receiverPos.y bId
          = true := by
  induction buildings generalizing shadowed with
  | nil => simp [calculateReceivedPower.buildingLoop]
  | cons b bs ih =>
    simp only [calculateReceivedPower.buildingLoop, List.mem_cons, exists_eq_or_imp]
    split_ifs with h1 h2
    · rw [ih]
      simp only [h1, h2, and_self, true_or, or_true]
    · rw [ih]
      simp only [h1, h2, Bool.false_eq_true, and_false, false_or]
    · rw [ih]
      simp only [h1, Bool.false_eq_true, false_and, false_or]

/-- The clamp `if (prec > pSend) prec = pSend` is the minimum. -/
theorem clamp_eq_min {α : Type} [LinearOrderedField α] (prec pSend : α) :
    (if prec > pSend then pSend else prec) = min pSend prec := by
  split_ifs with h
  · exact (min_eq_left h.le).symm
  · exact (min_eq_right (not_lt.mp h)).symm

theorem calculateReceivedPower_of_lt {α : Type} [LinearOrderedField α] (lib : Libm α)
    (sensitivityDbm : α) (offsetX offsetY : ℚ) (db : Database) (allBuildings : List Building)
    (pSend carrierFrequency : α) (senderPos receiverPos : Coord)
    (hout : 300000000 / carrierFrequency / (4 * lib.PI)
        * lib.sqrt (lib.pow 10 ((pSend - sensitivityDbm) / 10))
      < Coord.distance lib senderPos receiverPos) :
    calculateReceivedPower lib sensitivityDbm offsetX offsetY db allBuildings pSend
        carrierFrequency senderPos receiverPos
      = (lib.pow 10 ((sensitivityDbm - 1) / 10), allBuildings) := by
  simp only [calculateReceivedPower, dBm2mW, if_pos hout, decide_eq_true hout, Bool.true_or,
    if_true]

/-- C17: when the sender-receiver distance exceeds `rMax`, the Shadow model returns
`10^((sensitivity-1)/10)` whatever the database and the cache hold, and so do the Penetration
and the Diffraction model; none of them touches the cache. -/
theorem calculateReceivedPower_out_of_range {α : Type} [LinearOrderedField α] (lib : Libm α)
    (sensitivityDbm signalLossFactorWall signalLossFactorBuilding : α) (offsetX offsetY : ℚ)
    (db : Database) (allBuildings : List Building) (pSend carrierFrequency : α)
    (senderPos receiverPos : Coord) (_hf : carrierFrequency ≠ 0) (_hPI : lib.PI ≠ 0)
    (hout : 300000000 / carrierFrequency / (4 * lib.PI)
        * lib.sqrt (lib.pow 10 ((pSend - sensitivityDbm) / 10))
      < Coord.distance lib senderPos receiverPos) :
    ShadowPropagationLossModel.calculateReceivedPower lib sensitivityDbm offsetX offsetY db
        allBuildings pSend carrierFrequency senderPos receiverPos
      = (lib.pow 10 ((sensitivityDbm - 1) / 10), allBuildings)
    ∧ PenetrationPropagationLossModel.calculateReceivedPower lib sensitivityDbm
        signalLossFactorWall signalLossFactorBuilding offsetX offsetY db allBuildings pSend
        carrierFrequency senderPos receiverPos
      = (lib.pow 10 ((sensitivityDbm - 1) / 10), allBuildings)
    ∧ DiffractionPropagationLossModel.calculateReceivedPower lib sensitivityDbm offsetX offsetY
        db allBuildings pSend carrierFrequency senderPos receiverPos
      = (lib.pow 10 ((sensitivityDbm - 1) / 10), allBuildings) := by
  refine ⟨calculateReceivedPower_of_lt lib sensitivityDbm offsetX offsetY db allBuildings pSend
    carrierFrequency senderPos receiverPos hout, ?_, ?_⟩
  · simp only [PenetrationPropagationLossModel.calculateReceivedPower,
      PenetrationPropagationLossModel.dBm2mW, if_pos hout]
  · simp only [DiffractionPropagationLossModel.calculateReceivedPower,
      DiffractionPropagationLossModel.dBm2mW, if_pos hout]

/-- C18: for an in-range link of positive length, the Shadow model returns
`10^((sensitivity-1)/10)` when some building returned by `getBuildingsInArea` passes the area
test and then the wall test, and otherwise the free-space power
`pSend * lambda^2 / (16 * pi^2 * d^2)` clamped to at most `pSend`; the cache is the one that
`getBuildingsInArea` leaves. -/
theorem calculateReceivedPower_in_range {α : Type} [LinearOrderedField α] (lib : Libm α)
    (sensitivityDbm : α) (offsetX offsetY : ℚ) (db : Database) (allBuildings : List Building)
    (pSend carrierFrequency : α) (senderPos receiverPos : Coord)
    (_hf : carrierFrequency ≠ 0) (_hPI : lib.PI ≠ 0) (_hMPI : lib.M_PI ≠ 0)
    (_hd : 0 < Coord.distance lib senderPos receiverPos)
    (hpow : lib.pow (Coord.distance lib senderPos receiverPos) 2
      = Coord.distance lib senderPos receiverPos ^ 2)
    (hin : ¬ (300000000 / carrierFrequency / (4 * lib.PI)
        * lib.sqrt (lib.pow 10 ((pSend - sensitivityDbm) / 10))
      < Coord.distance lib senderPos receiverPos)) :
    (buildingBetween (getBuildingsInArea offsetX offsetY db allBuildings senderPos receiverPos)
        senderPos receiverPos →
      calculateReceivedPower lib sensitivityDbm offsetX offsetY db allBuildings pSend
          carrierFrequency senderPos receiverPos
        = (lib.pow 10 ((sensitivityDbm - 1) / 10),
            (getBuildingsInArea offsetX offsetY db allBuildings senderPos receiverPos).2))
    ∧ (¬ buildingBetween
          (getBuildingsInArea offsetX offsetY db allBuildings senderPos receiverPos)
          senderPos receiverPos →
      calculateReceivedPower lib sensitivityDbm offsetX offsetY db allBuildings pSend
          carrierFrequency senderPos receiverPos
        = (freeSpacePower lib pSend carrierFrequency (Coord.distance lib senderPos receiverPos),
            (getBuildingsInArea offsetX offsetY db allBuildings senderPos receiverPos).2)) := by
  have hdec : decide (300000000 / carrierFrequency / (4 * lib.PI)
        * lib.sqrt (lib.pow 10 ((pSend - sensitivityDbm) / 10))
      < Coord.distance lib senderPos receiverPos) = false := decide_eq_false hin
  constructor
  · intro hs
    have hb := (buildingLoop_iff _ senderPos receiverPos _ false).mpr (Or.inr hs)
    simp only [calculateReceivedPower, dBm2mW, if_neg hin, hdec, hb, Bool.or_true, if_true]
  · intro hs
    have hb : calculateReceivedPower.buildingLoop
        (getBuildingsInArea offsetX offsetY db allBuildings senderPos receiverPos).2
        senderPos receiverPos
        (getBuildingsInArea offsetX offsetY db allBuildings senderPos receiverPos).1 false
        = false := by
      rw [← Bool.not_eq_true, buildingLoop_iff]
      simp only [Bool.false_eq_true, false_or]
      exact hs
    simp only [calculateReceivedPower, dBm2mW, if_neg hin, hdec, hb, Bool.or_self,
      Bool.false_eq_true, if_false, clamp_eq_min, hpow, freeSpacePower]
    congr 2
    ring

end ShadowPropagationLossModel

/-! ## The models over the real library -/

namespace Libm

open MapManager

theorem real_distance_unit : Coord.distance Libm.real ⟨0, 0⟩ ⟨1, 0⟩ = 1 := by
  simp [Coord.distance, Coord.sqrdist, Libm.real]

theorem real_distance_three : Coord.distance Libm.real ⟨-1, 1 / 2⟩ ⟨2, 1 / 2⟩ = 3 := by
  have h9 : Real.sqrt 9 = 3 := by
    rw [show (9 : ℝ) = 3 ^ 2 by norm_num, Real.sqrt_sq (by norm_num)]
  simp only [Coord.distance, Coord.sqrdist, Libm.real]
  norm_num
  exact h9

/-- With equal transmit power and sensitivity, `rMax` is `waveLength / (4 * pi)`. -/
theorem real_rMax (carrierFrequency : ℝ) :
    300000000 / carrierFrequency / (4 * Libm.real.PI)
        * Libm.real.sqrt (Libm.real.pow 10 (((1 : ℝ) - 1) / 10))
      = 300000000 / carrierFrequency / (4 * Real.pi) := by
  simp [Libm.real]

theorem real_PI_ne_zero : Libm.real.PI ≠ 0 := Real.pi_ne_zero

theorem real_M_PI_ne_zero : Libm.real.M_PI ≠ 0 := Real.pi_ne_zero

theorem real_pow_two (x : ℝ) : Libm.real.pow x 2 = x ^ 2 := Real.rpow_two x

theorem real_pow_zero (x : ℝ) : Libm.real.pow x 0 = 1 := Real.rpow_zero x

/-- The link from `(0,0)` to `(1,0)` at 300 MHz is out of range when the transmit power
equals the sensitivity: `rMax = 1 / (4 * pi) < 1`. -/
theorem real_out_of_range :
    300000000 / (300000000 : ℝ) / (4 * Libm.real.PI)
        * Libm.real.sqrt (Libm.real.pow 10 (((1 : ℝ) - 1) / 10))
      < Coord.distance Libm.real ⟨0, 0⟩ ⟨1, 0⟩ := by
  rw [real_rMax, real_distance_unit, div_lt_one (by positivity)]
  have := Real.pi_gt_three
  norm_num
  linarith

/-- The link from `(-1,1/2)` to `(2,1/2)` at 1 Hz is in range when the transmit power equals
the sensitivity: `rMax = 3e8 / (4 * pi) > 3`. -/
theorem real_in_range :
    ¬ (300000000 / (1 : ℝ) / (4 * Libm.real.PI)
        * Libm.real.sqrt (Libm.real.pow 10 (((1 : ℝ) - 1) / 10))
      < Coord.distance Libm.real ⟨-1, 1 / 2⟩ ⟨2, 1 / 2⟩) := by
  rw [real_rMax, real_distance_three, not_lt, le_div_iff₀ (by positivity)]
  have := Real.pi_le_four
  norm_num
  linarith

end Libm

namespace ShadowPropagationLossModel

open MapManager

/-- Witness of C17: the real library, the link from `(0,0)` to `(1,0)` at 300 MHz with
transmit power and sensitivity 1, the example database and the diamond building cached. -/
theorem calculateReceivedPower_out_of_range_witness :
    (300000000 : ℝ) ≠ 0 ∧ Libm.real.PI ≠ 0
    ∧ 300000000 / (300000000 : ℝ) / (4 * Libm.real.PI)
        * Libm.real.sqrt (Libm.real.pow 10 (((1 : ℝ) - 1) / 10))
      < Coord.distance Libm.real ⟨0, 0⟩ ⟨1, 0⟩
    ∧ (ShadowPropagationLossModel.calculateReceivedPower Libm.real 1 0 0 exampleDatabase
          [diamondBuilding] 1 300000000 ⟨0, 0⟩ ⟨1, 0⟩
        = (Libm.real.pow 10 (((1 : ℝ) - 1) / 10), [diamondBuilding])
      ∧ PenetrationPropagationLossModel.calculateReceivedPower Libm.real 1 2 3 0 0
          exampleDatabase [diamondBuilding] 1 300000000 ⟨0, 0⟩ ⟨1, 0⟩
        = (Libm.real.pow 10 (((1 : ℝ) - 1) / 10), [diamondBuilding])
      ∧ DiffractionPropagationLossModel.calculateReceivedPower Libm.real 1 0 0 exampleDatabase
          [diamondBuilding] 1 300000000 ⟨0, 0⟩ ⟨1, 0⟩
        = (Libm.real.pow 10 (((1 : ℝ) - 1) / 10), [diamondBuilding])) :=
  ⟨by norm_num, Libm.real_PI_ne_zero, Libm.real_out_of_range,
    calculateReceivedPower_out_of_range Libm.real 1 2 3 0 0 exampleDatabase [diamondBuilding] 1
      300000000 ⟨0, 0⟩ ⟨1, 0⟩ (by norm_num) Libm.real_PI_ne_zero Libm.real_out_of_range⟩

/-- In the example database the line of sight from `(-1,1/2)` to `(2,1/2)` crosses the area
and the wall of building `1`. -/
theorem exampleDatabase_between :
    buildingBetween (getBuildingsInArea 0 0 exampleDatabase [] ⟨-1, 1 / 2⟩ ⟨2, 1 / 2⟩)
      ⟨-1, 1 / 2⟩ ⟨2, 1 / 2⟩ := by
  refine ⟨1, ?_, ?_, ?_⟩
  · norm_num [exampleDatabase, getBuildingsInArea, getBuildingsInArea.buildingLoop,
      getBuildingsInArea.rQ,
      getBuildingsInArea.buildingQuery, Coord.sqrdist]
  · norm_num [exampleDatabase, getBuildingsInArea, getBuildingsInArea.buildingLoop,
      getBuildingsInArea.wallLoop, getBuildingsInArea.rQ,
      getBuildingsInArea.buildingQuery, Coord.sqrdist,
      isBuildingAlloc, isBuildingAlloc.loop, castUnsigned, castInt, isAreaBetween,
      getIntersection, intersect, coefA, coefB, det, detA, detB, epsilon]
  · norm_num [exampleDatabase, getBuildingsInArea, getBuildingsInArea.buildingLoop,
      getBuildingsInArea.wallLoop, getBuildingsInArea.rQ,
      getBuildingsInArea.buildingQuery, Coord.sqrdist,
      isBuildingAlloc, isBuildingAlloc.loop, castUnsigned, castInt, isBuildingBetween,
      isBuildingBetween.buildingLoop, isBuildingBetween.wallLoop,
      getIntersection, intersect, coefA, coefB, det, detA, detB, epsilon]

/-- Witness of C18: the real library, the example database with an empty cache, the link from
`(-1,1/2)` to `(2,1/2)` at 1 Hz with transmit power and sensitivity 1; the link is shadowed by
building `1`. -/
theorem calculateReceivedPower_in_range_witness :
    (1 : ℝ) ≠ 0 ∧ Libm.real.PI ≠ 0 ∧ Libm.real.M_PI ≠ 0
    ∧ 0 < Coord.distance Libm.real ⟨-1, 1 / 2⟩ ⟨2, 1 / 2⟩
    ∧ Libm.real.pow (Coord.distance Libm.real ⟨-1, 1 / 2⟩ ⟨2, 1 / 2⟩) 2
      = Coord.distance Libm.real ⟨-1, 1 / 2⟩ ⟨2, 1 / 2⟩ ^ 2
    ∧ ¬ (300000000 / (1 : ℝ) / (4 * Libm.real.PI)
          * Libm.real.sqrt (Libm.real.pow 10 (((1 : ℝ) - 1) / 10))
        < Coord.distance Libm.real ⟨-1, 1 / 2⟩ ⟨2, 1 / 2⟩)
    ∧ buildingBetween (getBuildingsInArea 0 0 exampleDatabase [] ⟨-1, 1 / 2⟩ ⟨2, 1 / 2⟩)
        ⟨-1, 1 / 2⟩ ⟨2, 1 / 2⟩
    ∧ ((buildingBetween (getBuildingsInArea 0 0 exampleDatabase [] ⟨-1, 1 / 2⟩ ⟨2, 1 / 2⟩)
          ⟨-1, 1 / 2⟩ ⟨2, 1 / 2⟩ →
        calculateReceivedPower Libm.real 1 0 0 exampleDatabase [] 1 1 ⟨-1, 1 / 2⟩ ⟨2, 1 / 2⟩
          = (Libm.real.pow 10 (((1 : ℝ) - 1) / 10),
              (getBuildingsInArea 0 0 exampleDatabase [] ⟨-1, 1 / 2⟩ ⟨2, 1 / 2⟩).2))
      ∧ (¬ buildingBetween (getBuildingsInArea 0 0 exampleDatabase [] ⟨-1, 1 / 2⟩ ⟨2, 1 / 2⟩)
            ⟨-1, 1 / 2⟩ ⟨2, 1 / 2⟩ →
        calculateReceivedPower Libm.real 1 0 0 exampleDatabase [] 1 1 ⟨-1, 1 / 2⟩ ⟨2, 1 / 2⟩
          = (freeSpacePower Libm.real 1 1 (Coord.distance Libm.real ⟨-1, 1 / 2⟩ ⟨2, 1 / 2⟩),
              (getBuildingsInArea 0 0 exampleDatabase [] ⟨-1, 1 / 2⟩ ⟨2, 1 / 2⟩).2))) :=
  ⟨one_ne_zero, Libm.real_PI_ne_zero, Libm.real_M_PI_ne_zero,
    by rw [Libm.real_distance_three]; norm_num, Libm.real_pow_two _, Libm.real_in_range,
    exampleDatabase_between,
    calculateReceivedPower_in_range Libm.real 1 0 0 exampleDatabase [] 1 1 ⟨-1, 1 / 2⟩
      ⟨2, 1 / 2⟩ one_ne_zero Libm.real_PI_ne_zero Libm.real_M_PI_ne_zero
      (by rw [Libm.real_distance_three]; norm_num) (Libm.real_pow_two _) Libm.real_in_range⟩

end ShadowPropagationLossModel

namespace DiffractionPropagationLossModel

open MapManager

/-- C19 as stated fails: over the real library, with no building at all, the link from `(0,0)`
to `(1,0)` (distance 1) at 300 MHz with transmit power and sensitivity 1 is out of range, the
Shadow model returns `10^((1-1)/10) = 1`, and the free-space power is `1 / (16 * pi^2)`. -/
theorem free_space_fails_out_of_range :
    0 < Coord.distance Libm.real ⟨0, 0⟩ ⟨1, 0⟩
    ∧ (getBuildingsInArea 0 0 ⟨[], fun _ => [], fun _ => []⟩ [] ⟨0, 0⟩ ⟨1, 0⟩).1 = []
    ∧ (ShadowPropagationLossModel.calculateReceivedPower Libm.real 1 0 0
        ⟨[], fun _ => [], fun _ => []⟩ [] 1 300000000 ⟨0, 0⟩ ⟨1, 0⟩).1 = 1
    ∧ freeSpacePower Libm.real 1 300000000 (Coord.distance Libm.real ⟨0, 0⟩ ⟨1, 0⟩)
      = 1 / (16 * Real.pi ^ 2)
    ∧ freeSpacePower Libm.real 1 300000000 (Coord.distance Libm.real ⟨0, 0⟩ ⟨1, 0⟩) ≠ 1 := by
  have hpi := Real.pi_gt_three
  have h16 : (1 : ℝ) < 16 * Real.pi ^ 2 := by nlinarith
  have hfs : freeSpacePower Libm.real 1 300000000 (Coord.distance Libm.real ⟨0, 0⟩ ⟨1, 0⟩)
      = 1 / (16 * Real.pi ^ 2) := by
    rw [Libm.real_distance_unit]
    simp only [freeSpacePower, Libm.real]
    have e : (1 : ℝ) * (300000000 / 300000000) ^ 2 / (16 * Real.pi ^ 2 * 1 ^ 2)
        = 1 / (16 * Real.pi ^ 2) := by norm_num
    rw [e]
    exact min_eq_right (by rw [div_le_one (by positivity)]; linarith)
  refine ⟨by rw [Libm.real_distance_unit]; norm_num, ?_, ?_, hfs, ?_⟩
  · simp [getBuildingsInArea, getBuildingsInArea.rQ, getBuildingsInArea.buildingLoop]
  · rw [ShadowPropagationLossModel.calculateReceivedPower_of_lt Libm.real 1 0 0 _ [] 1
      300000000 ⟨0, 0⟩ ⟨1, 0⟩ Libm.real_out_of_range]
    simp [Libm.real]
  · rw [hfs]
    intro h
    rw [div_eq_one_iff_eq (by positivity)] at h
    linarith

/-- C19, amended: for an in-range link of positive length for which `getBuildingsInArea`
returns no building, the Shadow, the Penetration and the Diffraction model with the same
sensitivity return the same power, the free-space power `pSend * (c/f)^2 / (16 * pi^2 * d^2)`
clamped at `pSend` (`pow(d, 2)` being `d^2` and `pow(10, 0)` being 1). -/
theorem free_space_without_buildings {α : Type} [LinearOrderedField α] (lib : Libm α)
    (sensitivityDbm signalLossFactorWall signalLossFactorBuilding : α) (offsetX offsetY : ℚ)
    (db : Database) (allBuildings : List Building) (pSend carrierFrequency : α)
    (senderPos receiverPos : Coord)
    (_hf : carrierFrequency ≠ 0) (_hPI : lib.PI ≠ 0) (_hMPI : lib.M_PI ≠ 0)
    (_hd : 0 < Coord.distance lib senderPos receiverPos)
    (hpow : lib.pow (Coord.distance lib senderPos receiverPos) 2
      = Coord.distance lib senderPos receiverPos ^ 2)
    (hpow0 : lib.pow 10 0 = 1)
    (hin : ¬ (300000000 / carrierFrequency / (4 * lib.PI)
        * lib.sqrt (lib.pow 10 ((pSend - sensitivityDbm) / 10))
      < Coord.distance lib senderPos receiverPos))
    (hno : (getBuildingsInArea offsetX offsetY db allBuildings senderPos receiverPos).1 = []) :
    ShadowPropagationLossModel.calculateReceivedPower lib sensitivityDbm offsetX offsetY db
        allBuildings pSend carrierFrequency senderPos receiverPos
      = (freeSpacePower lib pSend carrierFrequency (Coord.distance lib senderPos receiverPos),
          (getBuildingsInArea offsetX offsetY db allBuildings senderPos receiverPos).2)
    ∧ PenetrationPropagationLossModel.calculateReceivedPower lib sensitivityDbm
        signalLossFactorWall signalLossFactorBuilding offsetX offsetY db allBuildings pSend
        carrierFrequency senderPos receiverPos
      = (freeSpacePower lib pSend carrierFrequency (Coord.distance lib senderPos receiverPos),
          (getBuildingsInArea offsetX offsetY db allBuildings senderPos receiverPos).2)
    ∧ DiffractionPropagationLossModel.calculateReceivedPower lib sensitivityDbm offsetX offsetY
        db allBuildings pSend carrierFrequency senderPos receiverPos
      = (freeSpacePower lib pSend carrierFrequency (Coord.distance lib senderPos receiverPos),
          (getBuildingsInArea offsetX offsetY db allBuildings senderPos receiverPos).2) := by
  have hdec : decide (300000000 / carrierFrequency / (4 * lib.PI)
        * lib.sqrt (lib.pow 10 ((pSend - sensitivityDbm) / 10))
      < Coord.distance lib senderPos receiverPos) = false := decide_eq_false hin
  have hfs : pSend * (300000000 / carrierFrequency) * (300000000 / carrierFrequency)
        / (16 * lib.M_PI * lib.M_PI * Coord.distance lib senderPos receiverPos ^ 2)
      = pSend * (300000000 / carrierFrequency) ^ 2
        / (16 * lib.M_PI ^ 2 * Coord.distance lib senderPos receiverPos ^ 2) := by
    congr 1 <;> ring
  refine ⟨?_, ?_, ?_⟩
  · simp only [ShadowPropagationLossModel.calculateReceivedPower,
      ShadowPropagationLossModel.dBm2mW, if_neg hin, hdec, hno,
      ShadowPropagationLossModel.calculateReceivedPower.buildingLoop, Bool.or_self,
      Bool.false_eq_true, if_false, ShadowPropagationLossModel.clamp_eq_min, hpow,
      freeSpacePower, hfs]
  · simp only [PenetrationPropagationLossModel.calculateReceivedPower, if_neg hin, hno,
      PenetrationPropagationLossModel.calculateReceivedPower.buildingLoop,
      PenetrationPropagationLossModel.dBm2mW, Int.cast_zero, zero_mul, add_zero, zero_div,
      hpow0, div_one, sub_zero, ShadowPropagationLossModel.clamp_eq_min, hpow, freeSpacePower,
      hfs]
  · simp only [DiffractionPropagationLossModel.calculateReceivedPower,
      DiffractionPropagationLossModel.dBm2mW, if_neg hin, hno,
      ne_eq, not_true_eq_false, false_and, if_false,
      ShadowPropagationLossModel.clamp_eq_min, hpow, freeSpacePower, hfs]

/-- Witness of C19, amended: the real library, an empty database, the link from `(-1,1/2)` to
`(2,1/2)` at 1 Hz with transmit power and sensitivity 1. -/
theorem free_space_without_buildings_witness :
    (1 : ℝ) ≠ 0 ∧ Libm.real.PI ≠ 0 ∧ Libm.real.M_PI ≠ 0
    ∧ 0 < Coord.distance Libm.real ⟨-1, 1 / 2⟩ ⟨2, 1 / 2⟩
    ∧ Libm.real.pow (Coord.distance Libm.real ⟨-1, 1 / 2⟩ ⟨2, 1 / 2⟩) 2
      = Coord.distance Libm.real ⟨-1, 1 / 2⟩ ⟨2, 1 / 2⟩ ^ 2
    ∧ Libm.real.pow 10 0 = 1
    ∧ ¬ (300000000 / (1 : ℝ) / (4 * Libm.real.PI)
          * Libm.real.sqrt (Libm.real.pow 10 (((1 : ℝ) - 1) / 10))
        < Coord.distance Libm.real ⟨-1, 1 / 2⟩ ⟨2, 1 / 2⟩)
    ∧ (getBuildingsInArea 0 0 ⟨[], fun _ => [], fun _ => []⟩ [] ⟨-1, 1 / 2⟩ ⟨2, 1 / 2⟩).1 = []
    ∧ (ShadowPropagationLossModel.calculateReceivedPower Libm.real 1 0 0
          ⟨[], fun _ => [], fun _ => []⟩ [] 1 1 ⟨-1, 1 / 2⟩ ⟨2, 1 / 2⟩
        = (freeSpacePower Libm.real 1 1 (Coord.distance Libm.real ⟨-1, 1 / 2⟩ ⟨2, 1 / 2⟩),
            (getBuildingsInArea 0 0 ⟨[], fun _ => [], fun _ => []⟩ [] ⟨-1, 1 / 2⟩
              ⟨2, 1 / 2⟩).2)
      ∧ PenetrationPropagationLossModel.calculateReceivedPower Libm.real 1 2 3 0 0
          ⟨[], fun _ => [], fun _ => []⟩ [] 1 1 ⟨-1, 1 / 2⟩ ⟨2, 1 / 2⟩
        = (freeSpacePower Libm.real 1 1 (Coord.distance Libm.real ⟨-1, 1 / 2⟩ ⟨2, 1 / 2⟩),
            (getBuildingsInArea 0 0 ⟨[], fun _ => [], fun _ => []⟩ [] ⟨-1, 1 / 2⟩
              ⟨2, 1 / 2⟩).2)
      ∧ DiffractionPropagationLossModel.calculateReceivedPower Libm.real 1 0 0
          ⟨[], fun _ => [], fun _ => []⟩ [] 1 1 ⟨-1, 1 / 2⟩ ⟨2, 1 / 2⟩
        = (freeSpacePower Libm.real 1 1 (Coord.distance Libm.real ⟨-1, 1 / 2⟩ ⟨2, 1 / 2⟩),
            (getBuildingsInArea 0 0 ⟨[], fun _ => [], fun _ => []⟩ [] ⟨-1, 1 / 2⟩
              ⟨2, 1 / 2⟩).2)) :=
  ⟨one_ne_zero, Libm.real_PI_ne_zero, Libm.real_M_PI_ne_zero,
    by rw [Libm.real_distance_three]; norm_num, Libm.real_pow_two _, Libm.real_pow_zero _,
    Libm.real_in_range, by simp [getBuildingsInArea, getBuildingsInArea.rQ, getBuildingsInArea.buildingLoop],
    free_space_without_buildings Libm.real 1 2 3 0 0 ⟨[], fun _ => [], fun _ => []⟩ [] 1 1
      ⟨-1, 1 / 2⟩ ⟨2, 1 / 2⟩ one_ne_zero Libm.real_PI_ne_zero Libm.real_M_PI_ne_zero
      (by rw [Libm.real_distance_three]; norm_num) (Libm.real_pow_two _)
      (Libm.real_pow_zero _) Libm.real_in_range
      (by simp [getBuildingsInArea, getBuildingsInArea.rQ, getBuildingsInArea.buildingLoop])⟩

end DiffractionPropagationLossModel

namespace TwoRayInterferenceModel

/-- C20: at distance 0 the two-ray interference model returns `pSend` unchanged, for every
library, transmit power, carrier frequency, antenna heights and dielectric constant. -/
theorem calculateReceivedPower_zero_distance {α : Type} [LinearOrderedField α] (lib : Libm α)
    (ht hr epsilon_r pSend carrierFrequency : α) :
    calculateReceivedPower lib ht hr epsilon_r pSend carrierFrequency 0 = pSend := by
  simp only [calculateReceivedPower, if_true]

end TwoRayInterferenceModel

/-! ## The intersection collector -/

namespace MapManager

theorem getIntersectionBetween_wallLoop_eq (tx_x tx_y rx_x rx_y : ℚ) (walls : List Wall)
    (acc : List Coord) :
    getIntersectionBetween.wallLoop tx_x tx_y rx_x rx_y walls acc
      = acc ++ (walls.map (fun w => getIntersection tx_x tx_y rx_x rx_y w.from_corner.posX
          w.from_corner.posY w.to_corner.posX w.to_corner.posY)).filter
            (fun v => decide (reported v)) := by
  induction walls generalizing acc with
  | nil => simp [getIntersectionBetween.wallLoop]
  | cons w ws ih =>
    simp only [getIntersectionBetween.wallLoop, List.map_cons, reported_iff]
    split_ifs with h
    · rw [ih, List.filter_cons_of_pos (by simpa using h)]
      simp
    · rw [ih, List.filter_cons_of_neg (by simpa using h)]

theorem getIntersectionBetween_buildingLoop_ne_nil (tx_x tx_y rx_x rx_y : ℚ) (bId : Int)
    (bs : List Building) (acc : List Coord) :
    getIntersectionBetween.buildingLoop tx_x tx_y rx_x rx_y bId bs acc ≠ [] ↔
      acc ≠ [] ∨ ∃ b ∈ bs, bId = castInt b.ID ∧ ∃ w ∈ b.walls,
        reported (getIntersection tx_x tx_y rx_x rx_y w.from_corner.posX w.from_corner.posY
            w.to_corner.posX w.to_corner.posY) := by
  induction bs generalizing acc with
  | nil => simp [getIntersectionBetween.buildingLoop]
  | cons b bs ih =>
    simp only [getIntersectionBetween.buildingLoop, List.mem_cons, exists_eq_or_imp]
    split_ifs with h
    · rw [ih, getIntersectionBetween_wallLoop_eq]
      simp only [h, true_and, ne_eq, List.append_eq_nil, not_and, List.filter_eq_nil_iff,
        List.mem_map, decide_eq_true_eq, forall_exists_index, and_imp,
        forall_apply_eq_imp_iff₂, not_forall, Classical.not_imp, not_not, or_assoc]
      constructor
      · rintro (h1 | h2)
        · by_cases hacc : acc = []
          · obtain ⟨w, hw, hr⟩ := h1 hacc
            exact Or.inr (Or.inl ⟨w, hw, hr⟩)
          · exact Or.inl hacc
        · exact Or.inr (Or.inr h2)
      · rintro (h1 | h1 | h1)
        · exact Or.inl (fun hacc => absurd hacc h1)
        · obtain ⟨w, hw, hr⟩ := h1
          exact Or.inl (fun _ => ⟨w, hw, hr⟩)
        · exact Or.inr h1
    · rw [ih]
      simp only [h, false_and, false_or]

/-- C30: for every cache, sender, receiver and building identifier, the wall test
`isBuildingBetween` is true exactly when the collector `getIntersectionBetween` returns a
non-empty vector. -/
theorem isBuildingBetween_iff_getIntersectionBetween (allBuildings : List Building)
    (tx_x tx_y rx_x rx_y : ℚ) (bId : Int) :
    isBuildingBetween allBuildings tx_x tx_y rx_x rx_y bId = true ↔
      getIntersectionBetween allBuildings tx_x tx_y rx_x rx_y bId ≠ [] := by
  rw [isBuildingBetween_iff, getIntersectionBetween,
    getIntersectionBetween_buildingLoop_ne_nil]
  simp only [ne_eq, not_true_eq_false, false_or]

end MapManager

/-! ## The penetration model -/

namespace PenetrationPropagationLossModel

open MapManager

/-- The distance added by the inner loop when it is entered with a remembered first point. -/
theorem pairedDistance_cons {α : Type} [LinearOrderedField α] (lib : Libm α) (p : Coord)
    (rest : List Coord) :
    pairedDistance lib (p :: rest)
      = match rest with
        | [] => 0
        | q :: rest2 => Coord.distance lib p q + pairedDistance lib rest2 := by
  cases rest <;> rfl

theorem intersectionLoop_eq {α : Type} [LinearOrderedField α] (lib : Libm α)
    (intersections : List Coord) :
    ∀ (nWalls : Int) (dBuilding : α) (first : Coord),
      calculateReceivedPower.intersectionLoop lib intersections nWalls dBuilding first true
        = (nWalls + intersections.length, dBuilding + pairedDistance lib intersections) ∧
      calculateReceivedPower.intersectionLoop lib intersections nWalls dBuilding first false
        = (nWalls + intersections.length,
            dBuilding + pairedDistance lib (first :: intersections)) := by
  induction intersections with
  | nil =>
    intro nWalls dBuilding first
    simp [calculateReceivedPower.intersectionLoop, pairedDistance]
  | cons q rest ih =>
    intro nWalls dBuilding first
    constructor
    · rw [calculateReceivedPower.intersectionLoop, if_pos rfl, (ih (nWalls + 1) dBuilding q).2]
      simp only [List.length_cons, Nat.cast_add, Nat.cast_one, Prod.mk.injEq, and_true]
      ring
    · rw [calculateReceivedPower.intersectionLoop, if_neg (by simp),
        (ih (nWalls + 1) _ first).1]
      simp only [List.length_cons, Nat.cast_add, Nat.cast_one, Prod.mk.injEq, pairedDistance]
      constructor <;> ring

theorem buildingLoop_eq {α : Type} [LinearOrderedField α] (lib : Libm α)
    (allBuildings : List Building) (senderPos receiverPos : Coord) (buildings : List Int) :
    ∀ (nWalls : Int) (dBuilding : α),
      calculateReceivedPower.buildingLoop lib allBuildings senderPos receiverPos buildings
          nWalls dBuilding
        = (nWalls + (((buildings.filter (fun bId => isAreaBetween allBuildings senderPos.x
              senderPos.y receiverPos.x receiverPos.y bId)).map (fun bId =>
                ((getIntersectionBetween allBuildings senderPos.x senderPos.y receiverPos.x
                  receiverPos.y bId).length : Int))).sum),
           dBuilding + ((buildings.filter (fun bId => isAreaBetween allBuildings senderPos.x
              senderPos.y receiverPos.x receiverPos.y bId)).map (fun bId =>
                pairedDistance lib (getIntersectionBetween allBuildings senderPos.x
                  senderPos.y receiverPos.x receiverPos.y bId))).sum) := by
  induction buildings with
  | nil =>
    intro nWalls dBuilding
    simp [calculateReceivedPower.buildingLoop]
  | cons b rest ih =>
    intro nWalls dBuilding
    rw [calculateReceivedPower.buildingLoop]
    split_ifs with h
    · simp only [ih, (intersectionLoop_eq lib _ nWalls dBuilding ⟨0, 0⟩).1,
        List.filter_cons_of_pos h, List.map_cons, List.sum_cons, Prod.mk.injEq]
      constructor <;> ring
    · rw [ih, List.filter_cons_of_neg h]

/-- C22: the wall count of the Penetration model is the number of collected intersection
points, added up over the buildings of the identifier list whose area is between; the
traversed distance is the sum, per such building, of the distances of the sequentially paired
points (1st+2nd, 3rd+4th, ...), an unpaired last point adding a wall but no distance. In
particular a single building crossed at exactly two points `p`, `q` gives the wall count 2 and
the traversed distance from `p` to `q`. -/
theorem calculateReceivedPower_walls_and_distance {α : Type} [LinearOrderedField α]
    (lib : Libm α) (allBuildings : List Building) (senderPos receiverPos : Coord)
    (buildings : List Int) :
    calculateReceivedPower.buildingLoop lib allBuildings senderPos receiverPos buildings 0 0
        = ((((buildings.filter (fun bId => isAreaBetween allBuildings senderPos.x
              senderPos.y receiverPos.x receiverPos.y bId)).map (fun bId =>
                ((getIntersectionBetween allBuildings senderPos.x senderPos.y receiverPos.x
                  receiverPos.y bId).length : Int))).sum),
           ((buildings.filter (fun bId => isAreaBetween allBuildings senderPos.x
              senderPos.y receiverPos.x receiverPos.y bId)).map (fun bId =>
                pairedDistance lib (getIntersectionBetween allBuildings senderPos.x
                  senderPos.y receiverPos.x receiverPos.y bId))).sum) ∧
      (∀ p : Coord, pairedDistance lib [p] = 0) ∧
      (∀ (bId : Int) (p q : Coord),
        isAreaBetween allBuildings senderPos.x senderPos.y receiverPos.x receiverPos.y bId
          = true →
        getIntersectionBetween allBuildings senderPos.x senderPos.y receiverPos.x
          receiverPos.y bId = [p, q] →
        calculateReceivedPower.buildingLoop lib allBuildings senderPos receiverPos [bId] 0 0
          = (2, Coord.distance lib p q)) := by
  refine ⟨?_, fun _ => rfl, ?_⟩
  · rw [buildingLoop_eq]
    simp
  · intro bId p q harea hpq
    rw [buildingLoop_eq]
    simp [harea, hpq, pairedDistance]

/-- Witness of C22: the real library and the cached diamond building; the line of sight from
`(0,2)` to `(6,2)` crosses the walls `(3,1)-(5,3)` and `(1,3)-(3,1)` at `(4,2)` and `(2,2)`. -/
theorem calculateReceivedPower_walls_and_distance_witness :
    calculateReceivedPower.buildingLoop Libm.real [diamondBuilding] ⟨0, 2⟩ ⟨6, 2⟩ [7] 0 0
      = (2, Coord.distance Libm.real ⟨4, 2⟩ ⟨2, 2⟩) :=
  (calculateReceivedPower_walls_and_distance Libm.real [diamondBuilding] ⟨0, 2⟩ ⟨6, 2⟩
    [7]).2.2 7 ⟨4, 2⟩ ⟨2, 2⟩
    (by norm_num [diamondBuilding, isAreaBetween, castInt, getIntersection, intersect, coefA,
      coefB, det, detA, detB, epsilon])
    (by norm_num [diamondBuilding, getIntersectionBetween, getIntersectionBetween.buildingLoop,
      getIntersectionBetween.wallLoop, castInt, getIntersection, intersect, coefA, coefB, det,
      detA, detB, epsilon])

/-- C23: for a link in range the Penetration model returns the minimum of `pSend` and the
free-space power at the effective distance `d - dBuilding`, divided by
`10^((nWalls * signalLossFactorWall + dBuilding * signalLossFactorBuilding) / 10)`; hence the
result never exceeds `pSend` (`pow(x, 2)` being `x^2` at the effective distance, no divisor
being zero). -/
theorem calculateReceivedPower_formula {α : Type} [LinearOrderedField α] (lib : Libm α)
    (sensitivityDbm signalLossFactorWall signalLossFactorBuilding : α) (offsetX offsetY : ℚ)
    (db : Database) (allBuildings : List Building) (pSend carrierFrequency : α)
    (senderPos receiverPos : Coord)
    (_hf : carrierFrequency ≠ 0) (_hPI : lib.PI ≠ 0) (_hMPI : lib.M_PI ≠ 0)
    (_hd : Coord.distance lib senderPos receiverPos
      - calculateReceivedPower.dBuilding lib offsetX offsetY db allBuildings senderPos
          receiverPos ≠ 0)
    (_hloss : lib.pow 10
      ((((calculateReceivedPower.nWalls lib offsetX offsetY db allBuildings senderPos
            receiverPos : Int) : α) * signalLossFactorWall
        + calculateReceivedPower.dBuilding lib offsetX offsetY db allBuildings senderPos
            receiverPos * signalLossFactorBuilding) / 10) ≠ 0)
    (hpow : lib.pow (Coord.distance lib senderPos receiverPos
        - calculateReceivedPower.dBuilding lib offsetX offsetY db allBuildings senderPos
            receiverPos) 2
      = (Coord.distance lib senderPos receiverPos
        - calculateReceivedPower.dBuilding lib offsetX offsetY db allBuildings senderPos
            receiverPos) ^ 2)
    (hin : ¬ (300000000 / carrierFrequency / (4 * lib.PI)
        * lib.sqrt (lib.pow 10 ((pSend - sensitivityDbm) / 10))
      < Coord.distance lib senderPos receiverPos)) :
    (calculateReceivedPower lib sensitivityDbm signalLossFactorWall signalLossFactorBuilding
        offsetX offsetY db allBuildings pSend carrierFrequency senderPos receiverPos).1
      = min pSend (pSend * (300000000 / carrierFrequency) ^ 2
          / (16 * lib.M_PI ^ 2 * (Coord.distance lib senderPos receiverPos
            - calculateReceivedPower.dBuilding lib offsetX offsetY db allBuildings senderPos
                receiverPos) ^ 2)
          / lib.pow 10
            ((((calculateReceivedPower.nWalls lib offsetX offsetY db allBuildings senderPos
                  receiverPos : Int) : α) * signalLossFactorWall
              + calculateReceivedPower.dBuilding lib offsetX offsetY db allBuildings senderPos
                  receiverPos * signalLossFactorBuilding) / 10))
    ∧ (calculateReceivedPower lib sensitivityDbm signalLossFactorWall signalLossFactorBuilding
        offsetX offsetY db allBuildings pSend carrierFrequency senderPos receiverPos).1
      ≤ pSend := by
  have hfs : ∀ x : α, pSend * (300000000 / carrierFrequency) * (300000000 / carrierFrequency)
        / (16 * lib.M_PI * lib.M_PI * x)
      = pSend * (300000000 / carrierFrequency) ^ 2 / (16 * lib.M_PI ^ 2 * x) := by
    intro x
    congr 1 <;> ring
  have key : (calculateReceivedPower lib sensitivityDbm signalLossFactorWall
        signalLossFactorBuilding offsetX offsetY db allBuildings pSend carrierFrequency
        senderPos receiverPos).1
      = min pSend (pSend * (300000000 / carrierFrequency) ^ 2
          / (16 * lib.M_PI ^ 2 * (Coord.distance lib senderPos receiverPos
            - calculateReceivedPower.dBuilding lib offsetX offsetY db allBuildings senderPos
                receiverPos) ^ 2)
          / lib.pow 10
            ((((calculateReceivedPower.nWalls lib offsetX offsetY db allBuildings senderPos
                  receiverPos : Int) : α) * signalLossFactorWall
              + calculateReceivedPower.dBuilding lib offsetX offsetY db allBuildings senderPos
                  receiverPos * signalLossFactorBuilding) / 10)) := by
    simp only [calculateReceivedPower.dBuilding, calculateReceivedPower.nWalls] at hpow ⊢
    simp only [calculateReceivedPower, dBm2mW, if_neg hin,
      ShadowPropagationLossModel.clamp_eq_min, hpow, hfs]
  exact ⟨key, key ▸ min_le_left _ _⟩

/-- In the example database the line of sight from `(-1,1/2)` to `(2,1/2)` meets one wall. -/
theorem exampleDatabase_nWalls :
    calculateReceivedPower.nWalls Libm.real 0 0 exampleDatabase [] ⟨-1, 1 / 2⟩ ⟨2, 1 / 2⟩
      = 1 := by
  norm_num [calculateReceivedPower.nWalls, calculateReceivedPower.buildingLoop,
    calculateReceivedPower.intersectionLoop,
    exampleDatabase, getBuildingsInArea, getBuildingsInArea.buildingLoop,
    getBuildingsInArea.wallLoop, getBuildingsInArea.rQ,
    getBuildingsInArea.buildingQuery, Coord.sqrdist,
    isBuildingAlloc, isBuildingAlloc.loop, castUnsigned, castInt, isAreaBetween,
    getIntersectionBetween, getIntersectionBetween.buildingLoop,
    getIntersectionBetween.wallLoop,
    getIntersection, intersect, coefA, coefB, det, detA, detB, epsilon]

/-- In the example database the line of sight from `(-1,1/2)` to `(2,1/2)` traverses no
distance: the one intersection point is unpaired. -/
theorem exampleDatabase_dBuilding :
    calculateReceivedPower.dBuilding Libm.real 0 0 exampleDatabase [] ⟨-1, 1 / 2⟩ ⟨2, 1 / 2⟩
      = 0 := by
  norm_num [calculateReceivedPower.dBuilding, calculateReceivedPower.buildingLoop,
    calculateReceivedPower.intersectionLoop,
    exampleDatabase, getBuildingsInArea, getBuildingsInArea.buildingLoop,
    getBuildingsInArea.wallLoop, getBuildingsInArea.rQ,
    getBuildingsInArea.buildingQuery, Coord.sqrdist,
    isBuildingAlloc, isBuildingAlloc.loop, castUnsigned, castInt, isAreaBetween,
    getIntersectionBetween, getIntersectionBetween.buildingLoop,
    getIntersectionBetween.wallLoop,
    getIntersection, intersect, coefA, coefB, det, detA, detB, epsilon]

/-- Witness of C23: the real library, the example database with an empty cache, the link from
`(-1,1/2)` to `(2,1/2)` at 1 Hz with transmit power and sensitivity 1 and the loss factors 2
and 3; one wall is met and no distance traversed. -/
theorem calculateReceivedPower_formula_witness :
    calculateReceivedPower.nWalls Libm.real 0 0 exampleDatabase [] ⟨-1, 1 / 2⟩ ⟨2, 1 / 2⟩ = 1
    ∧ calculateReceivedPower.dBuilding Libm.real 0 0 exampleDatabase [] ⟨-1, 1 / 2⟩ ⟨2, 1 / 2⟩
      = 0
    ∧ ¬ (300000000 / (1 : ℝ) / (4 * Libm.real.PI)
          * Libm.real.sqrt (Libm.real.pow 10 (((1 : ℝ) - 1) / 10))
        < Coord.distance Libm.real ⟨-1, 1 / 2⟩ ⟨2, 1 / 2⟩)
    ∧ (calculateReceivedPower Libm.real 1 2 3 0 0 exampleDatabase [] 1 1 ⟨-1, 1 / 2⟩
        ⟨2, 1 / 2⟩).1
      = min 1 (1 * (300000000 / 1) ^ 2
          / (16 * Libm.real.M_PI ^ 2 * (Coord.distance Libm.real ⟨-1, 1 / 2⟩ ⟨2, 1 / 2⟩
            - calculateReceivedPower.dBuilding Libm.real 0 0 exampleDatabase [] ⟨-1, 1 / 2⟩
                ⟨2, 1 / 2⟩) ^ 2)
          / Libm.real.pow 10
            ((((calculateReceivedPower.nWalls Libm.real 0 0 exampleDatabase [] ⟨-1, 1 / 2⟩
                  ⟨2, 1 / 2⟩ : Int) : ℝ) * 2
              + calculateReceivedPower.dBuilding Libm.real 0 0 exampleDatabase [] ⟨-1, 1 / 2⟩
                  ⟨2, 1 / 2⟩ * 3) / 10))
    ∧ (calculateReceivedPower Libm.real 1 2 3 0 0 exampleDatabase [] 1 1 ⟨-1, 1 / 2⟩
        ⟨2, 1 / 2⟩).1 ≤ 1 :=
  ⟨exampleDatabase_nWalls, exampleDatabase_dBuilding, Libm.real_in_range,
    calculateReceivedPower_formula Libm.real 1 2 3 0 0 exampleDatabase [] 1 1 ⟨-1, 1 / 2⟩
      ⟨2, 1 / 2⟩ one_ne_zero Libm.real_PI_ne_zero Libm.real_M_PI_ne_zero
      (by rw [exampleDatabase_dBuilding, Libm.real_distance_three]; norm_num)
      (ne_of_gt (Real.rpow_pos_of_pos (by norm_num) _))
      (Libm.real_pow_two _) Libm.real_in_range⟩

end PenetrationPropagationLossModel

/-! ## The diffraction model -/

namespace DiffractionPropagationLossModel

open MapManager

theorem betweenLoop_eq (allBuildings : List Building) (senderPos receiverPos : Coord)
    (buildings betweenBuildings : List Int) :
    calculateReceivedPower.betweenLoop allBuildings senderPos receiverPos buildings
        betweenBuildings
      = betweenBuildings ++ buildings.filter (fun bId =>
          isAreaBetween allBuildings senderPos.x senderPos.y receiverPos.x receiverPos.y bId
          && isBuildingBetween allBuildings senderPos.x senderPos.y receiverPos.x receiverPos.y
            bId) := by
  induction buildings generalizing betweenBuildings with
  | nil => simp [calculateReceivedPower.betweenLoop]
  | cons b bs ih =>
    rw [calculateReceivedPower.betweenLoop]
    split_ifs with h1 h2
    · rw [ih, List.filter_cons_of_pos (by simp [h1, h2])]
      simp
    · rw [ih, List.filter_cons_of_neg (by simp [h2])]
    · rw [ih, List.filter_cons_of_neg (by simp [h1])]

theorem betweenBuildings_ne_nil_iff (offsetX offsetY : ℚ) (db : Database)
    (allBuildings : List Building) (senderPos receiverPos : Coord) :
    calculateReceivedPower.betweenBuildings offsetX offsetY db allBuildings senderPos
        receiverPos ≠ [] ↔
      buildingBetween (getBuildingsInArea offsetX offsetY db allBuildings senderPos receiverPos)
        senderPos receiverPos := by
  simp only [calculateReceivedPower.betweenBuildings, betweenLoop_eq, List.nil_append, ne_eq,
    List.filter_eq_nil_iff, Bool.and_eq_true, not_forall, Classical.not_not, buildingBetween,
    exists_prop]

theorem clearLoop_iff (allBuildings : List Building) (senderPos receiverPos : Coord)
    (itBuildings : Int) (itidc : Coord) (betweenBuildings : List Int) :
    calculateReceivedPower.clearLoop allBuildings senderPos receiverPos itBuildings itidc
        betweenBuildings true = true ↔
      ∀ itBb ∈ betweenBuildings, itBb ≠ itBuildings →
        isBuildingBetween allBuildings senderPos.x senderPos.y itidc.x itidc.y itBb = false
        ∧ isBuildingBetween allBuildings itidc.x itidc.y receiverPos.x receiverPos.y itBb
          = false := by
  induction betweenBuildings with
  | nil => simp [calculateReceivedPower.clearLoop]
  | cons b bs ih =>
    rw [calculateReceivedPower.clearLoop]
    simp only [List.mem_cons, forall_eq_or_imp]
    split_ifs with h1 h2 h3
    · rw [ih]
      simp only [h2, h3, and_self, implies_true, true_and]
    · simp only [Bool.false_eq_true, false_iff, not_and]
      intro h
      exact absurd (h h1).2 h3
    · simp only [Bool.false_eq_true, false_iff, not_and]
      intro h
      exact absurd (h h1).1 h2
    · rw [ih]
      simp only [h1, IsEmpty.forall_iff, true_and]

theorem cornerLoop_eq (allBuildings : List Building) (senderPos receiverPos : Coord)
    (betweenBuildings : List Int) (itBuildings : Int)
    (initialDiffCorners finalDiffCorners : List Coord) :
    calculateReceivedPower.cornerLoop allBuildings senderPos receiverPos betweenBuildings
        itBuildings initialDiffCorners finalDiffCorners
      = finalDiffCorners ++ initialDiffCorners.filter (fun itidc =>
          calculateReceivedPower.clearLoop allBuildings senderPos receiverPos itBuildings itidc
            betweenBuildings true) := by
  induction initialDiffCorners generalizing finalDiffCorners with
  | nil => simp [calculateReceivedPower.cornerLoop]
  | cons c cs ih =>
    rw [calculateReceivedPower.cornerLoop]
    split_ifs with h
    · rw [ih]
      simp [List.filter_cons, h]
    · rw [ih]
      simp [List.filter_cons, h]

theorem finalLoop_eq (allBuildings : List Building) (senderPos receiverPos : Coord)
    (betweenBuildings rest : List Int) (finalDiffCorners : List Coord) :
    calculateReceivedPower.finalLoop allBuildings senderPos receiverPos betweenBuildings rest
        finalDiffCorners
      = finalDiffCorners ++ rest.flatMap (fun itBuildings =>
          (getDiffractionCorners allBuildings senderPos.x senderPos.y receiverPos.x
            receiverPos.y itBuildings).filter (fun itidc =>
              calculateReceivedPower.clearLoop allBuildings senderPos receiverPos itBuildings
                itidc betweenBuildings true)) := by
  induction rest generalizing finalDiffCorners with
  | nil => simp [calculateReceivedPower.finalLoop]
  | cons b bs ih =>
    rw [calculateReceivedPower.finalLoop]
    simp only [ih, cornerLoop_eq, List.flatMap_cons, List.append_assoc]

/-- C27: a candidate corner `C` of the between-building `B` stands the line-of-sight checks
exactly when for every between-building `B'` other than `B` neither the line sender-`C` nor the
line `C`-receiver meets a wall of `B'`; the final corners are the candidates of the
between-buildings that stand the checks, building after building and in the order of
`getDiffractionCorners`; with exactly one between-building they are exactly the corners
returned by `getDiffractionCorners`. -/
theorem finalDiffCorners_characterisation (allBuildings : List Building)
    (senderPos receiverPos : Coord) (betweenBuildings : List Int) :
    (∀ (B : Int) (C : Coord),
      calculateReceivedPower.clearLoop allBuildings senderPos receiverPos B C betweenBuildings
          true = true ↔
        ∀ B2 ∈ betweenBuildings, B2 ≠ B →
          isBuildingBetween allBuildings senderPos.x senderPos.y C.x C.y B2 = false
          ∧ isBuildingBetween allBuildings C.x C.y receiverPos.x receiverPos.y B2 = false)
    ∧ calculateReceivedPower.finalLoop allBuildings senderPos receiverPos betweenBuildings
          betweenBuildings []
        = betweenBuildings.flatMap (fun B =>
            (getDiffractionCorners allBuildings senderPos.x senderPos.y receiverPos.x
              receiverPos.y B).filter (fun C =>
                calculateReceivedPower.clearLoop allBuildings senderPos receiverPos B C
                  betweenBuildings true))
    ∧ (∀ B : Int,
        calculateReceivedPower.finalLoop allBuildings senderPos receiverPos [B] [B] []
          = getDiffractionCorners allBuildings senderPos.x senderPos.y receiverPos.x
              receiverPos.y B) := by
  refine ⟨fun B C => clearLoop_iff _ _ _ _ _ _, ?_, ?_⟩
  · rw [finalLoop_eq, List.nil_append]
  · intro B
    rw [finalLoop_eq, List.nil_append]
    simp [calculateReceivedPower.clearLoop]

end DiffractionPropagationLossModel

namespace DiffractionPropagationLossModel

open MapManager

/-- One round of the knife-edge loop, with the locals `h`, `ds` and `v` as functions. -/
theorem lossLoop_cons {α : Type} [LinearOrderedField α] (lib : Libm α) (waveLength dsr : α)
    (senderPos receiverPos itfdc : Coord) (rest : List Coord) (Ld : α) :
    calculateReceivedPower.lossLoop lib waveLength dsr senderPos receiverPos (itfdc :: rest) Ld
      = calculateReceivedPower.lossLoop lib waveLength dsr senderPos receiverPos rest
          (if diffract lib (calculateReceivedPower.v lib waveLength dsr senderPos receiverPos
              itfdc) > Ld
            then diffract lib (calculateReceivedPower.v lib waveLength dsr senderPos receiverPos
              itfdc)
            else Ld) := rfl

theorem lossLoop_eq {α : Type} [LinearOrderedField α] (lib : Libm α) (waveLength dsr : α)
    (senderPos receiverPos : Coord) (finalDiffCorners : List Coord) (Ld : α) :
    calculateReceivedPower.lossLoop lib waveLength dsr senderPos receiverPos finalDiffCorners Ld
      = (finalDiffCorners.map (fun itfdc => diffract lib
          (calculateReceivedPower.v lib waveLength dsr senderPos receiverPos itfdc))).foldl
            max Ld := by
  induction finalDiffCorners generalizing Ld with
  | nil => rfl
  | cons c cs ih =>
    rw [lossLoop_cons, ih, List.map_cons, List.foldl_cons]
    congr 1
    split_ifs with h
    · exact (max_eq_right h.le).symm
    · exact (max_eq_left (not_lt.mp h)).symm

theorem foldl_max_ge {α : Type} [LinearOrderedField α] (l : List α) (a : α) :
    a ≤ l.foldl max a ∧ ∀ x ∈ l, x ≤ l.foldl max a := by
  induction l generalizing a with
  | nil => simp
  | cons y ys ih =>
    rw [List.foldl_cons]
    refine ⟨le_trans (le_max_left a y) (ih (max a y)).1, ?_⟩
    intro x hx
    rcases List.mem_cons.mp hx with rfl | hx
    · exact le_trans (le_max_right a x) (ih (max a x)).1
    · exact (ih (max a y)).2 x hx

theorem foldl_max_mem {α : Type} [LinearOrderedField α] (l : List α) (a : α) :
    l.foldl max a = a ∨ l.foldl max a ∈ l := by
  induction l generalizing a with
  | nil => simp
  | cons y ys ih =>
    rw [List.foldl_cons]
    rcases ih (max a y) with h | h
    · rcases max_choice a y with h2 | h2
      · exact Or.inl (h.trans h2)
      · exact Or.inr (by rw [h, h2]; exact List.mem_cons_self _ _)
    · exact Or.inr (List.mem_cons_of_mem _ h)

theorem finalDiffCorners_eq_nil_of_not_between (offsetX offsetY : ℚ) (db : Database)
    (allBuildings : List Building) (senderPos receiverPos : Coord)
    (h : calculateReceivedPower.betweenBuildings offsetX offsetY db allBuildings senderPos
      receiverPos = []) :
    calculateReceivedPower.finalDiffCorners offsetX offsetY db allBuildings senderPos
      receiverPos = [] := by
  simp only [calculateReceivedPower.betweenBuildings] at h
  simp only [calculateReceivedPower.finalDiffCorners, h, calculateReceivedPower.finalLoop]

theorem buildings_ne_nil_of_between (offsetX offsetY : ℚ) (db : Database)
    (allBuildings : List Building) (senderPos receiverPos : Coord)
    (h : calculateReceivedPower.betweenBuildings offsetX offsetY db allBuildings senderPos
      receiverPos ≠ []) :
    (getBuildingsInArea offsetX offsetY db allBuildings senderPos receiverPos).1 ≠ [] := by
  intro h0
  apply h
  simp only [calculateReceivedPower.betweenBuildings, h0, calculateReceivedPower.betweenLoop]

/-- C24: for a link in range with a non-empty vector of final diffraction corners, the loss
`Ld` is the maximum of the sensitivity and of `diffract(v)` over the final corners (the fold of
`max` over them, starting from the sensitivity; it bounds the sensitivity and every
`diffract(v)` and is one of them), and the returned power is the minimum of `pSend` and
`pSend * waveLength^2 / (16 * pi^2 * d^2) * 10^(Ld/10)`. -/
theorem calculateReceivedPower_diffracted {α : Type} [LinearOrderedField α] (lib : Libm α)
    (sensitivityDbm : α) (offsetX offsetY : ℚ) (db : Database) (allBuildings : List Building)
    (pSend carrierFrequency : α) (senderPos receiverPos : Coord)
    (_hf : carrierFrequency ≠ 0) (_hPI : lib.PI ≠ 0) (_hMPI : lib.M_PI ≠ 0)
    (_hd : 0 < Coord.distance lib senderPos receiverPos)
    (hpow : lib.pow (Coord.distance lib senderPos receiverPos) 2
      = Coord.distance lib senderPos receiverPos ^ 2)
    (hin : ¬ (300000000 / carrierFrequency / (4 * lib.PI)
        * lib.sqrt (lib.pow 10 ((pSend - sensitivityDbm) / 10))
      < Coord.distance lib senderPos receiverPos))
    (hfinal : calculateReceivedPower.finalDiffCorners offsetX offsetY db allBuildings senderPos
      receiverPos ≠ []) :
    calculateReceivedPower.Ld lib sensitivityDbm offsetX offsetY db allBuildings
        carrierFrequency senderPos receiverPos
      = ((calculateReceivedPower.finalDiffCorners offsetX offsetY db allBuildings senderPos
          receiverPos).map (fun C => diffract lib
            (calculateReceivedPower.v lib (300000000 / carrierFrequency)
              (Coord.distance lib senderPos receiverPos) senderPos receiverPos C))).foldl
                max sensitivityDbm
    ∧ sensitivityDbm ≤ calculateReceivedPower.Ld lib sensitivityDbm offsetX offsetY db
        allBuildings carrierFrequency senderPos receiverPos
    ∧ (∀ C ∈ calculateReceivedPower.finalDiffCorners offsetX offsetY db allBuildings senderPos
          receiverPos,
        diffract lib (calculateReceivedPower.v lib (300000000 / carrierFrequency)
            (Coord.distance lib senderPos receiverPos) senderPos receiverPos C)
          ≤ calculateReceivedPower.Ld lib sensitivityDbm offsetX offsetY db allBuildings
              carrierFrequency senderPos receiverPos)
    ∧ (calculateReceivedPower.Ld lib sensitivityDbm offsetX offsetY db allBuildings
          carrierFrequency senderPos receiverPos = sensitivityDbm
      ∨ ∃ C ∈ calculateReceivedPower.finalDiffCorners offsetX offsetY db allBuildings senderPos
          receiverPos,
        calculateReceivedPower.Ld lib sensitivityDbm offsetX offsetY db allBuildings
            carrierFrequency senderPos receiverPos
          = diffract lib (calculateReceivedPower.v lib (300000000 / carrierFrequency)
              (Coord.distance lib senderPos receiverPos) senderPos receiverPos C))
    ∧ (calculateReceivedPower lib sensitivityDbm offsetX offsetY db allBuildings pSend
        carrierFrequency senderPos receiverPos).1
      = min pSend (pSend * (300000000 / carrierFrequency) ^ 2
          / (16 * lib.M_PI ^ 2 * Coord.distance lib senderPos receiverPos ^ 2)
          * lib.pow 10 (calculateReceivedPower.Ld lib sensitivityDbm offsetX offsetY db
              allBuildings carrierFrequency senderPos receiverPos / 10)) := by
  have hLd := lossLoop_eq lib (300000000 / carrierFrequency)
    (Coord.distance lib senderPos receiverPos) senderPos receiverPos
    (calculateReceivedPower.finalDiffCorners offsetX offsetY db allBuildings senderPos
      receiverPos) sensitivityDbm
  have hbetween : calculateReceivedPower.betweenBuildings offsetX offsetY db allBuildings
      senderPos receiverPos ≠ [] := fun h =>
    hfinal (finalDiffCorners_eq_nil_of_not_between _ _ _ _ _ _ h)
  have hbuildings := buildings_ne_nil_of_between _ _ _ _ _ _ hbetween
  refine ⟨hLd, ?_, ?_, ?_, ?_⟩
  · rw [calculateReceivedPower.Ld, hLd]
    exact (foldl_max_ge _ _).1
  · intro C hC
    rw [calculateReceivedPower.Ld, hLd]
    exact (foldl_max_ge _ _).2 _ (List.mem_map_of_mem _ hC)
  · rw [calculateReceivedPower.Ld, hLd]
    rcases foldl_max_mem ((calculateReceivedPower.finalDiffCorners offsetX offsetY db
        allBuildings senderPos receiverPos).map (fun C => diffract lib
          (calculateReceivedPower.v lib (300000000 / carrierFrequency)
            (Coord.distance lib senderPos receiverPos) senderPos receiverPos C)))
        sensitivityDbm with h | h
    · exact Or.inl h
    · obtain ⟨C, hC, hCe⟩ := List.mem_map.mp h
      exact Or.inr ⟨C, hC, hCe.symm⟩
  · have hfs : pSend * (300000000 / carrierFrequency) * (300000000 / carrierFrequency)
          / (16 * lib.M_PI * lib.M_PI * Coord.distance lib senderPos receiverPos ^ 2)
        = pSend * (300000000 / carrierFrequency) ^ 2
          / (16 * lib.M_PI ^ 2 * Coord.distance lib senderPos receiverPos ^ 2) := by
      congr 1 <;> ring
    simp only [calculateReceivedPower.betweenBuildings] at hbetween
    simp only [calculateReceivedPower.finalDiffCorners] at hfinal
    simp only [calculateReceivedPower, dBm2mW, if_neg hin, ne_eq, hbuildings, hbetween,
      not_false_eq_true, and_self, if_true, hfinal, ShadowPropagationLossModel.clamp_eq_min,
      hpow, hfs, calculateReceivedPower.Ld, calculateReceivedPower.finalDiffCorners]

/-- C25: for a link in range for which some building passes the area test and the wall test
but no diffraction corner stands the line-of-sight checks, the Diffraction model returns
`10^((sensitivity-1)/10)`, and so does the Shadow model on the same link. -/
theorem calculateReceivedPower_fully_shadowed {α : Type} [LinearOrderedField α] (lib : Libm α)
    (sensitivityDbm : α) (offsetX offsetY : ℚ) (db : Database) (allBuildings : List Building)
    (pSend carrierFrequency : α) (senderPos receiverPos : Coord)
    (hin : ¬ (300000000 / carrierFrequency / (4 * lib.PI)
        * lib.sqrt (lib.pow 10 ((pSend - sensitivityDbm) / 10))
      < Coord.distance lib senderPos receiverPos))
    (hbetween : buildingBetween
      (getBuildingsInArea offsetX offsetY db allBuildings senderPos receiverPos)
      senderPos receiverPos)
    (hfinal : calculateReceivedPower.finalDiffCorners offsetX offsetY db allBuildings senderPos
      receiverPos = []) :
    calculateReceivedPower lib sensitivityDbm offsetX offsetY db allBuildings pSend
        carrierFrequency senderPos receiverPos
      = (lib.pow 10 ((sensitivityDbm - 1) / 10),
          (getBuildingsInArea offsetX offsetY db allBuildings senderPos receiverPos).2)
    ∧ ShadowPropagationLossModel.calculateReceivedPower lib sensitivityDbm offsetX offsetY db
        allBuildings pSend carrierFrequency senderPos receiverPos
      = (lib.pow 10 ((sensitivityDbm - 1) / 10),
          (getBuildingsInArea offsetX offsetY db allBuildings senderPos receiverPos).2) := by
  have hdec : decide (300000000 / carrierFrequency / (4 * lib.PI)
        * lib.sqrt (lib.pow 10 ((pSend - sensitivityDbm) / 10))
      < Coord.distance lib senderPos receiverPos) = false := decide_eq_false hin
  have hb := (betweenBuildings_ne_nil_iff offsetX offsetY db allBuildings senderPos
    receiverPos).mpr hbetween
  have hbuildings := buildings_ne_nil_of_between _ _ _ _ _ _ hb
  constructor
  · simp only [calculateReceivedPower.betweenBuildings] at hb
    simp only [calculateReceivedPower.finalDiffCorners] at hfinal
    simp only [calculateReceivedPower, dBm2mW, if_neg hin, ne_eq, hbuildings, hb,
      not_false_eq_true, and_self, if_true, hfinal, not_true_eq_false, if_false]
  · have hs := (ShadowPropagationLossModel.buildingLoop_iff _ senderPos receiverPos _
      false).mpr (Or.inr hbetween)
    simp only [ShadowPropagationLossModel.calculateReceivedPower,
      ShadowPropagationLossModel.dBm2mW, if_neg hin, hdec, hs, Bool.or_true, if_true]

/-- C26: for a link in range (of positive length) for which no building of the vicinity
passes the area test and the wall test, in particular when the vicinity holds no building, the
Diffraction model returns the free-space power `pSend * waveLength^2 / (16 * pi^2 * d^2)`
clamped at `pSend`. -/
theorem calculateReceivedPower_free_space {α : Type} [LinearOrderedField α] (lib : Libm α)
    (sensitivityDbm : α) (offsetX offsetY : ℚ) (db : Database) (allBuildings : List Building)
    (pSend carrierFrequency : α) (senderPos receiverPos : Coord)
    (_hf : carrierFrequency ≠ 0) (_hPI : lib.PI ≠ 0) (_hMPI : lib.M_PI ≠ 0)
    (_hd : 0 < Coord.distance lib senderPos receiverPos)
    (hpow : lib.pow (Coord.distance lib senderPos receiverPos) 2
      = Coord.distance lib senderPos receiverPos ^ 2)
    (hin : ¬ (300000000 / carrierFrequency / (4 * lib.PI)
        * lib.sqrt (lib.pow 10 ((pSend - sensitivityDbm) / 10))
      < Coord.distance lib senderPos receiverPos))
    (hnone : (getBuildingsInArea offsetX offsetY db allBuildings senderPos receiverPos).1 = []
      ∨ ¬ buildingBetween
        (getBuildingsInArea offsetX offsetY db allBuildings senderPos receiverPos)
        senderPos receiverPos) :
    calculateReceivedPower lib sensitivityDbm offsetX offsetY db allBuildings pSend
        carrierFrequency senderPos receiverPos
      = (freeSpacePower lib pSend carrierFrequency (Coord.distance lib senderPos receiverPos),
          (getBuildingsInArea offsetX offsetY db allBuildings senderPos receiverPos).2) := by
  have hfs : pSend * (300000000 / carrierFrequency) * (300000000 / carrierFrequency)
        / (16 * lib.M_PI * lib.M_PI * Coord.distance lib senderPos receiverPos ^ 2)
      = pSend * (300000000 / carrierFrequency) ^ 2
        / (16 * lib.M_PI ^ 2 * Coord.distance lib senderPos receiverPos ^ 2) := by
    congr 1 <;> ring
  have hb : calculateReceivedPower.betweenBuildings offsetX offsetY db allBuildings senderPos
      receiverPos = [] := by
    by_contra hne
    rcases hnone with h0 | hn
    · exact buildings_ne_nil_of_between _ _ _ _ _ _ hne h0
    · exact hn ((betweenBuildings_ne_nil_iff offsetX offsetY db allBuildings senderPos
        receiverPos).mp hne)
  simp only [calculateReceivedPower.betweenBuildings] at hb
  simp only [calculateReceivedPower, dBm2mW, if_neg hin, ne_eq, hb, not_true_eq_false,
    and_false, if_false, ShadowPropagationLossModel.clamp_eq_min, hpow, freeSpacePower, hfs]

end DiffractionPropagationLossModel

namespace Libm

open MapManager

theorem real_distance_six : Coord.distance Libm.real ⟨0, 2⟩ ⟨6, 2⟩ = 6 := by
  have h36 : Real.sqrt 36 = 6 := by
    rw [show (36 : ℝ) = 6 ^ 2 by norm_num, Real.sqrt_sq (by norm_num)]
  simp only [Coord.distance, Coord.sqrdist, Libm.real]
  norm_num
  exact h36

/-- The link from `(0,2)` to `(6,2)` at 1 Hz is in range when the transmit power equals the
sensitivity: `rMax = 3e8 / (4 * pi) > 6`. -/
theorem real_in_range_six :
    ¬ (300000000 / (1 : ℝ) / (4 * Libm.real.PI)
        * Libm.real.sqrt (Libm.real.pow 10 (((1 : ℝ) - 1) / 10))
      < Coord.distance Libm.real ⟨0, 2⟩ ⟨6, 2⟩) := by
  rw [real_rMax, real_distance_six, not_lt, le_div_iff₀ (by positivity)]
  have := Real.pi_le_four
  norm_num
  linarith

end Libm

namespace DiffractionPropagationLossModel

open MapManager

/-- In the diamond database the corner `(3,1)` is the one final diffraction corner of the link
from `(0,2)` to `(6,2)`. -/
theorem diamondDatabase_finalDiffCorners :
    calculateReceivedPower.finalDiffCorners 0 0 diamondDatabase [] ⟨0, 2⟩ ⟨6, 2⟩
      = [⟨3, 1⟩] := by
  norm_num [calculateReceivedPower.finalDiffCorners, calculateReceivedPower.finalLoop,
    calculateReceivedPower.cornerLoop, calculateReceivedPower.clearLoop,
    calculateReceivedPower.betweenLoop,
    diamondDatabase, getBuildingsInArea, getBuildingsInArea.buildingLoop,
    getBuildingsInArea.wallLoop, getBuildingsInArea.rQ,
    getBuildingsInArea.buildingQuery, Coord.sqrdist,
    isBuildingAlloc, isBuildingAlloc.loop, castUnsigned, castInt, isAreaBetween,
    isBuildingBetween, isBuildingBetween.buildingLoop, isBuildingBetween.wallLoop,
    getDiffractionCorners, getDiffractionCorners.buildingLoop,
    getDiffractionCorners.cornerLoop, getDiffractionCorners.otherWalls,
    getIntersection, intersect, coefA, coefB, det, detA, detB, epsilon]

/-- Witness of C24: the real library, the diamond database with an empty cache, the link from
`(0,2)` to `(6,2)` at 1 Hz with transmit power and sensitivity 1; the corner `(3,1)` is the
final diffraction corner. -/
theorem calculateReceivedPower_diffracted_witness :
    calculateReceivedPower.finalDiffCorners 0 0 diamondDatabase [] ⟨0, 2⟩ ⟨6, 2⟩ = [⟨3, 1⟩]
    ∧ ¬ (300000000 / (1 : ℝ) / (4 * Libm.real.PI)
          * Libm.real.sqrt (Libm.real.pow 10 (((1 : ℝ) - 1) / 10))
        < Coord.distance Libm.real ⟨0, 2⟩ ⟨6, 2⟩)
    ∧ (calculateReceivedPower Libm.real 1 0 0 diamondDatabase [] 1 1 ⟨0, 2⟩ ⟨6, 2⟩).1
      = min 1 (1 * (300000000 / 1) ^ 2
          / (16 * Libm.real.M_PI ^ 2 * Coord.distance Libm.real ⟨0, 2⟩ ⟨6, 2⟩ ^ 2)
          * Libm.real.pow 10 (calculateReceivedPower.Ld Libm.real 1 0 0 diamondDatabase []
              1 ⟨0, 2⟩ ⟨6, 2⟩ / 10)) :=
  ⟨diamondDatabase_finalDiffCorners, Libm.real_in_range_six,
    (calculateReceivedPower_diffracted Libm.real 1 0 0 diamondDatabase [] 1 1 ⟨0, 2⟩ ⟨6, 2⟩
      one_ne_zero Libm.real_PI_ne_zero Libm.real_M_PI_ne_zero
      (by rw [Libm.real_distance_six]; norm_num) (Libm.real_pow_two _) Libm.real_in_range_six
      (by rw [diamondDatabase_finalDiffCorners]; simp)).2.2.2.2⟩

/-- In the example database no diffraction corner of the link from `(-1,1/2)` to `(2,1/2)`
is found: building `1` has a single wall. -/
theorem exampleDatabase_finalDiffCorners :
    calculateReceivedPower.finalDiffCorners 0 0 exampleDatabase [] ⟨-1, 1 / 2⟩ ⟨2, 1 / 2⟩
      = [] := by
  norm_num [calculateReceivedPower.finalDiffCorners, calculateReceivedPower.finalLoop,
    calculateReceivedPower.cornerLoop, calculateReceivedPower.clearLoop,
    calculateReceivedPower.betweenLoop,
    exampleDatabase, getBuildingsInArea, getBuildingsInArea.buildingLoop,
    getBuildingsInArea.wallLoop, getBuildingsInArea.rQ,
    getBuildingsInArea.buildingQuery, Coord.sqrdist,
    isBuildingAlloc, isBuildingAlloc.loop, castUnsigned, castInt, isAreaBetween,
    isBuildingBetween, isBuildingBetween.buildingLoop, isBuildingBetween.wallLoop,
    getDiffractionCorners, getDiffractionCorners.buildingLoop,
    getDiffractionCorners.cornerLoop, getDiffractionCorners.otherWalls,
    getIntersection, intersect, coefA, coefB, det, detA, detB, epsilon]

/-- Witness of C25: the real library, the example database with an empty cache, the link from
`(-1,1/2)` to `(2,1/2)` at 1 Hz with transmit power and sensitivity 1; building `1` is between
and has no diffraction corner. -/
theorem calculateReceivedPower_fully_shadowed_witness :
    buildingBetween (getBuildingsInArea 0 0 exampleDatabase [] ⟨-1, 1 / 2⟩ ⟨2, 1 / 2⟩)
        ⟨-1, 1 / 2⟩ ⟨2, 1 / 2⟩
    ∧ calculateReceivedPower.finalDiffCorners 0 0 exampleDatabase [] ⟨-1, 1 / 2⟩ ⟨2, 1 / 2⟩
      = []
    ∧ calculateReceivedPower Libm.real 1 0 0 exampleDatabase [] 1 1 ⟨-1, 1 / 2⟩ ⟨2, 1 / 2⟩
      = (Libm.real.pow 10 (((1 : ℝ) - 1) / 10),
          (getBuildingsInArea 0 0 exampleDatabase [] ⟨-1, 1 / 2⟩ ⟨2, 1 / 2⟩).2)
    ∧ ShadowPropagationLossModel.calculateReceivedPower Libm.real 1 0 0 exampleDatabase [] 1 1
        ⟨-1, 1 / 2⟩ ⟨2, 1 / 2⟩
      = (Libm.real.pow 10 (((1 : ℝ) - 1) / 10),
          (getBuildingsInArea 0 0 exampleDatabase [] ⟨-1, 1 / 2⟩ ⟨2, 1 / 2⟩).2) :=
  ⟨ShadowPropagationLossModel.exampleDatabase_between, exampleDatabase_finalDiffCorners,
    calculateReceivedPower_fully_shadowed Libm.real 1 0 0 exampleDatabase [] 1 1 ⟨-1, 1 / 2⟩
      ⟨2, 1 / 2⟩ Libm.real_in_range ShadowPropagationLossModel.exampleDatabase_between
      exampleDatabase_finalDiffCorners⟩

/-- With the example database moved up by 1, building `1` is in the vicinity of the link from
`(-1,1/2)` to `(2,1/2)` but its area is not between. -/
theorem exampleDatabase_moved_not_between :
    (getBuildingsInArea 0 1 exampleDatabase [] ⟨-1, 1 / 2⟩ ⟨2, 1 / 2⟩).1 = [1]
    ∧ ¬ buildingBetween (getBuildingsInArea 0 1 exampleDatabase [] ⟨-1, 1 / 2⟩ ⟨2, 1 / 2⟩)
        ⟨-1, 1 / 2⟩ ⟨2, 1 / 2⟩ := by
  norm_num [buildingBetween,
    exampleDatabase, getBuildingsInArea, getBuildingsInArea.buildingLoop,
    getBuildingsInArea.wallLoop, getBuildingsInArea.rQ,
    getBuildingsInArea.buildingQuery, Coord.sqrdist,
    isBuildingAlloc, isBuildingAlloc.loop, castUnsigned, castInt, isAreaBetween,
    getIntersection, intersect, coefA, coefB, det, detA, detB, epsilon]

/-- Witness of C26: the real library, the example database moved up by 1 with an empty cache,
the link from `(-1,1/2)` to `(2,1/2)` at 1 Hz with transmit power and sensitivity 1; building
`1` is near and not between. -/
theorem calculateReceivedPower_free_space_witness :
    (getBuildingsInArea 0 1 exampleDatabase [] ⟨-1, 1 / 2⟩ ⟨2, 1 / 2⟩).1 = [1]
    ∧ ¬ buildingBetween (getBuildingsInArea 0 1 exampleDatabase [] ⟨-1, 1 / 2⟩ ⟨2, 1 / 2⟩)
        ⟨-1, 1 / 2⟩ ⟨2, 1 / 2⟩
    ∧ calculateReceivedPower Libm.real 1 0 1 exampleDatabase [] 1 1 ⟨-1, 1 / 2⟩ ⟨2, 1 / 2⟩
      = (freeSpacePower Libm.real 1 1 (Coord.distance Libm.real ⟨-1, 1 / 2⟩ ⟨2, 1 / 2⟩),
          (getBuildingsInArea 0 1 exampleDatabase [] ⟨-1, 1 / 2⟩ ⟨2, 1 / 2⟩).2) :=
  ⟨exampleDatabase_moved_not_between.1, exampleDatabase_moved_not_between.2,
    calculateReceivedPower_free_space Libm.real 1 0 1 exampleDatabase [] 1 1 ⟨-1, 1 / 2⟩
      ⟨2, 1 / 2⟩ one_ne_zero Libm.real_PI_ne_zero Libm.real_M_PI_ne_zero
      (by rw [Libm.real_distance_three]; norm_num) (Libm.real_pow_two _) Libm.real_in_range
      (Or.inr exampleDatabase_moved_not_between.2)⟩

end DiffractionPropagationLossModel

namespace TwoRayInterferenceModel

/-- C21: for every distance other than zero the TwoRayInterference model returns
`pSend / loss`, the loss being built from the direct path `d_dir`, the reflected path `d_ref`,
the incidence angle (`sin_theta`, `cos_theta`), the reflection coefficient `gamma` and the
phase `phi` as the specification writes them (`pow(x, 2)` being `x^2`). -/
theorem calculateReceivedPower_two_ray {α : Type} [LinearOrderedField α] (lib : Libm α)
    (ht hr epsilon_r pSend carrierFrequency distance : α)
    (d_dir d_ref sin_theta cos_theta gamma phi loss : α)
    (_hf : carrierFrequency ≠ 0) (hd : distance ≠ 0) (hpow : ∀ x : α, lib.pow x 2 = x ^ 2)
    (h_dir : d_dir = lib.sqrt (distance ^ 2 + (ht - hr) ^ 2))
    (h_ref : d_ref = lib.sqrt (distance ^ 2 + (ht + hr) ^ 2))
    (h_sin : sin_theta = (ht + hr) / d_ref)
    (h_cos : cos_theta = distance / d_ref)
    (h_gamma : gamma = (sin_theta - lib.sqrt (epsilon_r - cos_theta ^ 2))
      / (sin_theta + lib.sqrt (epsilon_r - cos_theta ^ 2)))
    (h_phi : phi = 2 * lib.M_PI / (300000000 / carrierFrequency) * (d_dir - d_ref))
    (h_loss : loss = (4 * lib.M_PI * (distance / (300000000 / carrierFrequency))
      / lib.sqrt ((1 + gamma * lib.cos phi) ^ 2 + gamma ^ 2 * lib.sin phi ^ 2)) ^ 2) :
    calculateReceivedPower lib ht hr epsilon_r pSend carrierFrequency distance
      = pSend / loss := by
  subst h_dir h_ref h_sin h_cos h_gamma h_phi h_loss
  simp only [calculateReceivedPower, if_neg hd, hpow, mul_one]

/-- Witness of C21: the real library, both antennas at height 1, relative permittivity 2,
transmit power 1, 300 MHz, distance 1. -/
theorem calculateReceivedPower_two_ray_witness :
    calculateReceivedPower Libm.real 1 1 2 1 300000000 1
      = 1 / (4 * Libm.real.M_PI * (1 / (300000000 / 300000000))
        / Libm.real.sqrt
          ((1 + ((1 + 1) / Libm.real.sqrt (1 ^ 2 + (1 + 1) ^ 2)
              - Libm.real.sqrt (2 - (1 / Libm.real.sqrt (1 ^ 2 + (1 + 1) ^ 2)) ^ 2))
            / ((1 + 1) / Libm.real.sqrt (1 ^ 2 + (1 + 1) ^ 2)
              + Libm.real.sqrt (2 - (1 / Libm.real.sqrt (1 ^ 2 + (1 + 1) ^ 2)) ^ 2))
            * Libm.real.cos (2 * Libm.real.M_PI / (300000000 / 300000000)
              * (Libm.real.sqrt (1 ^ 2 + (1 - 1) ^ 2)
                - Libm.real.sqrt (1 ^ 2 + (1 + 1) ^ 2)))) ^ 2
          + (((1 + 1) / Libm.real.sqrt (1 ^ 2 + (1 + 1) ^ 2)
              - Libm.real.sqrt (2 - (1 / Libm.real.sqrt (1 ^ 2 + (1 + 1) ^ 2)) ^ 2))
            / ((1 + 1) / Libm.real.sqrt (1 ^ 2 + (1 + 1) ^ 2)
              + Libm.real.sqrt (2 - (1 / Libm.real.sqrt (1 ^ 2 + (1 + 1) ^ 2)) ^ 2))) ^ 2
            * Libm.real.sin (2 * Libm.real.M_PI / (300000000 / 300000000)
              * (Libm.real.sqrt (1 ^ 2 + (1 - 1) ^ 2)
                - Libm.real.sqrt (1 ^ 2 + (1 + 1) ^ 2))) ^ 2)) ^ 2 :=
  calculateReceivedPower_two_ray Libm.real 1 1 2 1 300000000 1 _ _ _ _ _ _ _
    (by norm_num) one_ne_zero Libm.real_pow_two rfl rfl rfl rfl rfl rfl rfl

end TwoRayInterferenceModel

namespace DiffractionPropagationLossModel

/-- C28: over the reals `diffract` is the five-branch function of `v` with the natural
logarithm: `0` for `v ≤ -1`, `20 ln(0.5 - 0.62 v)` for `-1 < v ≤ 0`,
`20 ln(0.5 exp(-0.95 v))` for `0 < v ≤ 1`, `20 ln(0.4 - sqrt(0.1184 - (0.38 - 0.1 v)^2))` for
`1 < v ≤ 2.4` and `20 ln(0.225 / v)` for `v > 2.4`; the five conditions are exhaustive and
mutually exclusive. -/
theorem diffract_piecewise (v : ℝ) :
    (v ≤ -1 → diffract Libm.real v = 0)
    ∧ (-1 < v ∧ v ≤ 0 → diffract Libm.real v = 20 * Real.log (0.5 - 0.62 * v))
    ∧ (0 < v ∧ v ≤ 1 → diffract Libm.real v = 20 * Real.log (0.5 * Real.exp (-0.95 * v)))
    ∧ (1 < v ∧ v ≤ 2.4 → diffract Libm.real v
        = 20 * Real.log (0.4 - Real.sqrt (0.1184 - (0.38 - 0.1 * v) ^ 2)))
    ∧ (2.4 < v → diffract Libm.real v = 20 * Real.log (0.225 / v))
    ∧ (v ≤ -1 ∨ (-1 < v ∧ v ≤ 0) ∨ (0 < v ∧ v ≤ 1) ∨ (1 < v ∧ v ≤ 2.4) ∨ 2.4 < v)
    ∧ ¬ (v ≤ -1 ∧ (-1 < v ∧ v ≤ 0)) ∧ ¬ (v ≤ -1 ∧ (0 < v ∧ v ≤ 1))
    ∧ ¬ (v ≤ -1 ∧ (1 < v ∧ v ≤ 2.4)) ∧ ¬ (v ≤ -1 ∧ 2.4 < v)
    ∧ ¬ ((-1 < v ∧ v ≤ 0) ∧ (0 < v ∧ v ≤ 1)) ∧ ¬ ((-1 < v ∧ v ≤ 0) ∧ (1 < v ∧ v ≤ 2.4))
    ∧ ¬ ((-1 < v ∧ v ≤ 0) ∧ 2.4 < v) ∧ ¬ ((0 < v ∧ v ≤ 1) ∧ (1 < v ∧ v ≤ 2.4))
    ∧ ¬ ((0 < v ∧ v ≤ 1) ∧ 2.4 < v) ∧ ¬ ((1 < v ∧ v ≤ 2.4) ∧ 2.4 < v) := by
  refine ⟨?_, ?_, ?_, ?_, ?_, ?_, ?_, ?_, ?_, ?_, ?_, ?_, ?_, ?_, ?_, ?_⟩
  · intro h
    simp only [diffract, if_pos h]
  · rintro ⟨h1, h2⟩
    have e1 : ¬ v ≤ -1 := not_le.mpr h1
    simp only [diffract, if_neg e1, gt_iff_lt, h1, h2, and_self, if_true, Libm.real]
    norm_num
  · rintro ⟨h1, h2⟩
    have e1 : ¬ v ≤ -1 := by linarith
    have e2 : ¬ v ≤ 0 := not_le.mpr h1
    simp only [diffract, if_neg e1, gt_iff_lt, e2, and_false, if_false, h1, h2, and_self,
      if_true, Libm.real]
    norm_num
  · rintro ⟨h1, h2⟩
    have e1 : ¬ v ≤ -1 := by linarith
    have e2 : ¬ v ≤ 0 := by linarith
    have e3 : ¬ v ≤ 1 := not_le.mpr h1
    have h3 : v ≤ 24 / 10 := by norm_num at h2 ⊢; exact h2
    simp only [diffract, if_neg e1, gt_iff_lt, e2, e3, and_false, if_false, h1, h3, and_self,
      if_true, Libm.real]
    norm_num
    ring_nf
  · intro h1
    have h4 : (24 : ℝ) / 10 < v := by norm_num at h1 ⊢; exact h1
    have e1 : ¬ v ≤ -1 := by linarith
    have e2 : ¬ v ≤ 0 := by linarith
    have e3 : ¬ v ≤ 1 := by linarith
    have e4 : ¬ v ≤ 24 / 10 := not_le.mpr h4
    simp only [diffract, if_neg e1, gt_iff_lt, e2, e3, e4, and_false, if_false, Libm.real]
    norm_num
  · norm_num
    by_cases h1 : v ≤ -1
    · exact Or.inl h1
    · by_cases h2 : v ≤ 0
      · exact Or.inr (Or.inl ⟨not_le.mp h1, h2⟩)
      · by_cases h3 : v ≤ 1
        · exact Or.inr (Or.inr (Or.inl ⟨not_le.mp h2, h3⟩))
        · by_cases h4 : v ≤ 12 / 5
          · exact Or.inr (Or.inr (Or.inr (Or.inl ⟨not_le.mp h3, h4⟩)))
          · exact Or.inr (Or.inr (Or.inr (Or.inr (not_le.mp h4))))
  all_goals norm_num
  all_goals intros
  all_goals linarith

end DiffractionPropagationLossModel

namespace MapManager

theorem Coord.sqrdist_pos {a b : Coord} (h : a ≠ b) : 0 < Coord.sqrdist a b := by
  obtain ⟨ax, ay⟩ := a
  obtain ⟨bx, mby⟩ := b
  simp only [Coord.sqrdist]
  by_contra hle
  have hx : (ax - bx) ^ 2 = 0 := by nlinarith [sq_nonneg (ax - bx), sq_nonneg (ay - mby)]
  have hy : (ay - mby) ^ 2 = 0 := by nlinarith [sq_nonneg (ax - bx), sq_nonneg (ay - mby)]
  apply h
  rw [Coord.mk.injEq]
  exact ⟨sub_eq_zero.mp (pow_eq_zero_iff (two_ne_zero)|>.mp hx),
    sub_eq_zero.mp (pow_eq_zero_iff (two_ne_zero)|>.mp hy)⟩

end MapManager

namespace DiffractionPropagationLossModel

open MapManager

/-- The height over the real library, for a sender-corner distance `dsc` and a
sender-receiver distance `dsr` that are positive square roots. -/
theorem real_height {D1 D2 dot cross : ℝ} (h1 : 0 < D1) (h2 : 0 < D2)
    (hL : D1 * D2 - dot ^ 2 = cross ^ 2) :
    Real.sqrt D1 * Real.sin (Real.arccos (dot / (Real.sqrt D1 * Real.sqrt D2)))
      = |cross| / Real.sqrt D2 := by
  have p1 : 0 < Real.sqrt D1 := Real.sqrt_pos.mpr h1
  have p2 : 0 < Real.sqrt D2 := Real.sqrt_pos.mpr h2
  have s1 : Real.sqrt D1 ^ 2 = D1 := Real.sq_sqrt h1.le
  have s2 : Real.sqrt D2 ^ 2 = D2 := Real.sq_sqrt h2.le
  have e : 1 - (dot / (Real.sqrt D1 * Real.sqrt D2)) ^ 2
      = (cross / (Real.sqrt D1 * Real.sqrt D2)) ^ 2 := by
    rw [div_pow, div_pow, mul_pow, s1, s2, ← hL]
    field_simp
  rw [Real.sin_arccos, e, Real.sqrt_sq_eq_abs, abs_div, abs_of_pos (mul_pos p1 p2)]
  field_simp
  ring

/-- The projection over the real library. -/
theorem real_projection {D1 D2 dot cross : ℝ} (h1 : 0 < D1) (h2 : 0 < D2)
    (hL : D1 * D2 - dot ^ 2 = cross ^ 2) :
    Real.sqrt (Real.sqrt D1 * Real.sqrt D1
        - |cross| / Real.sqrt D2 * (|cross| / Real.sqrt D2))
      = |dot| / Real.sqrt D2 := by
  have p2 : 0 < Real.sqrt D2 := Real.sqrt_pos.mpr h2
  have s2 : Real.sqrt D2 ^ 2 = D2 := Real.sq_sqrt h2.le
  have e : Real.sqrt D1 * Real.sqrt D1 - |cross| / Real.sqrt D2 * (|cross| / Real.sqrt D2)
      = (dot / Real.sqrt D2) ^ 2 := by
    rw [Real.mul_self_sqrt h1.le, div_mul_div_comm, ← sq, ← sq, sq_abs, div_pow, s2]
    field_simp
    linarith
  rw [e, Real.sqrt_sq_eq_abs, abs_div, abs_of_pos p2]

/-- C29: over the reals, for a receiver `R` other than the sender `S` and a corner `C` other
than `S`, the height `h` of the knife-edge procedure is the perpendicular distance
`|(C-S) x (R-S)| / dsr` of `C` from the line through `S` and `R`, the length `ds` is
`|(C-S) . (R-S)| / dsr`, the length of the projection of `S -> C` onto that line, and
`v = h * sqrt(2 * (dr + ds) / (waveLength * dr * ds))` with `dr = dsr - ds`. -/
theorem knife_edge_geometry (waveLength : ℝ) (S R C : Coord) (hSR : S ≠ R) (hCS : C ≠ S) :
    calculateReceivedPower.h Libm.real (Coord.distance Libm.real S R) S R C
      = |(((C.x - S.x) * (R.y - S.y) - (C.y - S.y) * (R.x - S.x) : ℚ) : ℝ)|
        / Coord.distance Libm.real S R
    ∧ calculateReceivedPower.ds Libm.real (Coord.distance Libm.real S R) S R C
      = |(((C.x - S.x) * (R.x - S.x) + (C.y - S.y) * (R.y - S.y) : ℚ) : ℝ)|
        / Coord.distance Libm.real S R
    ∧ calculateReceivedPower.v Libm.real waveLength (Coord.distance Libm.real S R) S R C
      = calculateReceivedPower.h Libm.real (Coord.distance Libm.real S R) S R C
        * Real.sqrt (2 * ((Coord.distance Libm.real S R
              - calculateReceivedPower.ds Libm.real (Coord.distance Libm.real S R) S R C)
            + calculateReceivedPower.ds Libm.real (Coord.distance Libm.real S R) S R C)
          / (waveLength * (Coord.distance Libm.real S R
              - calculateReceivedPower.ds Libm.real (Coord.distance Libm.real S R) S R C)
            * calculateReceivedPower.ds Libm.real (Coord.distance Libm.real S R) S R C)) := by
  have h1 : (0 : ℝ) < ((Coord.sqrdist S C : ℚ) : ℝ) :=
    Rat.cast_pos.mpr (Coord.sqrdist_pos (Ne.symm hCS))
  have h2 : (0 : ℝ) < ((Coord.sqrdist S R : ℚ) : ℝ) := Rat.cast_pos.mpr (Coord.sqrdist_pos hSR)
  have hL : ((Coord.sqrdist S C : ℚ) : ℝ) * ((Coord.sqrdist S R : ℚ) : ℝ)
      - ((((C.x - S.x) * (R.x - S.x) + (C.y - S.y) * (R.y - S.y) : ℚ) : ℝ)) ^ 2
      = ((((C.x - S.x) * (R.y - S.y) - (C.y - S.y) * (R.x - S.x) : ℚ) : ℝ)) ^ 2 := by
    simp only [Coord.sqrdist]
    push_cast
    ring
  have hh : calculateReceivedPower.h Libm.real (Coord.distance Libm.real S R) S R C
      = |(((C.x - S.x) * (R.y - S.y) - (C.y - S.y) * (R.x - S.x) : ℚ) : ℝ)|
        / Coord.distance Libm.real S R := real_height h1 h2 hL
  refine ⟨hh, ?_, rfl⟩
  rw [calculateReceivedPower.ds, hh]
  exact real_projection h1 h2 hL

/-- Witness of C29: sender `(0,2)`, receiver `(6,2)` and the corner `(3,1)` of the diamond, at
the wave length 1. -/
theorem knife_edge_geometry_witness :
    calculateReceivedPower.h Libm.real (Coord.distance Libm.real ⟨0, 2⟩ ⟨6, 2⟩) ⟨0, 2⟩ ⟨6, 2⟩
        ⟨3, 1⟩ = 1
    ∧ calculateReceivedPower.ds Libm.real (Coord.distance Libm.real ⟨0, 2⟩ ⟨6, 2⟩) ⟨0, 2⟩
        ⟨6, 2⟩ ⟨3, 1⟩ = 3 := by
  have h := knife_edge_geometry 1 ⟨0, 2⟩ ⟨6, 2⟩ ⟨3, 1⟩ (by simp) (by simp)
  rw [Libm.real_distance_six] at h
  constructor
  · rw [Libm.real_distance_six, h.1]
    norm_num
  · rw [Libm.real_distance_six, h.2.1]
    norm_num

end DiffractionPropagationLossModel

/-! ## Exchanging the endpoints of the line of sight -/

namespace MapManager

theorem det_flip (P1x P1y P2x P2y P3x P3y P4x P4y : ℚ) :
    det P2x P2y P1x P1y P3x P3y P4x P4y = - det P1x P1y P2x P2y P3x P3y P4x P4y := by
  simp only [det]
  ring

theorem coefA_flip {P1x P1y P2x P2y P3x P3y P4x P4y : ℚ}
    (h : det P1x P1y P2x P2y P3x P3y P4x P4y ≠ 0) :
    coefA P2x P2y P1x P1y P3x P3y P4x P4y = 1 - coefA P1x P1y P2x P2y P3x P3y P4x P4y := by
  have hA : detA P2x P2y P1x P1y P3x P3y P4x P4y
      = detA P1x P1y P2x P2y P3x P3y P4x P4y - det P1x P1y P2x P2y P3x P3y P4x P4y := by
    simp only [detA, det]
    ring
  rw [coefA, coefA, det_flip, hA, div_neg, sub_div, div_self h]
  ring

theorem coefB_flip (P1x P1y P2x P2y P3x P3y P4x P4y : ℚ) :
    coefB P2x P2y P1x P1y P3x P3y P4x P4y = coefB P1x P1y P2x P2y P3x P3y P4x P4y := by
  have hB : detB P2x P2y P1x P1y P3x P3y P4x P4y
      = - detB P1x P1y P2x P2y P3x P3y P4x P4y := by
    simp only [detB]
    ring
  rw [coefB, coefB, det_flip, hB, neg_div_neg_eq]

/-- The intersection point does not depend on the direction of the first segment. -/
theorem getIntersection_flip (P1x P1y P2x P2y P3x P3y P4x P4y : ℚ) :
    getIntersection P2x P2y P1x P1y P3x P3y P4x P4y
      = getIntersection P1x P1y P2x P2y P3x P3y P4x P4y := by
  have hflip := det_flip P1x P1y P2x P2y P3x P3y P4x P4y
  have hB := coefB_flip P1x P1y P2x P2y P3x P3y P4x P4y
  by_cases hdet : |det P1x P1y P2x P2y P3x P3y P4x P4y| < epsilon
  · have hdet2 : |det P2x P2y P1x P1y P3x P3y P4x P4y| < epsilon := by
      rw [hflip, abs_neg]
      exact hdet
    simp only [getIntersection, intersect, hdet, hdet2, if_true, Bool.false_eq_true, if_false]
  · have hne : det P1x P1y P2x P2y P3x P3y P4x P4y ≠ 0 :=
      det_ne_zero_of_epsilon_le (not_lt.mp hdet)
    have hA := coefA_flip hne
    have hdet2 : ¬ |det P2x P2y P1x P1y P3x P3y P4x P4y| < epsilon := by
      rw [hflip, abs_neg]
      exact hdet
    by_cases hc : coefA P1x P1y P2x P2y P3x P3y P4x P4y ≥ 0
        ∧ coefA P1x P1y P2x P2y P3x P3y P4x P4y ≤ 1
        ∧ coefB P1x P1y P2x P2y P3x P3y P4x P4y ≥ 0
        ∧ coefB P1x P1y P2x P2y P3x P3y P4x P4y ≤ 1
    · have hc2 : coefA P2x P2y P1x P1y P3x P3y P4x P4y ≥ 0
          ∧ coefA P2x P2y P1x P1y P3x P3y P4x P4y ≤ 1
          ∧ coefB P2x P2y P1x P1y P3x P3y P4x P4y ≥ 0
          ∧ coefB P2x P2y P1x P1y P3x P3y P4x P4y ≤ 1 := by
        rw [hA, hB]
        exact ⟨by linarith [hc.2.1], by linarith [hc.1], hc.2.2.1, hc.2.2.2⟩
      simp only [getIntersection, intersect, hdet, hdet2, if_false, if_pos hc, if_pos hc2,
        if_true, Coord.mk.injEq]
      rw [hA]
      constructor <;> ring
    · have hc2 : ¬ (coefA P2x P2y P1x P1y P3x P3y P4x P4y ≥ 0
          ∧ coefA P2x P2y P1x P1y P3x P3y P4x P4y ≤ 1
          ∧ coefB P2x P2y P1x P1y P3x P3y P4x P4y ≥ 0
          ∧ coefB P2x P2y P1x P1y P3x P3y P4x P4y ≤ 1) := by
        rw [hA, hB]
        intro h
        exact hc ⟨by linarith [h.2.1], by linarith [h.1], h.2.2.1, h.2.2.2⟩
      simp only [getIntersection, intersect, hdet, hdet2, if_false, if_neg hc, if_neg hc2,
        Bool.false_eq_true]

theorem isAreaBetween_flip (allBuildings : List Building) (tx_x tx_y rx_x rx_y : ℚ)
    (bId : Int) :
    isAreaBetween allBuildings rx_x rx_y tx_x tx_y bId
      = isAreaBetween allBuildings tx_x tx_y rx_x rx_y bId := by
  rw [Bool.eq_iff_iff, isAreaBetween_iff, isAreaBetween_iff]
  simp only [getIntersection_flip tx_x tx_y rx_x rx_y]

theorem isBuildingBetween_flip (allBuildings : List Building) (tx_x tx_y rx_x rx_y : ℚ)
    (bId : Int) :
    isBuildingBetween allBuildings rx_x rx_y tx_x tx_y bId
      = isBuildingBetween allBuildings tx_x tx_y rx_x rx_y bId := by
  rw [Bool.eq_iff_iff, isBuildingBetween_iff, isBuildingBetween_iff]
  simp only [getIntersection_flip tx_x tx_y rx_x rx_y]

theorem Coord.sqrdist_comm (a b : Coord) : Coord.sqrdist a b = Coord.sqrdist b a := by
  simp only [Coord.sqrdist]
  ring

/-- The vicinity query depends on the midpoint and the length of the link only. -/
theorem getBuildingsInArea_flip (offsetX offsetY : ℚ) (db : Database)
    (allBuildings : List Building) (txPos rxPos : Coord) :
    getBuildingsInArea offsetX offsetY db allBuildings rxPos txPos
      = getBuildingsInArea offsetX offsetY db allBuildings txPos rxPos := by
  have hx : rxPos.x + (txPos.x - rxPos.x) / 2 = txPos.x + (rxPos.x - txPos.x) / 2 := by ring
  have hy : rxPos.y + (txPos.y - rxPos.y) / 2 = txPos.y + (rxPos.y - txPos.y) / 2 := by ring
  simp only [getBuildingsInArea, hx, hy, Coord.sqrdist_comm rxPos txPos]

end MapManager

/-! ## Reciprocity of the Shadow model -/

namespace ShadowPropagationLossModel

open MapManager

theorem buildingLoop_flip (allBuildings : List Building) (senderPos receiverPos : Coord)
    (buildings : List Int) (shadowed : Bool) :
    calculateReceivedPower.buildingLoop allBuildings receiverPos senderPos buildings shadowed
      = calculateReceivedPower.buildingLoop allBuildings senderPos receiverPos buildings
          shadowed := by
  rw [Bool.eq_iff_iff, buildingLoop_iff, buildingLoop_iff]
  simp only [isAreaBetween_flip allBuildings senderPos.x senderPos.y receiverPos.x receiverPos.y,
    isBuildingBetween_flip allBuildings senderPos.x senderPos.y receiverPos.x receiverPos.y]

/-- C36: the Shadow model is reciprocal. For every library, sensitivity, offsets, geometry
source, cache, transmit power and frequency, exchanging the sender and the receiver position
gives the same received power, and the same cache after the call. -/
theorem calculateReceivedPower_reciprocal {α : Type} [LinearOrderedField α] (lib : Libm α)
    (sensitivityDbm : α) (offsetX offsetY : ℚ) (db : Database) (allBuildings : List Building)
    (pSend carrierFrequency : α) (senderPos receiverPos : Coord) :
    calculateReceivedPower lib sensitivityDbm offsetX offsetY db allBuildings pSend
        carrierFrequency receiverPos senderPos
      = calculateReceivedPower lib sensitivityDbm offsetX offsetY db allBuildings pSend
          carrierFrequency senderPos receiverPos := by
  have hd : Coord.distance lib receiverPos senderPos = Coord.distance lib senderPos receiverPos := by
    simp only [Coord.distance, Coord.sqrdist_comm receiverPos senderPos]
  simp only [calculateReceivedPower, hd,
    getBuildingsInArea_flip offsetX offsetY db allBuildings senderPos receiverPos,
    buildingLoop_flip]

end ShadowPropagationLossModel

/-! ## Distinct identifiers in the cache -/

namespace MapManager

/-- One call keeps the identifiers of the cache distinct, as the `int` values that
`isBuildingAlloc` compares. -/
theorem getBuildingsInArea_buildingLoop_nodup (offsetX offsetY : ℚ) (db : Database)
    (rQ : List BuildingRow) (areaBuildings : List Int) (allBuildings : List Building)
    (hrange : ∀ row ∈ rQ, -2 ^ 31 ≤ row.id ∧ row.id < 2 ^ 31)
    (hnodup : (allBuildings.map (fun b => castInt b.ID)).Nodup) :
    ((getBuildingsInArea.buildingLoop offsetX offsetY db rQ areaBuildings allBuildings).2.map
      (fun b => castInt b.ID)).Nodup := by
  induction rQ generalizing areaBuildings allBuildings with
  | nil => simpa [getBuildingsInArea.buildingLoop] using hnodup
  | cons row rQ ih =>
    have hrest : ∀ r ∈ rQ, -2 ^ 31 ≤ r.id ∧ r.id < 2 ^ 31 := fun r hr =>
      hrange r (List.mem_cons_of_mem _ hr)
    have hrow := hrange row (List.mem_cons_self _ _)
    simp only [getBuildingsInArea.buildingLoop]
    split_ifs with h1 h2 h3
    · apply ih _ _ hrest
      rw [List.map_append, List.map_cons, List.map_nil, castInt_castUnsigned hrow.1 hrow.2]
      apply List.Nodup.append hnodup (List.nodup_singleton _)
      intro x hmem hx
      rw [List.mem_singleton] at hx
      subst hx
      obtain ⟨b, hb, hbe⟩ := List.mem_map.mp hmem
      have halloc : isBuildingAlloc allBuildings row.id = true :=
        (isBuildingAlloc_iff allBuildings row.id).mpr ⟨b, hb, hbe.symm⟩
      rw [h1] at halloc
      exact Bool.false_ne_true halloc
    · exact ih _ _ hrest hnodup
    · exact ih _ _ hrest hnodup
    · exact ih _ _ hrest hnodup

theorem getBuildingsInArea_nodup (offsetX offsetY : ℚ) (db : Database)
    (allBuildings : List Building) (txPos rxPos : Coord)
    (hrange : ∀ row ∈ db.buildingTable, -2 ^ 31 ≤ row.id ∧ row.id < 2 ^ 31)
    (hnodup : (allBuildings.map (fun b => castInt b.ID)).Nodup) :
    ((getBuildingsInArea offsetX offsetY db allBuildings txPos rxPos).2.map
      (fun b => castInt b.ID)).Nodup := by
  rw [getBuildingsInArea]
  apply getBuildingsInArea_buildingLoop_nodup _ _ _ _ _ _ _ hnodup
  intro row hrow
  exact hrange row (getBuildingsInArea_rQ_subset _ _ _ _ _ _ row hrow).1

theorem getBuildingsInArea_sequence_nodup (offsetX offsetY : ℚ) (db : Database)
    (calls : List (Coord × Coord)) (allBuildings : List Building)
    (hrange : ∀ row ∈ db.buildingTable, -2 ^ 31 ≤ row.id ∧ row.id < 2 ^ 31)
    (hnodup : (allBuildings.map (fun b => castInt b.ID)).Nodup) :
    ((getBuildingsInArea.sequence offsetX offsetY db calls allBuildings).map
      (fun b => castInt b.ID)).Nodup := by
  induction calls generalizing allBuildings with
  | nil => simpa [getBuildingsInArea.sequence] using hnodup
  | cons c rest ih =>
    obtain ⟨txPos, rxPos⟩ := c
    rw [getBuildingsInArea.sequence]
    exact ih _ (getBuildingsInArea_nodup offsetX offsetY db allBuildings txPos rxPos hrange
      hnodup)

/-- C37: starting from the empty cache, after any sequence of `getBuildingsInArea` calls on a
geometry source whose building identifiers are `int` values (as `atoi` returns them), no two
cached buildings have the same identifier, whether or not a query result lists an identifier
more than once. -/
theorem getBuildingsInArea_distinct_ids (offsetX offsetY : ℚ) (db : Database)
    (calls : List (Coord × Coord))
    (hrange : ∀ row ∈ db.buildingTable, -2 ^ 31 ≤ row.id ∧ row.id < 2 ^ 31) :
    ((getBuildingsInArea.sequence offsetX offsetY db calls []).map (fun b => b.ID)).Nodup
    ∧ (getBuildingsInArea.sequence offsetX offsetY db calls []).Pairwise
        (fun b1 b2 => b1.ID ≠ b2.ID) := by
  have h := getBuildingsInArea_sequence_nodup offsetX offsetY db calls [] hrange
    (by simp)
  have h2 : ((getBuildingsInArea.sequence offsetX offsetY db calls []).map
      (fun b => b.ID)).Nodup := by
    have h3 : (((getBuildingsInArea.sequence offsetX offsetY db calls []).map
        (fun b => b.ID)).map castInt).Nodup := by
      rw [List.map_map]
      exact h
    exact List.Nodup.of_map _ h3
  exact ⟨h2, (List.pairwise_map.mp h2)⟩

/-- Witness of C37: a building table that lists the building `1` twice, and two calls for the
link from `(-1,1/2)` to `(2,1/2)`; the cache holds the building once. -/
theorem getBuildingsInArea_distinct_ids_witness :
    (getBuildingsInArea.sequence 0 0
        ⟨[⟨1, 0, 0, 1, 1⟩, ⟨1, 0, 0, 1, 1⟩], exampleDatabase.fromCornerQuery,
          exampleDatabase.toCornerQuery⟩
        [(⟨-1, 1 / 2⟩, ⟨2, 1 / 2⟩), (⟨-1, 1 / 2⟩, ⟨2, 1 / 2⟩)] []).map (fun b => b.ID) = [1]
    ∧ ((getBuildingsInArea.sequence 0 0
        ⟨[⟨1, 0, 0, 1, 1⟩, ⟨1, 0, 0, 1, 1⟩], exampleDatabase.fromCornerQuery,
          exampleDatabase.toCornerQuery⟩
        [(⟨-1, 1 / 2⟩, ⟨2, 1 / 2⟩), (⟨-1, 1 / 2⟩, ⟨2, 1 / 2⟩)] []).map
          (fun b => b.ID)).Nodup :=
  ⟨by norm_num [getBuildingsInArea.sequence, exampleDatabase, getBuildingsInArea,
      getBuildingsInArea.buildingLoop, getBuildingsInArea.wallLoop,
      getBuildingsInArea.rQ,
      getBuildingsInArea.buildingQuery, Coord.sqrdist, isBuildingAlloc, isBuildingAlloc.loop,
      castUnsigned, castInt],
    (getBuildingsInArea_distinct_ids 0 0
      ⟨[⟨1, 0, 0, 1, 1⟩, ⟨1, 0, 0, 1, 1⟩], exampleDatabase.fromCornerQuery,
        exampleDatabase.toCornerQuery⟩
      [(⟨-1, 1 / 2⟩, ⟨2, 1 / 2⟩), (⟨-1, 1 / 2⟩, ⟨2, 1 / 2⟩)]
      (by
        intro row hrow
        simp only [List.mem_cons, List.mem_singleton, List.not_mem_nil, or_false,
          or_self] at hrow
        subst hrow
        norm_num)).1⟩

end MapManager

/-! ## Shadow and Penetration on the same link -/

namespace MapManager

theorem getIntersectionBetween_ne_nil_iff (allBuildings : List Building)
    (tx_x tx_y rx_x rx_y : ℚ) (bId : Int) :
    getIntersectionBetween allBuildings tx_x tx_y rx_x rx_y bId ≠ [] ↔
      isBuildingBetween allBuildings tx_x tx_y rx_x rx_y bId = true := by
  rw [isBuildingBetween_iff, getIntersectionBetween,
    getIntersectionBetween_buildingLoop_ne_nil]
  simp only [ne_eq, not_true_eq_false, false_or]

end MapManager

namespace PenetrationPropagationLossModel

open MapManager

theorem sum_length_pos_iff {ι : Type} (l : List ι) (f : ι → List Coord) :
    0 < (l.map (fun i => ((f i).length : Int))).sum ↔ ∃ i ∈ l, f i ≠ [] := by
  induction l with
  | nil => simp
  | cons a l ih =>
    have hnn : ∀ l2 : List ι, 0 ≤ (l2.map (fun i => ((f i).length : Int))).sum := by
      intro l2
      induction l2 with
      | nil => simp
      | cons b l2 ih2 =>
        rw [List.map_cons, List.sum_cons]
        have : (0 : Int) ≤ ((f b).length : Int) := Int.natCast_nonneg _
        omega
    rw [List.map_cons, List.sum_cons]
    simp only [List.mem_cons, exists_eq_or_imp]
    rw [← ih]
    have h0 : (0 : Int) ≤ ((f a).length : Int) := Int.natCast_nonneg _
    have h1 := hnn l
    constructor
    · intro h
      by_cases ha : f a = []
      · right
        rw [ha] at h
        simpa using h
      · exact Or.inl ha
    · rintro (h | h)
      · have : 0 < (f a).length := List.length_pos.mpr h
        omega
      · omega

/-- C31: for the same link, the same cache and the same list of near buildings, the flag
`shadowed` of the Shadow model is set exactly when the wall count `nWalls` of the Penetration
model is greater than zero; a single building passes the area test and the wall test of
Shadow exactly when it adds walls to the count of Penetration. -/
theorem shadowed_iff_nWalls_pos {α : Type} [LinearOrderedField α] (lib : Libm α)
    (offsetX offsetY : ℚ) (db : Database) (allBuildings : List Building)
    (senderPos receiverPos : Coord) :
    (ShadowPropagationLossModel.calculateReceivedPower.shadowed offsetX offsetY db allBuildings
        senderPos receiverPos = true ↔
      0 < calculateReceivedPower.nWalls lib offsetX offsetY db allBuildings senderPos
        receiverPos)
    ∧ ∀ (cache : List Building) (bId : Int),
        (isAreaBetween cache senderPos.x senderPos.y receiverPos.x receiverPos.y bId = true
          ∧ isBuildingBetween cache senderPos.x senderPos.y receiverPos.x receiverPos.y bId
            = true) ↔
        0 < (calculateReceivedPower.buildingLoop lib cache senderPos receiverPos [bId] 0 0).1
      := by
  have key : ∀ (cache : List Building) (buildings : List Int),
      ShadowPropagationLossModel.calculateReceivedPower.buildingLoop cache senderPos
          receiverPos buildings false = true ↔
        0 < (calculateReceivedPower.buildingLoop lib cache senderPos receiverPos buildings
          0 0).1 := by
    intro cache buildings
    rw [ShadowPropagationLossModel.buildingLoop_iff, buildingLoop_eq]
    simp only [Bool.false_eq_true, false_or, zero_add]
    rw [sum_length_pos_iff]
    simp only [List.mem_filter, getIntersectionBetween_ne_nil_iff, and_assoc]
  refine ⟨key _ _, ?_⟩
  intro cache bId
  rw [← key cache [bId], ShadowPropagationLossModel.buildingLoop_iff]
  simp only [Bool.false_eq_true, false_or, List.mem_singleton, exists_eq_left]

/-- The distance of two points on a horizontal line, over the real library. -/
theorem real_distance_horizontal (a b y : ℚ) :
    Coord.distance Libm.real ⟨a, y⟩ ⟨b, y⟩ = |((a - b : ℚ) : ℝ)| := by
  simp only [Coord.distance, Coord.sqrdist, Libm.real, sub_self]
  push_cast
  rw [show ((a : ℝ) - b) ^ 2 + 0 ^ 2 = ((a : ℝ) - b) ^ 2 by ring, Real.sqrt_sq_eq_abs]

/-- C35: for the arch building and the link from `(0,1)` to `(10,1)`, in range at 1 Hz with
transmit power and sensitivity 1, the four walls are crossed, in wall order, at `(1,1)`,
`(9,1)`, `(8,1)` and `(2,1)`; the pairing gives the traversed distance `8 + 6 = 14`, more than
the sender-receiver distance 10, so the effective distance is `-4`. -/
theorem dBuilding_exceeds_distance :
    getIntersectionBetween (getBuildingsInArea 0 0 archDatabase [] ⟨0, 1⟩ ⟨10, 1⟩).2 0 1 10 1 5
      = [⟨1, 1⟩, ⟨9, 1⟩, ⟨8, 1⟩, ⟨2, 1⟩]
    ∧ ¬ (300000000 / (1 : ℝ) / (4 * Libm.real.PI)
          * Libm.real.sqrt (Libm.real.pow 10 (((1 : ℝ) - 1) / 10))
        < Coord.distance Libm.real ⟨0, 1⟩ ⟨10, 1⟩)
    ∧ calculateReceivedPower.nWalls Libm.real 0 0 archDatabase [] ⟨0, 1⟩ ⟨10, 1⟩ = 4
    ∧ calculateReceivedPower.dBuilding Libm.real 0 0 archDatabase [] ⟨0, 1⟩ ⟨10, 1⟩ = 14
    ∧ Coord.distance Libm.real ⟨0, 1⟩ ⟨10, 1⟩ = 10
    ∧ Coord.distance Libm.real ⟨0, 1⟩ ⟨10, 1⟩
        - calculateReceivedPower.dBuilding Libm.real 0 0 archDatabase [] ⟨0, 1⟩ ⟨10, 1⟩ < 0 := by
  have hd : Coord.distance Libm.real ⟨0, 1⟩ ⟨10, 1⟩ = 10 := by
    rw [real_distance_horizontal]
    norm_num
  have hmm : getBuildingsInArea 0 0 archDatabase [] ⟨0, 1⟩ ⟨10, 1⟩ = ([5], [archBuilding]) := by
    norm_num [archDatabase, archBuilding, getBuildingsInArea, getBuildingsInArea.buildingLoop,
      getBuildingsInArea.wallLoop, getBuildingsInArea.rQ,
      getBuildingsInArea.buildingQuery, Coord.sqrdist,
      isBuildingAlloc, isBuildingAlloc.loop, castUnsigned]
    decide
  have hint : getIntersectionBetween [archBuilding] 0 1 10 1 5
      = [⟨1, 1⟩, ⟨9, 1⟩, ⟨8, 1⟩, ⟨2, 1⟩] := by
    norm_num [archBuilding, getIntersectionBetween, getIntersectionBetween.buildingLoop,
      getIntersectionBetween.wallLoop, castInt, getIntersection, intersect, coefA, coefB, det,
      detA, detB, epsilon]
  have harea : isAreaBetween [archBuilding] 0 1 10 1 5 = true := by
    norm_num [archBuilding, isAreaBetween, castInt, getIntersection, intersect, coefA, coefB,
      det, detA, detB, epsilon]
  have hloop : calculateReceivedPower.buildingLoop Libm.real [archBuilding] ⟨0, 1⟩ ⟨10, 1⟩ [5]
      0 0 = (4, 14) := by
    rw [buildingLoop_eq]
    simp only [harea, hint, List.filter_cons_of_pos, List.filter_nil, List.map_cons,
      List.map_nil, List.sum_cons, List.sum_nil, pairedDistance, real_distance_horizontal]
    norm_num
  have hdB : calculateReceivedPower.dBuilding Libm.real 0 0 archDatabase [] ⟨0, 1⟩ ⟨10, 1⟩
      = 14 := by
    simp only [calculateReceivedPower.dBuilding, hmm, hloop]
  refine ⟨by rw [hmm]; exact hint, ?_, ?_, hdB, hd, ?_⟩
  · rw [Libm.real_rMax, hd, not_lt, le_div_iff₀ (by positivity)]
    have := Real.pi_le_four
    norm_num
    linarith
  · simp only [calculateReceivedPower.nWalls, hmm, hloop]
  · rw [hd, hdB]
    norm_num

end PenetrationPropagationLossModel

/-! ## The knife-edge parameter and the diffraction loss -/

namespace DiffractionPropagationLossModel

open MapManager

/-- C32: whenever `sqrt` and `sin(acos(.))` of the library return non-negative values, the
height `h` and the knife-edge parameter `v` of every sender, receiver, corner and wave length
are non-negative; so `diffract` is called by the knife-edge loop with `v >= 0` only: never in
the branch `v <= -1`, and in the branch `-1 < v <= 0` only with `v = 0`. -/
theorem knife_edge_nonneg {α : Type} [LinearOrderedField α] (lib : Libm α)
    (waveLength dsr : α) (senderPos receiverPos itfdc : Coord)
    (hsqrt : ∀ x : α, 0 ≤ lib.sqrt x) (hsin : ∀ x : α, 0 ≤ lib.sin (lib.acos x)) :
    0 ≤ calculateReceivedPower.h lib dsr senderPos receiverPos itfdc
    ∧ 0 ≤ calculateReceivedPower.v lib waveLength dsr senderPos receiverPos itfdc
    ∧ ¬ calculateReceivedPower.v lib waveLength dsr senderPos receiverPos itfdc ≤ -1
    ∧ (calculateReceivedPower.v lib waveLength dsr senderPos receiverPos itfdc > -1
        ∧ calculateReceivedPower.v lib waveLength dsr senderPos receiverPos itfdc ≤ 0 →
      calculateReceivedPower.v lib waveLength dsr senderPos receiverPos itfdc = 0)
    ∧ ∀ (rest : List Coord) (Ld : α),
        calculateReceivedPower.lossLoop lib waveLength dsr senderPos receiverPos
            (itfdc :: rest) Ld
          = calculateReceivedPower.lossLoop lib waveLength dsr senderPos receiverPos rest
              (if diffract lib (calculateReceivedPower.v lib waveLength dsr senderPos
                  receiverPos itfdc) > Ld
                then diffract lib (calculateReceivedPower.v lib waveLength dsr senderPos
                  receiverPos itfdc)
                else Ld) := by
  have hh : 0 ≤ calculateReceivedPower.h lib dsr senderPos receiverPos itfdc := by
    simp only [calculateReceivedPower.h, Coord.distance]
    exact mul_nonneg (hsqrt _) (hsin _)
  have hv : 0 ≤ calculateReceivedPower.v lib waveLength dsr senderPos receiverPos itfdc := by
    simp only [calculateReceivedPower.v]
    exact mul_nonneg hh (hsqrt _)
  refine ⟨hh, hv, ?_, ?_, fun rest Ld => lossLoop_cons lib waveLength dsr senderPos receiverPos
    itfdc rest Ld⟩
  · intro h
    linarith
  · rintro ⟨_, h⟩
    exact le_antisymm h hv

/-- Witness of C32: the real library, sender `(0,2)`, receiver `(6,2)`, the corner `(3,1)` and
the wave length 1. -/
theorem knife_edge_nonneg_witness :
    0 ≤ calculateReceivedPower.h Libm.real (Coord.distance Libm.real ⟨0, 2⟩ ⟨6, 2⟩) ⟨0, 2⟩
        ⟨6, 2⟩ ⟨3, 1⟩
    ∧ 0 ≤ calculateReceivedPower.v Libm.real 1 (Coord.distance Libm.real ⟨0, 2⟩ ⟨6, 2⟩)
        ⟨0, 2⟩ ⟨6, 2⟩ ⟨3, 1⟩ :=
  ⟨(knife_edge_nonneg Libm.real 1 (Coord.distance Libm.real ⟨0, 2⟩ ⟨6, 2⟩) ⟨0, 2⟩ ⟨6, 2⟩
      ⟨3, 1⟩ Real.sqrt_nonneg
      (fun x => Real.sin_nonneg_of_nonneg_of_le_pi (Real.arccos_nonneg x)
        (Real.arccos_le_pi x))).1,
    (knife_edge_nonneg Libm.real 1 (Coord.distance Libm.real ⟨0, 2⟩ ⟨6, 2⟩) ⟨0, 2⟩ ⟨6, 2⟩
      ⟨3, 1⟩ Real.sqrt_nonneg
      (fun x => Real.sin_nonneg_of_nonneg_of_le_pi (Real.arccos_nonneg x)
        (Real.arccos_le_pi x))).2.1⟩

/-- The value of `diffract` is 0 where no logarithm is evaluated, and 20 times the logarithm
of `diffract.logArgument` elsewhere. -/
theorem diffract_eq_logArgument {α : Type} [LinearOrderedField α] (lib : Libm α) (v : α) :
    diffract lib v
      = match diffract.logArgument lib v with
        | none => 0
        | some a => 20 * lib.log a := by
  simp only [diffract, diffract.logArgument]
  split_ifs <;> rfl

/-- The argument of the square root is the one under `sqrt` in `diffract.logArgument`. -/
theorem logArgument_eq_sqrtArgument {α : Type} [LinearOrderedField α] (lib : Libm α) (v : α)
    (h1 : 1 < v) (h2 : v ≤ 24 / 10) :
    ∃ r, diffract.sqrtArgument v = some r
      ∧ diffract.logArgument lib v = some (4 / 10 - lib.sqrt r) := by
  have e1 : ¬ v ≤ -1 := by linarith
  have e2 : ¬ v ≤ 0 := by linarith
  have e3 : ¬ v ≤ 1 := not_le.mpr h1
  refine ⟨1184 / 10000 - (38 / 100 - 1 / 10 * v) * (38 / 100 - 1 / 10 * v), ?_, ?_⟩
  · simp only [diffract.sqrtArgument, if_neg e1, gt_iff_lt, e2, e3, and_false, if_false, h1, h2,
      and_self, if_true]
  · simp only [diffract.logArgument, if_neg e1, gt_iff_lt, e2, e3, and_false, if_false, h1, h2,
      and_self, if_true]

theorem logArgument_real_pos (v a : ℝ) (ha : diffract.logArgument Libm.real v = some a) :
    0 < a ∧ (0 ≤ v → a < 1) := by
  simp only [diffract.logArgument, Libm.real] at ha
  split_ifs at ha with h1 h2 h3 h4
  · simp only [Option.some.injEq] at ha
    subst ha
    constructor
    · linarith [h2.1, h2.2]
    · intro h0
      linarith [h2.2]
  · simp only [Option.some.injEq] at ha
    subst ha
    have hexp : Real.exp (-(95 / 100) * v) < 1 := by
      rw [Real.exp_lt_one_iff]
      nlinarith [h3.1]
    have hpos := Real.exp_pos (-(95 / 100) * v)
    constructor
    · positivity
    · intro _
      linarith
  · simp only [Option.some.injEq] at ha
    subst ha
    have hr : 1184 / 10000 - (38 / 100 - 1 / 10 * v) * (38 / 100 - 1 / 10 * v)
        < (4 / 10 : ℝ) ^ 2 := by
      nlinarith [h4.1, h4.2, mul_self_nonneg (38 / 100 - 1 / 10 * v)]
    have hs : Real.sqrt (1184 / 10000 - (38 / 100 - 1 / 10 * v) * (38 / 100 - 1 / 10 * v))
        < 4 / 10 := (Real.sqrt_lt' (by norm_num)).mpr hr
    have hs0 := Real.sqrt_nonneg
      (1184 / 10000 - (38 / 100 - 1 / 10 * v) * (38 / 100 - 1 / 10 * v))
    constructor
    · linarith
    · intro _
      linarith
  · simp only [Option.some.injEq] at ha
    subst ha
    have hv : 24 / 10 < v := by
      by_contra hle
      have h5 : 1 < v := by
        by_contra hle1
        have h6 : 0 < v := by
          by_contra hle0
          exact h2 ⟨not_le.mp h1, not_lt.mp hle0⟩
        exact h3 ⟨h6, not_lt.mp hle1⟩
      exact h4 ⟨h5, not_lt.mp hle⟩
    have hv0 : 0 < v := by linarith
    constructor
    · positivity
    · intro _
      rw [div_lt_one hv0]
      linarith

/-- C33: over the reals the logarithm of `diffract` is evaluated for every `v > -1`, always at
a strictly positive argument, and the square root, evaluated for `1 < v <= 2.4`, at a
non-negative argument; for `v >= 0` the argument of the logarithm is below 1 and
`diffract(v) < 0`. -/
theorem diffract_well_defined (v : ℝ) :
    diffract Libm.real v
      = (match diffract.logArgument Libm.real v with
        | none => 0
        | some a => 20 * Real.log a)
    ∧ (-1 < v → ∃ a, diffract.logArgument Libm.real v = some a)
    ∧ (∀ a, diffract.logArgument Libm.real v = some a → 0 < a)
    ∧ (1 < v ∧ v ≤ 2.4 → ∃ r, diffract.sqrtArgument v = some r
        ∧ diffract.logArgument Libm.real v = some (4 / 10 - Real.sqrt r))
    ∧ (∀ r, diffract.sqrtArgument v = some r → 0 ≤ r)
    ∧ (0 ≤ v → ∀ a, diffract.logArgument Libm.real v = some a → a < 1)
    ∧ (0 ≤ v → diffract Libm.real v < 0) := by
  have hsome : -1 < v → ∃ a, diffract.logArgument Libm.real v = some a := by
    intro h
    have e1 : ¬ v ≤ -1 := not_le.mpr h
    simp only [diffract.logArgument, if_neg e1]
    split_ifs <;> exact ⟨_, rfl⟩
  refine ⟨by rw [diffract_eq_logArgument]; cases diffract.logArgument Libm.real v <;> rfl,
    hsome,
    fun a ha => (logArgument_real_pos v a ha).1, ?_, ?_,
    fun h0 a ha => (logArgument_real_pos v a ha).2 h0, ?_⟩
  · rintro ⟨h1, h2⟩
    exact logArgument_eq_sqrtArgument Libm.real v h1 (by norm_num at h2 ⊢; exact h2)
  · intro r hr
    simp only [diffract.sqrtArgument] at hr
    split_ifs at hr with h1 h2 h3 h4
    simp only [Option.some.injEq] at hr
    subst hr
    nlinarith [h4.1, h4.2, mul_self_nonneg (38 / 100 - 1 / 10 * v)]
  · intro h0
    obtain ⟨a, ha⟩ := hsome (by linarith)
    rw [diffract_eq_logArgument, ha]
    have hpos := (logArgument_real_pos v a ha).1
    have hlt := (logArgument_real_pos v a ha).2 h0
    have hlog : Real.log a < 0 := Real.log_neg hpos hlt
    show 20 * Libm.real.log a < 0
    simp only [Libm.real]
    linarith

end DiffractionPropagationLossModel

namespace DiffractionPropagationLossModel

theorem diffract_of_mid {α : Type} [LinearOrderedField α] (lib : Libm α) (v : α)
    (h1 : 0 < v) (h2 : v ≤ 1) :
    diffract lib v = 20 * lib.log (5 / 10 * lib.exp (-(95 / 100) * v)) := by
  have e1 : ¬ v ≤ -1 := by linarith
  have e2 : ¬ v ≤ 0 := not_le.mpr h1
  simp only [diffract, if_neg e1, gt_iff_lt, e2, and_false, if_false, h1, h2, and_self, if_true]

theorem diffract_of_upper {α : Type} [LinearOrderedField α] (lib : Libm α) (v : α)
    (h1 : 1 < v) (h2 : v ≤ 24 / 10) :
    diffract lib v = 20 * lib.log (4 / 10 - lib.sqrt
      (1184 / 10000 - (38 / 100 - 1 / 10 * v) * (38 / 100 - 1 / 10 * v))) := by
  have e1 : ¬ v ≤ -1 := by linarith
  have e2 : ¬ v ≤ 0 := by linarith
  have e3 : ¬ v ≤ 1 := not_le.mpr h1
  simp only [diffract, if_neg e1, gt_iff_lt, e2, e3, and_false, if_false, h1, h2, and_self,
    if_true]

theorem diffract_of_high {α : Type} [LinearOrderedField α] (lib : Libm α) (v : α)
    (h1 : 24 / 10 < v) :
    diffract lib v = 20 * lib.log (225 / 1000 / v) := by
  have e1 : ¬ v ≤ -1 := by linarith
  have e2 : ¬ v ≤ 0 := by linarith
  have e3 : ¬ v ≤ 1 := by linarith
  have e4 : ¬ v ≤ 24 / 10 := not_le.mpr h1
  simp only [diffract, if_neg e1, gt_iff_lt, e2, e3, e4, and_false, if_false]

/-- The value `exp(-0.95)` is below `0.39`. -/
theorem real_exp_bound : Real.exp (-(95 / 100) * 1) < 39 / 100 := by
  have h1 := Real.exp_one_gt_d9
  have h2 := Real.add_one_le_exp (-(5 / 100) : ℝ)
  have h3 : Real.exp (95 / 100) = Real.exp 1 * Real.exp (-(5 / 100)) := by
    rw [← Real.exp_add]
    norm_num
  have h4 : (258 / 100 : ℝ) < Real.exp (95 / 100) := by
    rw [h3]
    norm_num at h1 h2
    nlinarith
  have h5 : Real.exp (-(95 / 100) * 1) * Real.exp (95 / 100) = 1 := by
    rw [← Real.exp_add]
    norm_num
  have h6 := Real.exp_pos (-(95 / 100) * 1)
  nlinarith

/-- The loss jumps up at `v = 1`. -/
theorem diffract_jump_one : diffract Libm.real 1 < diffract Libm.real (101 / 100) := by
  rw [diffract_of_mid Libm.real 1 (by norm_num) (by norm_num),
    diffract_of_upper Libm.real (101 / 100) (by norm_num) (by norm_num)]
  simp only [Libm.real]
  have hs : Real.sqrt (1184 / 10000
      - (38 / 100 - 1 / 10 * (101 / 100)) * (38 / 100 - 1 / 10 * (101 / 100)))
      < 2014 / 10000 := by
    rw [Real.sqrt_lt' (by norm_num)]
    norm_num
  have he := real_exp_bound
  have hpos := Real.exp_pos (-(95 / 100) * 1)
  have hlog : Real.log (5 / 10 * Real.exp (-(95 / 100) * 1))
      < Real.log (4 / 10 - Real.sqrt (1184 / 10000
        - (38 / 100 - 1 / 10 * (101 / 100)) * (38 / 100 - 1 / 10 * (101 / 100)))) := by
    apply Real.log_lt_log
    · positivity
    · linarith
  linarith

/-- The loss jumps up at `v = 2.4`. -/
theorem diffract_jump_upper : diffract Libm.real (24 / 10) < diffract Libm.real (25 / 10) := by
  rw [diffract_of_upper Libm.real (24 / 10) (by norm_num) (by norm_num),
    diffract_of_high Libm.real (25 / 10) (by norm_num)]
  simp only [Libm.real]
  have hs1 : (31 / 100 : ℝ) < Real.sqrt (1184 / 10000
      - (38 / 100 - 1 / 10 * (24 / 10)) * (38 / 100 - 1 / 10 * (24 / 10))) := by
    rw [Real.lt_sqrt (by norm_num)]
    norm_num
  have hs2 : Real.sqrt (1184 / 10000
      - (38 / 100 - 1 / 10 * (24 / 10)) * (38 / 100 - 1 / 10 * (24 / 10))) < 4 / 10 := by
    rw [Real.sqrt_lt' (by norm_num)]
    norm_num
  have hlog : Real.log (4 / 10 - Real.sqrt (1184 / 10000
        - (38 / 100 - 1 / 10 * (24 / 10)) * (38 / 100 - 1 / 10 * (24 / 10))))
      < Real.log (225 / 1000 / (25 / 10)) := by
    apply Real.log_lt_log
    · linarith
    · have e : (225 / 1000 / (25 / 10) : ℝ) = 9 / 100 := by norm_num
      rw [e]
      linarith
  linarith

/-- The loss falls from `v = 1/2` to `v = 1`. -/
theorem diffract_fall_mid : diffract Libm.real 1 < diffract Libm.real (1 / 2) := by
  rw [diffract_of_mid Libm.real 1 (by norm_num) (by norm_num),
    diffract_of_mid Libm.real (1 / 2) (by norm_num) (by norm_num)]
  simp only [Libm.real]
  have he : Real.exp (-(95 / 100) * 1) < Real.exp (-(95 / 100) * (1 / 2)) := by
    rw [Real.exp_lt_exp]
    norm_num
  have hpos := Real.exp_pos (-(95 / 100) * 1)
  have hlog : Real.log (5 / 10 * Real.exp (-(95 / 100) * 1))
      < Real.log (5 / 10 * Real.exp (-(95 / 100) * (1 / 2))) := by
    apply Real.log_lt_log
    · positivity
    · linarith
  linarith

/-- C34: over the reals `diffract` is not monotone on `v >= 0`: it rises from `v1 = 1` in
`(0,1]` to `v2 = 1.01` in `(1,2.4]` and from `v1 = 2.4` in `(1,2.4]` to `v2 = 2.5`, while it
falls from `1/2` to `1`; it is neither antitone nor monotone on `[0, ∞)`. -/
theorem diffract_not_monotone :
    (∃ v1 v2 : ℝ, 0 < v1 ∧ v1 ≤ 1 ∧ 1 < v2 ∧ v2 ≤ 2.4 ∧ v1 < v2
      ∧ diffract Libm.real v2 > diffract Libm.real v1)
    ∧ (∃ v1 v2 : ℝ, 1 < v1 ∧ v1 ≤ 2.4 ∧ 2.4 < v2 ∧ v1 < v2
      ∧ diffract Libm.real v2 > diffract Libm.real v1)
    ∧ diffract Libm.real 1.01 > diffract Libm.real 1
    ∧ diffract Libm.real 2.5 > diffract Libm.real 2.4
    ∧ ¬ AntitoneOn (diffract Libm.real) (Set.Ici 0)
    ∧ ¬ MonotoneOn (diffract Libm.real) (Set.Ici 0) := by
  have e1 : (1.01 : ℝ) = 101 / 100 := by norm_num
  have e2 : (2.5 : ℝ) = 25 / 10 := by norm_num
  have e3 : (2.4 : ℝ) = 24 / 10 := by norm_num
  refine ⟨⟨1, 101 / 100, by norm_num, by norm_num, by norm_num, by norm_num, by norm_num,
      diffract_jump_one⟩,
    ⟨24 / 10, 25 / 10, by norm_num, by norm_num, by norm_num, by norm_num,
      diffract_jump_upper⟩, ?_, ?_, ?_, ?_⟩
  · rw [e1]
    exact diffract_jump_one
  · rw [e2, e3]
    exact diffract_jump_upper
  · intro h
    have := h (show (1 : ℝ) ∈ Set.Ici 0 by norm_num [Set.mem_Ici])
      (show (101 / 100 : ℝ) ∈ Set.Ici 0 by norm_num [Set.mem_Ici])
      (show (1 : ℝ) ≤ 101 / 100 by norm_num)
    exact absurd diffract_jump_one (not_lt.mpr this)
  · intro h
    have := h (show (1 / 2 : ℝ) ∈ Set.Ici 0 by norm_num [Set.mem_Ici])
      (show (1 : ℝ) ∈ Set.Ici 0 by norm_num [Set.mem_Ici])
      (show (1 / 2 : ℝ) ≤ 1 by norm_num)
    exact absurd diffract_fall_mid (not_lt.mpr this)

end DiffractionPropagationLossModel

/-! ## The two-ray interference model -/

namespace TwoRayInterferenceModel

/-- The received power in terms of the locals `gamma` and `phi`. -/
theorem calculateReceivedPower_eq_locals {α : Type} [LinearOrderedField α] (lib : Libm α)
    (ht hr epsilon_r pSend carrierFrequency distance : α) (hd : distance ≠ 0) :
    calculateReceivedPower lib ht hr epsilon_r pSend carrierFrequency distance
      = pSend / lib.pow (4 * lib.M_PI * (distance / (300000000 / carrierFrequency)) * 1
          / lib.sqrt (lib.pow (1 + calculateReceivedPower.gamma lib ht hr epsilon_r distance
              * lib.cos (calculateReceivedPower.phi lib ht hr carrierFrequency distance)) 2
            + lib.pow (calculateReceivedPower.gamma lib ht hr epsilon_r distance) 2
              * lib.pow (lib.sin (calculateReceivedPower.phi lib ht hr carrierFrequency
                  distance)) 2)) 2 := by
  simp only [calculateReceivedPower, if_neg hd, calculateReceivedPower.gamma,
    calculateReceivedPower.phi, calculateReceivedPower.sin_theta,
    calculateReceivedPower.cos_theta, calculateReceivedPower.d_ref,
    calculateReceivedPower.d_dir]

/-- The reflection coefficient over the real library: the length of the reflected path is
positive, the argument of the square root is non-negative, the denominator is positive and
`gamma` lies in `(-1, 0]`. -/
theorem real_gamma_bounds (ht hr epsilon_r distance : ℝ) (hd : 0 < distance)
    (hh : 0 < ht + hr) (he : 1 ≤ epsilon_r) :
    0 < calculateReceivedPower.d_ref Libm.real ht hr distance
    ∧ 0 ≤ epsilon_r
        - Libm.real.pow (calculateReceivedPower.cos_theta Libm.real ht hr distance) 2
    ∧ 0 < calculateReceivedPower.sin_theta Libm.real ht hr distance
        + Libm.real.sqrt (epsilon_r
          - Libm.real.pow (calculateReceivedPower.cos_theta Libm.real ht hr distance) 2)
    ∧ -1 < calculateReceivedPower.gamma Libm.real ht hr epsilon_r distance
    ∧ calculateReceivedPower.gamma Libm.real ht hr epsilon_r distance ≤ 0 := by
  have hD2 : 0 < distance ^ 2 + (ht + hr) ^ 2 := by positivity
  have hD : 0 < Real.sqrt (distance ^ 2 + (ht + hr) ^ 2) := Real.sqrt_pos.mpr hD2
  have hDsq : Real.sqrt (distance ^ 2 + (ht + hr) ^ 2) ^ 2 = distance ^ 2 + (ht + hr) ^ 2 :=
    Real.sq_sqrt hD2.le
  have hs : 0 < (ht + hr) / Real.sqrt (distance ^ 2 + (ht + hr) ^ 2) := div_pos hh hD
  have hcs : (distance / Real.sqrt (distance ^ 2 + (ht + hr) ^ 2)) ^ 2
      + ((ht + hr) / Real.sqrt (distance ^ 2 + (ht + hr) ^ 2)) ^ 2 = 1 := by
    rw [div_pow, div_pow, hDsq, ← add_div, div_self hD2.ne']
  have harg : ((ht + hr) / Real.sqrt (distance ^ 2 + (ht + hr) ^ 2)) ^ 2
      ≤ epsilon_r - (distance / Real.sqrt (distance ^ 2 + (ht + hr) ^ 2)) ^ 2 := by
    linarith
  have hq : (ht + hr) / Real.sqrt (distance ^ 2 + (ht + hr) ^ 2)
      ≤ Real.sqrt (epsilon_r - (distance / Real.sqrt (distance ^ 2 + (ht + hr) ^ 2)) ^ 2) :=
    Real.le_sqrt_of_sq_le harg
  have hden : 0 < (ht + hr) / Real.sqrt (distance ^ 2 + (ht + hr) ^ 2)
      + Real.sqrt (epsilon_r - (distance / Real.sqrt (distance ^ 2 + (ht + hr) ^ 2)) ^ 2) := by
    linarith
  simp only [calculateReceivedPower.gamma, calculateReceivedPower.sin_theta,
    calculateReceivedPower.cos_theta, calculateReceivedPower.d_ref, Libm.real, Real.rpow_two]
  refine ⟨hD, ?_, hden, ?_, ?_⟩
  · linarith [sq_nonneg ((ht + hr) / Real.sqrt (distance ^ 2 + (ht + hr) ^ 2))]
  · rw [lt_div_iff₀ hden]
    linarith
  · exact div_nonpos_of_nonpos_of_nonneg (by linarith) hden.le

/-- The interference term is positive for a reflection coefficient in `(-1, 0]`. -/
theorem real_interference_pos (gamma phi : ℝ) (h1 : -1 < gamma) (h2 : gamma ≤ 0) :
    0 < (1 + gamma * Real.cos phi) ^ 2 + gamma ^ 2 * Real.sin phi ^ 2 := by
  have hsc := Real.sin_sq_add_cos_sq phi
  have hc := Real.cos_le_one phi
  have e : (1 + gamma * Real.cos phi) ^ 2 + gamma ^ 2 * Real.sin phi ^ 2
      = 1 + 2 * gamma * Real.cos phi + gamma ^ 2 * (Real.sin phi ^ 2 + Real.cos phi ^ 2) := by
    ring
  rw [e, hsc]
  nlinarith [mul_nonneg (neg_nonneg.mpr h2) (sub_nonneg.mpr hc), sq_nonneg (1 + gamma),
    mul_pos (by linarith : (0 : ℝ) < 1 + gamma) (by linarith : (0 : ℝ) < 1 + gamma)]

/-- C38: over the reals, for every distance other than zero for which
`(1 + gamma*cos(phi))^2 + gamma^2*sin(phi)^2` is positive, the TwoRayInterference result is
the unclamped free-space power `pSend * (waveLength / (4*pi*d))^2` times the interference
factor `1 + 2*gamma*cos(phi) + gamma^2`. -/
theorem calculateReceivedPower_interference (ht hr epsilon_r pSend carrierFrequency
    distance : ℝ) (hf : carrierFrequency ≠ 0) (hd : distance ≠ 0)
    (hX : 0 < (1 + calculateReceivedPower.gamma Libm.real ht hr epsilon_r distance
          * Real.cos (calculateReceivedPower.phi Libm.real ht hr carrierFrequency distance)) ^ 2
        + calculateReceivedPower.gamma Libm.real ht hr epsilon_r distance ^ 2
          * Real.sin (calculateReceivedPower.phi Libm.real ht hr carrierFrequency distance)
            ^ 2) :
    calculateReceivedPower Libm.real ht hr epsilon_r pSend carrierFrequency distance
      = pSend * (300000000 / carrierFrequency / (4 * Real.pi * distance)) ^ 2
        * (1 + 2 * calculateReceivedPower.gamma Libm.real ht hr epsilon_r distance
            * Real.cos (calculateReceivedPower.phi Libm.real ht hr carrierFrequency distance)
          + calculateReceivedPower.gamma Libm.real ht hr epsilon_r distance ^ 2) := by
  rw [calculateReceivedPower_eq_locals Libm.real ht hr epsilon_r pSend carrierFrequency
    distance hd]
  generalize calculateReceivedPower.gamma Libm.real ht hr epsilon_r distance = gamma at hX ⊢
  generalize calculateReceivedPower.phi Libm.real ht hr carrierFrequency distance = phi at hX ⊢
  have hsc := Real.sin_sq_add_cos_sq phi
  have e : (1 + gamma * Real.cos phi) ^ 2 + gamma ^ 2 * Real.sin phi ^ 2
      = 1 + 2 * gamma * Real.cos phi + gamma ^ 2 := by
    have : (1 + gamma * Real.cos phi) ^ 2 + gamma ^ 2 * Real.sin phi ^ 2
        = 1 + 2 * gamma * Real.cos phi
          + gamma ^ 2 * (Real.sin phi ^ 2 + Real.cos phi ^ 2) := by
      ring
    rw [this, hsc, mul_one]
  simp only [Libm.real, Real.rpow_two]
  rw [e] at hX ⊢
  have hs : Real.sqrt (1 + 2 * gamma * Real.cos phi + gamma ^ 2) ^ 2
      = 1 + 2 * gamma * Real.cos phi + gamma ^ 2 := Real.sq_sqrt hX.le
  have hs0 : Real.sqrt (1 + 2 * gamma * Real.cos phi + gamma ^ 2) ≠ 0 :=
    (Real.sqrt_pos.mpr hX).ne'
  have hpi := Real.pi_ne_zero
  rw [mul_one, div_pow, hs]
  field_simp
  ring

/-- Witness of C38: both antennas at height 1, relative permittivity 2, transmit power 1,
300 MHz, distance 1. -/
theorem calculateReceivedPower_interference_witness :
    calculateReceivedPower Libm.real 1 1 2 1 300000000 1
      = 1 * (300000000 / 300000000 / (4 * Real.pi * 1)) ^ 2
        * (1 + 2 * calculateReceivedPower.gamma Libm.real 1 1 2 1
            * Real.cos (calculateReceivedPower.phi Libm.real 1 1 300000000 1)
          + calculateReceivedPower.gamma Libm.real 1 1 2 1 ^ 2) :=
  calculateReceivedPower_interference 1 1 2 1 300000000 1 (by norm_num) one_ne_zero
    (real_interference_pos _ _
      (real_gamma_bounds 1 1 2 1 one_pos (by norm_num) (by norm_num)).2.2.2.1
      (real_gamma_bounds 1 1 2 1 one_pos (by norm_num) (by norm_num)).2.2.2.2)

/-- C39: over the reals, for every distance `d > 0`, antenna heights with `ht + hr > 0` and
dielectric constant `epsilon_r >= 1`, the reflection coefficient `gamma` is well defined (the
reflected path has positive length, the argument of the square root is non-negative, the
denominator is not zero) and `-1 < gamma <= 0`. -/
theorem gamma_well_defined (ht hr epsilon_r distance : ℝ) (hd : 0 < distance)
    (hh : 0 < ht + hr) (he : 1 ≤ epsilon_r) :
    calculateReceivedPower.d_ref Libm.real ht hr distance ≠ 0
    ∧ 0 ≤ epsilon_r
        - Libm.real.pow (calculateReceivedPower.cos_theta Libm.real ht hr distance) 2
    ∧ calculateReceivedPower.sin_theta Libm.real ht hr distance
        + Libm.real.sqrt (epsilon_r
          - Libm.real.pow (calculateReceivedPower.cos_theta Libm.real ht hr distance) 2) ≠ 0
    ∧ -1 < calculateReceivedPower.gamma Libm.real ht hr epsilon_r distance
    ∧ calculateReceivedPower.gamma Libm.real ht hr epsilon_r distance ≤ 0 := by
  have h := real_gamma_bounds ht hr epsilon_r distance hd hh he
  exact ⟨h.1.ne', h.2.1, h.2.2.1.ne', h.2.2.2.1, h.2.2.2.2⟩

/-- Witness of C39: both antennas at height 1, relative permittivity 2, distance 1. -/
theorem gamma_well_defined_witness :
    -1 < calculateReceivedPower.gamma Libm.real 1 1 2 1
    ∧ calculateReceivedPower.gamma Libm.real 1 1 2 1 ≤ 0 :=
  (gamma_well_defined 1 1 2 1 one_pos (by norm_num) (by norm_num)).2.2.2

end TwoRayInterferenceModel
